import Mathlib

/-!
# Xsolla store controller: request classification and cart reconciliation

A shallow embedding of `Source/XsollaStore/Private/XsollaStoreController.cpp`.

* The controller object is a record `UXsollaStoreController`; every member
  function takes the record and returns the updated record.
* Everything the controller hands to a collaborator (starting a request,
  broadcasting the cart, executing a callback, saving) is appended to the
  field `Trace`, oldest first.
* Engine services that the file calls but does not define (JSON reader and
  writer, the success range of status codes, struct conversion, version
  strings) are the fields of `FEngine`, so every result holds for any
  behaviour of the engine.
* `int32` values are integers; `FString` is `String`, and the engine comparison
  `FString::operator==`, which ignores case, is `FString.Equals`.
* Log lines (`UE_LOG`) are not modelled.
-/

namespace XsollaStore

set_option linter.unusedVariables false

/-! ## Engine types -/

/-- Status of a transport request (`EHttpRequestStatus::Type`). -/
inductive EHttpRequestStatus where
  | NotStarted
  | Processing
  | Failed
  | Failed_ConnectionError
  | Succeeded
  deriving DecidableEq, Repr

/-- Verb used by a request (`ERequestVerb`). -/
inductive ERequestVerb where
  | GET
  | POST
  | PUT
  | DELETE
  deriving DecidableEq, Repr

/-- A JSON value as the engine holds it (`FJsonValue`); numbers are kept as integers. -/
inductive FJsonValue where
  | FJsonValueNull : FJsonValue
  | FJsonValueBoolean (Value : Bool) : FJsonValue
  | FJsonValueNumber (Value : Int) : FJsonValue
  | FJsonValueString (Value : String) : FJsonValue
  | FJsonValueArray (Value : List FJsonValue) : FJsonValue
  | FJsonValueObject (Value : List (String × FJsonValue)) : FJsonValue

open FJsonValue

/-- A JSON object (`FJsonObject`): its fields by name. -/
abbrev FJsonObject := List (String × FJsonValue)

/-- A completed response (`IHttpResponse`): status code and body text. -/
structure FHttpResponse where
  ResponseCode : Int
  ContentAsString : String
  deriving DecidableEq, Repr

/-- A delegate handle: the identity of a bound callback. -/
abbrev FDelegate := Nat

/-! ## Data model -/

/-- Modelled from the spec: the data-model header is not among the sources. A
catalog group reference carried by an item, read through `external_id`. -/
structure FStoreItemGroup where
  external_id : String
  deriving DecidableEq, Repr

/-- Modelled from the spec: a catalog item (sku, descriptive data, groups); `name`
stands for the descriptive fields that the cart line item copies. -/
structure FStoreItem where
  sku : String
  name : String
  groups : List FStoreItemGroup
  deriving DecidableEq, Repr

/-- Modelled from the spec: a virtual currency package of the catalog. -/
structure FVirtualCurrencyPackage where
  sku : String
  name : String
  deriving DecidableEq, Repr

/-- Modelled from the spec: a cart line item (sku, quantity, descriptive data). -/
structure FStoreCartItem where
  sku : String
  name : String
  quantity : Int
  deriving DecidableEq, Repr

/-- Modelled from the spec: the converting constructor `FStoreCartItem(const FStoreItem&)`,
a line item synthesised from a catalog item. -/
def FStoreCartItem.ofStoreItem (Item : FStoreItem) : FStoreCartItem :=
  { sku := Item.sku, name := Item.name, quantity := 0 }

/-- Modelled from the spec: the converting constructor
`FStoreCartItem(const FVirtualCurrencyPackage&)`. -/
def FStoreCartItem.ofCurrencyPackage (CurrencyPackage : FVirtualCurrencyPackage) : FStoreCartItem :=
  { sku := CurrencyPackage.sku, name := CurrencyPackage.name, quantity := 0 }

/-- Modelled from the spec: the cart, a server-issued integer id and an ordered list of
line items. -/
structure FStoreCart where
  cart_id : Int
  Items : List FStoreCartItem
  deriving DecidableEq, Repr

/-- Modelled from the spec: the constructor `FStoreCart(int32)`, a fresh cart
carrying the given id and no items. -/
def FStoreCart.ofId (CartId : Int) : FStoreCart :=
  { cart_id := CartId, Items := [] }

/-- Modelled from the spec: the cached catalog (items, the set of group ids, groups). -/
structure FStoreItemsData where
  Items : List FStoreItem := []
  GroupIds : List String := []
  Groups : List FStoreItemGroup := []
  deriving DecidableEq, Repr

/-- Modelled from the spec: the cached virtual currency packages. -/
structure FVirtualCurrencyPackagesData where
  Items : List FVirtualCurrencyPackage := []
  deriving DecidableEq, Repr

/-- Modelled from the spec: a virtual currency of the catalog; a default-constructed one
has empty fields. -/
structure FVirtualCurrency where
  sku : String := ""
  name : String := ""
  deriving DecidableEq, Repr

/-- Modelled from the spec: the cached virtual currencies. -/
structure FVirtualCurrencyData where
  Items : List FVirtualCurrency := []
  deriving DecidableEq, Repr

/-- Modelled from the spec: an entry of the inventory snapshot. -/
structure FStoreInventoryItem where
  sku : String
  quantity : Int
  deriving DecidableEq, Repr

/-- Modelled from the spec: the cached inventory snapshot. -/
structure FStoreInventory where
  Items : List FStoreInventoryItem := []
  deriving DecidableEq, Repr

/-- Modelled from the spec: the balance of one virtual currency. -/
structure FVirtualCurrencyBalance where
  sku : String
  amount : Int
  deriving DecidableEq, Repr

/-- Modelled from the spec: the cached currency balance snapshot. -/
structure FVirtualCurrencyBalanceData where
  Items : List FVirtualCurrencyBalance := []
  deriving DecidableEq, Repr

/-- Modelled from the spec: the order status handed to the order-check callback
(`EXsollaOrderStatus`). -/
inductive EXsollaOrderStatus where
  | Unknown
  | New
  | Paid
  | Done
  deriving DecidableEq, Repr

/-- Modelled from the spec: the project settings that the controller reads
(`UXsollaStoreSettings`). -/
structure UXsollaStoreSettings where
  bSandbox : Bool := false
  bEnableSandboxInShipping : Bool := false
  bBuildForSteam : Bool := false
  deriving DecidableEq, Repr

/-! ## Engine services -/

/-- Services of the engine and of the build that the controller calls. -/
structure FEngine where
  /-- The test `EHttpResponseCodes::IsOk` on a status code. -/
  IsOk : Int → Bool
  /-- The reader `FJsonSerializer::Deserialize` into an object: the root object, or failure. -/
  Deserialize : String → Option FJsonObject
  /-- The writer `FJsonSerializer::Serialize` of an object. -/
  Serialize : FJsonObject → String
  /-- What `AsNumber` yields on a value that is not a number. -/
  CoerceNumber : FJsonValue → Int
  /-- What `AsString` yields on a value that is not a string. -/
  CoerceString : FJsonValue → String
  /-- The struct conversion `FJsonObjectConverter::JsonObjectToUStruct` into the cart: the
  success flag and the cart as written. -/
  JsonObjectToCart : FJsonObject → FStoreCart → Bool × FStoreCart
  /-- The build constant of the engine version. -/
  ENGINE_VERSION_STRING : String
  /-- The build constant of the SDK version. -/
  XSOLLA_STORE_VERSION : String
  /-- The decoder `FBase64::Decode` into a string: the decoded text, or failure. -/
  Base64Decode : String → Option String
  /-- What `TryGetString` yields on a value that is not a string. -/
  TryCoerceString : FJsonValue → Option String
  /-- The settings object `FXsollaStoreModule::Get().GetSettings()`. -/
  Settings : UXsollaStoreSettings
  /-- The build flag `UE_BUILD_SHIPPING`. -/
  UE_BUILD_SHIPPING : Bool
  /-- The struct conversion `JsonObjectToUStruct` into a catalog struct: the success flag
  and the struct as written. -/
  JsonObjectToItemsData : FJsonObject → FStoreItemsData → Bool × FStoreItemsData
  /-- The struct conversion `JsonObjectToUStruct` into the inventory. -/
  JsonObjectToInventory : FJsonObject → FStoreInventory → Bool × FStoreInventory
  /-- The struct conversion `JsonObjectToUStruct` into the virtual currencies. -/
  JsonObjectToVirtualCurrencyData :
    FJsonObject → FVirtualCurrencyData → Bool × FVirtualCurrencyData
  /-- The struct conversion `JsonObjectToUStruct` into the currency packages. -/
  JsonObjectToVirtualCurrencyPackagesData :
    FJsonObject → FVirtualCurrencyPackagesData → Bool × FVirtualCurrencyPackagesData
  /-- The struct conversion `JsonObjectToUStruct` into the currency balance. -/
  JsonObjectToVirtualCurrencyBalanceData :
    FJsonObject → FVirtualCurrencyBalanceData → Bool × FVirtualCurrencyBalanceData
  /-- The struct conversion `JsonObjectToUStruct` into one virtual currency. -/
  JsonObjectToVirtualCurrency : FJsonObject → FVirtualCurrency → Bool × FVirtualCurrency
  /-- The struct conversion `JsonObjectToUStruct` into one currency package. -/
  JsonObjectToVirtualCurrencyPackage :
    FJsonObject → FVirtualCurrencyPackage → Bool × FVirtualCurrencyPackage

/-- The engine comparison `FString::operator==` (`FCString::Stricmp`), which ignores
case: two texts are equal when they agree after each character is lowered. The letters
lowered here are the ASCII letters `A` to `Z`. -/
def FString.Equals (Lhs Rhs : String) : Bool :=
  Lhs.toList.map Char.toLower == Rhs.toList.map Char.toLower

/-- Conversion of a JSON number to `int32`; a value outside the range is undefined in
the source and wraps here. -/
def toInt32 (n : Int) : Int :=
  (n + 2147483648) % 4294967296 - 2147483648

/-- The field of an object by name (`FJsonObject::Values.Find`). -/
def FJsonObject.Find (Object : FJsonObject) (FieldName : String) : Option FJsonValue :=
  List.lookup FieldName Object

/-- The test `FJsonObject::HasTypedField<EJson::String>`. -/
def FJsonObject.HasTypedField_String (Object : FJsonObject) (FieldName : String) : Bool :=
  match Object.Find FieldName with
  | some (FJsonValueString _) => true
  | _ => false

/-- The accessor `FJsonValue::AsNumber`. -/
def FJsonValue.AsNumber (E : FEngine) : FJsonValue → Int
  | FJsonValueNumber Value => Value
  | v => E.CoerceNumber v

/-- The accessor `FJsonValue::AsString`. -/
def FJsonValue.AsString (E : FEngine) : FJsonValue → String
  | FJsonValueString Value => Value
  | v => E.CoerceString v

/-- The accessor `FJsonObject::GetNumberField`; an absent field reads as the null value. -/
def FJsonObject.GetNumberField (E : FEngine) (Object : FJsonObject) (FieldName : String) : Int :=
  ((Object.Find FieldName).getD FJsonValueNull).AsNumber E

/-- The accessor `FJsonObject::GetStringField`; an absent field reads as the null value. -/
def FJsonObject.GetStringField (E : FEngine) (Object : FJsonObject) (FieldName : String) : String :=
  ((Object.Find FieldName).getD FJsonValueNull).AsString E

/-! ## Requests and observable effects -/

/-- The completion handler of a cart request, one per `*_HttpRequestComplete` member that
the five cart calls bind. -/
inductive ECartRequest where
  | CreateCart
  | ClearCart
  | UpdateCart
  | AddToCart
  | RemoveFromCart
  deriving DecidableEq, Repr

/-- The binding `OnProcessRequestComplete().BindUObject(this, handler, SuccessCallback,
ErrorCallback)`. -/
structure FRequestCompleteDelegate where
  Handler : ECartRequest
  SuccessCallback : FDelegate
  ErrorCallback : FDelegate
  deriving DecidableEq, Repr

/-- A transport request (`IHttpRequest`). `Id` is the identity of the request object,
`Status` what `GetStatus()` returns. -/
structure IHttpRequest where
  Id : Nat
  URL : String := ""
  Verb : String := ""
  Headers : List (String × String) := []
  Content : String := ""
  OnProcessRequestComplete : Option FRequestCompleteDelegate := none
  Status : EHttpRequestStatus := EHttpRequestStatus.NotStarted
  deriving DecidableEq, Repr

/-- The call `IHttpRequest::SetHeader`. -/
def IHttpRequest.SetHeader (HttpRequest : IHttpRequest) (HeaderName HeaderValue : String) :
    IHttpRequest :=
  { HttpRequest with Headers := HttpRequest.Headers ++ [(HeaderName, HeaderValue)] }

/-- The completion handler of a request that is sent at once, outside the cart queue. -/
inductive EStoreRequest where
  | FetchPaymentToken
  | CheckOrder
  | ConsumeInventoryItem
  deriving DecidableEq, Repr

/-- A request sent at once by `HttpRequest->ProcessRequest()`, with the completion handler
and the callbacks bound to it. -/
structure FStoreRequest where
  Request : IHttpRequest
  Handler : EStoreRequest
  SuccessCallback : FDelegate
  ErrorCallback : FDelegate
  deriving DecidableEq, Repr

/-- What the controller hands to its collaborators. -/
inductive FEffect where
  /-- The call `IHttpRequest::ProcessRequest` on the request with this identity. -/
  | ProcessRequest (Id : Nat)
  /-- The broadcast `OnCartUpdate.Broadcast(Cart)`. -/
  | OnCartUpdate (Cart : FStoreCart)
  /-- The call `SuccessCallback.ExecuteIfBound()`. -/
  | Success (Callback : FDelegate)
  /-- The call `ErrorCallback.ExecuteIfBound(StatusCode, ErrorCode, ErrorMessage)`. -/
  | Error (Callback : FDelegate) (StatusCode ErrorCode : Int) (ErrorMessage : String)
  /-- The call `UXsollaStoreSave::Save` with the cart id and the currency. -/
  | Save (CartId : Int) (CartCurrency : String)
  /-- The call `SuccessCallback.ExecuteIfBound(OrderId, OrderStatus)` of the order check. -/
  | CheckOrderSuccess (Callback : FDelegate) (OrderId : Int) (OrderStatus : EXsollaOrderStatus)
  /-- The call `SuccessCallback.ExecuteIfBound(AccessToken, OrderId)` of the payment token. -/
  | FetchTokenSuccess (Callback : FDelegate) (AccessToken : String) (OrderId : Int)
  /-- The call `SuccessCallback.ExecuteIfBound(currency)` of the currency lookup. -/
  | CurrencyUpdate (Callback : FDelegate) (Currency : FVirtualCurrency)
  /-- The call `SuccessCallback.ExecuteIfBound(currencyPackage)` of the package lookup. -/
  | CurrencyPackageUpdate (Callback : FDelegate) (CurrencyPackage : FVirtualCurrencyPackage)
  /-- The call `SuccessCallback.ExecuteIfBound(OrderId)` of the purchase. -/
  | PurchaseUpdate (Callback : FDelegate) (OrderId : Int)
  deriving DecidableEq, Repr

/-! ## Response classifier -/

/-- The default error text of a non-success response:
`Printf("Invalid response. code=%d error=%s", code, body)`. -/
def InvalidResponseMessage (ResponseCode : Int) (ResponseStr : String) : String :=
  "Invalid response. code=" ++ toString ResponseCode ++ " error=" ++ ResponseStr

/-- The local variables of `HandleRequestError`. -/
structure FErrorLocals where
  ErrorStr : String := ""
  ErrorCode : Int := 0
  StatusCode : Int := 204
  ResponseStr : String := "invalid"
  deriving DecidableEq, Repr

/-- The body of `HandleRequestError` up to the final test: the values of the locals. -/
def HandleRequestError.locals (E : FEngine) (HttpResponse : Option FHttpResponse)
    (bSucceeded : Bool) : FErrorLocals :=
  let L : FErrorLocals := {}
  match bSucceeded, HttpResponse with
  | true, some Response =>
    let L := { L with ResponseStr := Response.ContentAsString }
    if !E.IsOk Response.ResponseCode then
      let L := { L with StatusCode := Response.ResponseCode }
      let L := { L with
        ErrorStr := InvalidResponseMessage Response.ResponseCode L.ResponseStr }
      match E.Deserialize L.ResponseStr with
      | some JsonObject =>
        if JsonObject.HasTypedField_String "errorMessage" then
          let L := { L with StatusCode := toInt32 (JsonObject.GetNumberField E "statusCode") }
          let L := { L with ErrorCode := toInt32 (JsonObject.GetNumberField E "errorCode") }
          { L with ErrorStr := JsonObject.GetStringField E "errorMessage" }
        else
          { L with ErrorStr := "Can't deserialize error json: no field 'errorMessage' found" }
      | none =>
        { L with ErrorStr := "Can't deserialize error json" }
    else
      L
  | _, _ =>
    { L with ErrorStr := "No response" }

/-- The classifier `HandleRequestError`: the returned flag and the calls it makes on the
error callback. The request argument is not read by the source. -/
def HandleRequestError (E : FEngine) (HttpRequest : Option IHttpRequest)
    (HttpResponse : Option FHttpResponse) (bSucceeded : Bool) (ErrorCallback : FDelegate) :
    Bool × List FEffect :=
  let L := HandleRequestError.locals E HttpResponse bSucceeded
  if L.ErrorStr ≠ "" then
    (true, [FEffect.Error ErrorCallback L.StatusCode L.ErrorCode L.ErrorStr])
  else
    (false, [])

/-! ## Request builder -/

/-- The member `CreateHttpRequest`; `Id` is the identity of the object that
`FHttpModule::Get().CreateRequest()` returns. -/
def CreateHttpRequest (E : FEngine) (Id : Nat) (Url : String) (Verb : ERequestVerb)
    (AuthToken : String) (Content : String) : IHttpRequest :=
  let HttpRequest : IHttpRequest := { Id := Id }
  let MetaUrl := (if Url.toList.contains '?' then "&" else "?") ++ "engine=ue4&engine_v=" ++
    E.ENGINE_VERSION_STRING ++ "&sdk=store&sdk_v=" ++ E.XSOLLA_STORE_VERSION
  let HttpRequest := { HttpRequest with URL := Url ++ MetaUrl }
  let HttpRequest := HttpRequest.SetHeader "X-ENGINE" "UE4"
  let HttpRequest := HttpRequest.SetHeader "X-ENGINE-V" E.ENGINE_VERSION_STRING
  let HttpRequest := HttpRequest.SetHeader "X-SDK" "STORE"
  let HttpRequest := HttpRequest.SetHeader "X-SDK-V" E.XSOLLA_STORE_VERSION
  let HttpRequest :=
    match Verb with
    | ERequestVerb.GET => { HttpRequest with Verb := "GET" }
    | ERequestVerb.POST => { HttpRequest with Verb := "POST" }
    | ERequestVerb.PUT => { HttpRequest with Verb := "PUT" }
    | ERequestVerb.DELETE => { HttpRequest with Verb := "DELETE" }
  let HttpRequest :=
    if AuthToken ≠ "" then HttpRequest.SetHeader "Authorization" ("Bearer " ++ AuthToken)
    else HttpRequest
  let HttpRequest :=
    if Content ≠ "" then
      { HttpRequest.SetHeader "Content-Type" "application/json" with Content := Content }
    else HttpRequest
  HttpRequest

/-- The member `SerializeJson`. -/
def SerializeJson (E : FEngine) (DataJson : FJsonObject) : String :=
  E.Serialize DataJson

/-! ## Controller state -/

/-- The controller object: the members that the cart engine reads and writes, the
counter of request identities and the trace of effects. -/
structure UXsollaStoreController where
  ProjectId : String := ""
  CachedAuthToken : String := ""
  CachedCartCurrency : String := "USD"
  ItemsData : FStoreItemsData := {}
  VirtualCurrencyPackages : FVirtualCurrencyPackagesData := {}
  Cart : FStoreCart
  CartRequestsQueue : List IHttpRequest := []
  NextRequestId : Nat := 0
  Trace : List FEffect := []
  /-- The requests sent outside the cart queue, oldest first. -/
  SentRequests : List FStoreRequest := []
  Inventory : FStoreInventory := {}
  VirtualCurrencyData : FVirtualCurrencyData := {}
  VirtualCurrencyBalance : FVirtualCurrencyBalanceData := {}
  deriving DecidableEq, Repr

/-- The test of the cleanup loop: the request has terminated. -/
def IsFinished (Status : EHttpRequestStatus) : Bool :=
  Status == EHttpRequestStatus.Succeeded ||
  Status == EHttpRequestStatus.Failed ||
  Status == EHttpRequestStatus.Failed_ConnectionError

/-- The first loop of `ProcessNextCartRequest`, `for (i = Num - 1; i >= 0; --i)`, with
`n = i + 1` iterations left: a terminated entry is removed at its index. -/
def ProcessNextCartRequest.cleanup : Nat → List IHttpRequest → List IHttpRequest
  | 0, Queue => Queue
  | i + 1, Queue =>
    match Queue[i]? with
    | some Request =>
      if IsFinished Request.Status then ProcessNextCartRequest.cleanup i (Queue.eraseIdx i)
      else ProcessNextCartRequest.cleanup i Queue
    | none => ProcessNextCartRequest.cleanup i Queue

/-- The member `ProcessNextCartRequest`. Modelled from the spec: the transport call
`ProcessRequest()` starts the request, whose status becomes `Processing`; its completion
is delivered later. -/
def ProcessNextCartRequest (s : UXsollaStoreController) : UXsollaStoreController :=
  let Queue := ProcessNextCartRequest.cleanup s.CartRequestsQueue.length s.CartRequestsQueue
  let bRequestInProcess := Queue.any (fun Request => Request.Status == EHttpRequestStatus.Processing)
  match Queue with
  | Head :: Rest =>
    if !bRequestInProcess then
      { s with
        CartRequestsQueue := { Head with Status := EHttpRequestStatus.Processing } :: Rest
        Trace := s.Trace ++ [FEffect.ProcessRequest Head.Id] }
    else
      { s with CartRequestsQueue := Queue }
  | [] => { s with CartRequestsQueue := Queue }

/-- The tail shared by the five cart calls: bind the completion handler, append the
request to the queue, run `ProcessNextCartRequest`. -/
def EnqueueCartRequest (s : UXsollaStoreController) (HttpRequest : IHttpRequest)
    (Handler : ECartRequest) (SuccessCallback ErrorCallback : FDelegate) :
    UXsollaStoreController :=
  let HttpRequest := { HttpRequest with
    OnProcessRequestComplete := some
      { Handler := Handler, SuccessCallback := SuccessCallback, ErrorCallback := ErrorCallback } }
  let s := { s with
    NextRequestId := s.NextRequestId + 1
    CartRequestsQueue := s.CartRequestsQueue ++ [HttpRequest] }
  ProcessNextCartRequest s

/-! ## Cart calls -/

/-- The member `CreateCart`. -/
def CreateCart (E : FEngine) (s : UXsollaStoreController) (AuthToken : String)
    (SuccessCallback ErrorCallback : FDelegate) : UXsollaStoreController :=
  let s := { s with CachedAuthToken := AuthToken }
  let Url := "https://store.xsolla.com/api/v1/project/" ++ s.ProjectId ++ "/cart"
  let HttpRequest := CreateHttpRequest E s.NextRequestId Url ERequestVerb.POST AuthToken ""
  EnqueueCartRequest s HttpRequest ECartRequest.CreateCart SuccessCallback ErrorCallback

/-- The member `ClearCart`. -/
def ClearCart (E : FEngine) (s : UXsollaStoreController) (AuthToken : String)
    (SuccessCallback ErrorCallback : FDelegate) : UXsollaStoreController :=
  let s := { s with CachedAuthToken := AuthToken }
  let Url := "https://store.xsolla.com/api/v1/project/" ++ s.ProjectId ++ "/cart/" ++
    toString s.Cart.cart_id ++ "/clear"
  let HttpRequest := CreateHttpRequest E s.NextRequestId Url ERequestVerb.PUT AuthToken ""
  let s := EnqueueCartRequest s HttpRequest ECartRequest.ClearCart SuccessCallback ErrorCallback
  let s := { s with Cart := { s.Cart with Items := [] } }
  { s with Trace := s.Trace ++ [FEffect.OnCartUpdate s.Cart] }

/-- The member `UpdateCart`. -/
def UpdateCart (E : FEngine) (s : UXsollaStoreController) (AuthToken : String)
    (SuccessCallback ErrorCallback : FDelegate) : UXsollaStoreController :=
  let s := { s with CachedAuthToken := AuthToken }
  let Url := "https://store.xsolla.com/api/v1/project/" ++ s.ProjectId ++ "/cart/" ++
    toString s.Cart.cart_id
  let HttpRequest := CreateHttpRequest E s.NextRequestId Url ERequestVerb.GET AuthToken ""
  EnqueueCartRequest s HttpRequest ECartRequest.UpdateCart SuccessCallback ErrorCallback

/-- The container call `TArray::FindByPredicate` when the result is written through: the
position of the first element that satisfies the predicate. -/
def FindByPredicate {α : Type} (Pred : α → Bool) : List α → Option Nat
  | [] => none
  | x :: xs => if Pred x then some 0 else (FindByPredicate Pred xs).map (· + 1)

/-- The local cart update of `AddToCart` (the part after `ProcessNextCartRequest()` and
before the broadcast). -/
def AddToCart.updateItems (Items : List FStoreCartItem) (ItemsData : FStoreItemsData)
    (VirtualCurrencyPackages : FVirtualCurrencyPackagesData) (ItemSKU : String)
    (Quantity : Int) : List FStoreCartItem :=
  match FindByPredicate (fun InItem : FStoreCartItem => FString.Equals InItem.sku ItemSKU)
      Items with
  | some i =>
    Items.modify (fun CartItem => { CartItem with quantity := max 0 Quantity }) i
  | none =>
    match ItemsData.Items.find? (fun InItem => FString.Equals InItem.sku ItemSKU) with
    | some StoreItem =>
      let Item := FStoreCartItem.ofStoreItem StoreItem
      let Item := { Item with quantity := max 0 Quantity }
      Items ++ [Item]
    | none =>
      match VirtualCurrencyPackages.Items.find?
          (fun InItem => FString.Equals InItem.sku ItemSKU) with
      | some CurrencyPackageItem =>
        let Item := FStoreCartItem.ofCurrencyPackage CurrencyPackageItem
        let Item := { Item with quantity := max 0 Quantity }
        Items ++ [Item]
      | none => Items

/-- The member `AddToCart`. -/
def AddToCart (E : FEngine) (s : UXsollaStoreController) (AuthToken ItemSKU : String)
    (Quantity : Int) (SuccessCallback ErrorCallback : FDelegate) : UXsollaStoreController :=
  let s := { s with CachedAuthToken := AuthToken }
  let RequestDataJson : FJsonObject := [("quantity", FJsonValueNumber Quantity)]
  let Url := "https://store.xsolla.com/api/v1/project/" ++ s.ProjectId ++ "/cart/" ++
    toString s.Cart.cart_id ++ "/item/" ++ ItemSKU
  let HttpRequest := CreateHttpRequest E s.NextRequestId Url ERequestVerb.PUT AuthToken
    (SerializeJson E RequestDataJson)
  let s := EnqueueCartRequest s HttpRequest ECartRequest.AddToCart SuccessCallback ErrorCallback
  let s := { s with Cart := { s.Cart with
    Items := AddToCart.updateItems s.Cart.Items s.ItemsData s.VirtualCurrencyPackages
      ItemSKU Quantity } }
  { s with Trace := s.Trace ++ [FEffect.OnCartUpdate s.Cart] }

/-- The loop of `RemoveFromCart`, `for (i = Num - 1; i >= 0; --i)`, with `n = i + 1`
iterations left: the entry at the first index met whose sku matches is removed and the
loop ends. -/
def RemoveFromCart.loop (ItemSKU : String) : Nat → List FStoreCartItem → List FStoreCartItem
  | 0, Items => Items
  | i + 1, Items =>
    match Items[i]? with
    | some Item =>
      if FString.Equals Item.sku ItemSKU then Items.eraseIdx i
      else RemoveFromCart.loop ItemSKU i Items
    | none => RemoveFromCart.loop ItemSKU i Items

/-- The member `RemoveFromCart`. -/
def RemoveFromCart (E : FEngine) (s : UXsollaStoreController) (AuthToken ItemSKU : String)
    (SuccessCallback ErrorCallback : FDelegate) : UXsollaStoreController :=
  let s := { s with CachedAuthToken := AuthToken }
  let Url := "https://store.xsolla.com/api/v1/project/" ++ s.ProjectId ++ "/cart/" ++
    toString s.Cart.cart_id ++ "/item/" ++ ItemSKU
  let HttpRequest := CreateHttpRequest E s.NextRequestId Url ERequestVerb.DELETE AuthToken ""
  let s := EnqueueCartRequest s HttpRequest ECartRequest.RemoveFromCart SuccessCallback
    ErrorCallback
  let s := { s with Cart := { s.Cart with
    Items := RemoveFromCart.loop ItemSKU s.Cart.Items.length s.Cart.Items } }
  { s with Trace := s.Trace ++ [FEffect.OnCartUpdate s.Cart] }

/-! ## Completion handlers -/

/-- The call of `HandleRequestError` from a handler: the returned flag, and the
controller with the calls on the error callback appended to its trace. -/
def UXsollaStoreController.HandleRequestError (E : FEngine) (s : UXsollaStoreController)
    (HttpRequest : Option IHttpRequest) (HttpResponse : Option FHttpResponse)
    (bSucceeded : Bool) (ErrorCallback : FDelegate) : Bool × UXsollaStoreController :=
  let Result := XsollaStore.HandleRequestError E HttpRequest HttpResponse bSucceeded ErrorCallback
  (Result.1, { s with Trace := s.Trace ++ Result.2 })

/-- The member `SaveData`. -/
def SaveData (s : UXsollaStoreController) : UXsollaStoreController :=
  { s with Trace := s.Trace ++ [FEffect.Save s.Cart.cart_id s.CachedCartCurrency] }

/-- The member `CreateCart_HttpRequestComplete`. A response is present whenever
`HandleRequestError` returns false, so the branch without one is never taken. -/
def CreateCart_HttpRequestComplete (E : FEngine) (s : UXsollaStoreController)
    (HttpRequest : Option IHttpRequest) (HttpResponse : Option FHttpResponse) (bSucceeded : Bool)
    (SuccessCallback ErrorCallback : FDelegate) : UXsollaStoreController :=
  match s.HandleRequestError E HttpRequest HttpResponse bSucceeded ErrorCallback with
  | (true, s) => ProcessNextCartRequest s
  | (false, s) =>
    match HttpResponse with
    | none => s
    | some Response =>
      match E.Deserialize Response.ContentAsString with
      | none =>
        { s with Trace := s.Trace ++
            [FEffect.Error ErrorCallback Response.ResponseCode 0
              "Can't deserialize server response"] }
      | some JsonObject =>
        let s := { s with Cart := FStoreCart.ofId (toInt32 (JsonObject.GetNumberField E "id")) }
        let s := { s with Trace := s.Trace ++ [FEffect.OnCartUpdate s.Cart] }
        let s := SaveData s
        { s with Trace := s.Trace ++ [FEffect.Success SuccessCallback] }

/-- The member `ClearCart_HttpRequestComplete`. -/
def ClearCart_HttpRequestComplete (E : FEngine) (s : UXsollaStoreController)
    (HttpRequest : Option IHttpRequest) (HttpResponse : Option FHttpResponse) (bSucceeded : Bool)
    (SuccessCallback ErrorCallback : FDelegate) : UXsollaStoreController :=
  match s.HandleRequestError E HttpRequest HttpResponse bSucceeded ErrorCallback with
  | (true, s) => ProcessNextCartRequest s
  | (false, s) =>
    let s := { s with Trace := s.Trace ++ [FEffect.Success SuccessCallback] }
    ProcessNextCartRequest s

/-- The member `UpdateCart_HttpRequestComplete`. The struct conversion writes into the
cart in place, so the cart it leaves is kept also when it reports failure. -/
def UpdateCart_HttpRequestComplete (E : FEngine) (s : UXsollaStoreController)
    (HttpRequest : Option IHttpRequest) (HttpResponse : Option FHttpResponse) (bSucceeded : Bool)
    (SuccessCallback ErrorCallback : FDelegate) : UXsollaStoreController :=
  match s.HandleRequestError E HttpRequest HttpResponse bSucceeded ErrorCallback with
  | (true, s) => ProcessNextCartRequest s
  | (false, s) =>
    match HttpResponse with
    | none => s
    | some Response =>
      match E.Deserialize Response.ContentAsString with
      | none =>
        { s with Trace := s.Trace ++
            [FEffect.Error ErrorCallback Response.ResponseCode 0
              "Can't deserialize server response"] }
      | some JsonObject =>
        match E.JsonObjectToCart JsonObject s.Cart with
        | (false, Cart) =>
          { s with
            Cart := Cart
            Trace := s.Trace ++
              [FEffect.Error ErrorCallback Response.ResponseCode 0
                "Can't convert server response to struct"] }
        | (true, Cart) =>
          let s := { s with Cart := Cart }
          let s := { s with Trace := s.Trace ++ [FEffect.OnCartUpdate s.Cart] }
          let s := { s with Trace := s.Trace ++ [FEffect.Success SuccessCallback] }
          ProcessNextCartRequest s

/-- The member `AddToCart_HttpRequestComplete`. -/
def AddToCart_HttpRequestComplete (E : FEngine) (s : UXsollaStoreController)
    (HttpRequest : Option IHttpRequest) (HttpResponse : Option FHttpResponse) (bSucceeded : Bool)
    (SuccessCallback ErrorCallback : FDelegate) : UXsollaStoreController :=
  match s.HandleRequestError E HttpRequest HttpResponse bSucceeded ErrorCallback with
  | (true, s) => UpdateCart E s s.CachedAuthToken SuccessCallback ErrorCallback
  | (false, s) =>
    let s := { s with Trace := s.Trace ++ [FEffect.Success SuccessCallback] }
    ProcessNextCartRequest s

/-- The member `RemoveFromCart_HttpRequestComplete`. -/
def RemoveFromCart_HttpRequestComplete (E : FEngine) (s : UXsollaStoreController)
    (HttpRequest : Option IHttpRequest) (HttpResponse : Option FHttpResponse) (bSucceeded : Bool)
    (SuccessCallback ErrorCallback : FDelegate) : UXsollaStoreController :=
  match s.HandleRequestError E HttpRequest HttpResponse bSucceeded ErrorCallback with
  | (true, s) => UpdateCart E s s.CachedAuthToken SuccessCallback ErrorCallback
  | (false, s) =>
    let s := { s with Trace := s.Trace ++ [FEffect.Success SuccessCallback] }
    ProcessNextCartRequest s

/-- Modelled from the spec: the transport collaborator delivers the completion of the
queue entry at position `i`. The request takes its final status, then the bound handler
runs with the request, the response (if any) and the success flag. -/
def OnProcessRequestComplete (E : FEngine) (s : UXsollaStoreController) (i : Nat)
    (Status : EHttpRequestStatus) (HttpResponse : Option FHttpResponse) (bSucceeded : Bool) :
    UXsollaStoreController :=
  match s.CartRequestsQueue[i]? with
  | none => s
  | some Request =>
    let Request := { Request with Status := Status }
    let s := { s with CartRequestsQueue := s.CartRequestsQueue.set i Request }
    match Request.OnProcessRequestComplete with
    | none => s
    | some Bound =>
      match Bound.Handler with
      | ECartRequest.CreateCart =>
        CreateCart_HttpRequestComplete E s (some Request) HttpResponse bSucceeded
          Bound.SuccessCallback Bound.ErrorCallback
      | ECartRequest.ClearCart =>
        ClearCart_HttpRequestComplete E s (some Request) HttpResponse bSucceeded
          Bound.SuccessCallback Bound.ErrorCallback
      | ECartRequest.UpdateCart =>
        UpdateCart_HttpRequestComplete E s (some Request) HttpResponse bSucceeded
          Bound.SuccessCallback Bound.ErrorCallback
      | ECartRequest.AddToCart =>
        AddToCart_HttpRequestComplete E s (some Request) HttpResponse bSucceeded
          Bound.SuccessCallback Bound.ErrorCallback
      | ECartRequest.RemoveFromCart =>
        RemoveFromCart_HttpRequestComplete E s (some Request) HttpResponse bSucceeded
          Bound.SuccessCallback Bound.ErrorCallback

/-! ## Reachable states of the cart engine -/

/-- A call of one of the five cart members, with its arguments. -/
inductive FCartCall where
  | CreateCart (AuthToken : String) (SuccessCallback ErrorCallback : FDelegate)
  | ClearCart (AuthToken : String) (SuccessCallback ErrorCallback : FDelegate)
  | UpdateCart (AuthToken : String) (SuccessCallback ErrorCallback : FDelegate)
  | AddToCart (AuthToken ItemSKU : String) (Quantity : Int)
      (SuccessCallback ErrorCallback : FDelegate)
  | RemoveFromCart (AuthToken ItemSKU : String) (SuccessCallback ErrorCallback : FDelegate)
  deriving DecidableEq, Repr

/-- The controller after the call. -/
def FCartCall.Invoke (E : FEngine) (s : UXsollaStoreController) : FCartCall →
    UXsollaStoreController
  | FCartCall.CreateCart AuthToken S F => XsollaStore.CreateCart E s AuthToken S F
  | FCartCall.ClearCart AuthToken S F => XsollaStore.ClearCart E s AuthToken S F
  | FCartCall.UpdateCart AuthToken S F => XsollaStore.UpdateCart E s AuthToken S F
  | FCartCall.AddToCart AuthToken ItemSKU Quantity S F =>
    XsollaStore.AddToCart E s AuthToken ItemSKU Quantity S F
  | FCartCall.RemoveFromCart AuthToken ItemSKU S F =>
    XsollaStore.RemoveFromCart E s AuthToken ItemSKU S F

/-- The controller after the calls, made in the order of the list. -/
def InvokeAll (E : FEngine) (s : UXsollaStoreController) (Calls : List FCartCall) :
    UXsollaStoreController :=
  Calls.foldl (fun t Call => Call.Invoke E t) s

/-- One step of the cart engine: a cart call, or the completion of a request of the queue
that is processing, with any final status, response and success flag. -/
inductive Step (E : FEngine) : UXsollaStoreController → UXsollaStoreController → Prop where
  | Call (s : UXsollaStoreController) (c : FCartCall) : Step E s (c.Invoke E s)
  | Complete (s : UXsollaStoreController) (i : Nat) (Request : IHttpRequest)
      (Status : EHttpRequestStatus) (HttpResponse : Option FHttpResponse) (bSucceeded : Bool)
      (hAt : s.CartRequestsQueue[i]? = some Request)
      (hProcessing : Request.Status = EHttpRequestStatus.Processing)
      (hFinished : IsFinished Status = true) :
      Step E s (OnProcessRequestComplete E s i Status HttpResponse bSucceeded)

/-- The states reachable from a controller whose request queue is empty. -/
inductive Reachable (E : FEngine) : UXsollaStoreController → Prop where
  | Init (s : UXsollaStoreController) (hEmpty : s.CartRequestsQueue = []) : Reachable E s
  | Next (s t : UXsollaStoreController) (hs : Reachable E s) (hStep : Step E s t) : Reachable E t

/-- The number of queue entries whose status is `Processing`. -/
def InFlight (Queue : List IHttpRequest) : Nat :=
  Queue.countP (fun Request => Request.Status == EHttpRequestStatus.Processing)

/-- The identities of the requests on which `ProcessRequest` was called, oldest first. -/
def Started : List FEffect → List Nat
  | [] => []
  | FEffect.ProcessRequest Id :: Rest => Id :: Started Rest
  | _ :: Rest => Started Rest

/-- A run of completions only: from the first controller, zero or more completions of
requests of the queue that are processing lead to the second. -/
inductive CompletionRun (E : FEngine) (s : UXsollaStoreController) :
    UXsollaStoreController → Prop where
  | Refl : CompletionRun E s s
  | Next (t : UXsollaStoreController) (i : Nat) (Request : IHttpRequest)
      (Status : EHttpRequestStatus) (HttpResponse : Option FHttpResponse) (bSucceeded : Bool)
      (hRun : CompletionRun E s t)
      (hAt : t.CartRequestsQueue[i]? = some Request)
      (hProcessing : Request.Status = EHttpRequestStatus.Processing)
      (hFinished : IsFinished Status = true) :
      CompletionRun E s (OnProcessRequestComplete E t i Status HttpResponse bSucceeded)

/-- What the dispatch order depends on: the queue, the counter of request identities and
the identities started so far. -/
structure FQueueView where
  Queue : List IHttpRequest
  NextRequestId : Nat
  Started : List Nat

/-- The view of a controller. -/
def View (s : UXsollaStoreController) : FQueueView :=
  { Queue := s.CartRequestsQueue, NextRequestId := s.NextRequestId, Started := Started s.Trace }

/-- The state of the queue while calls are made and nothing completes: the first request
is processing, the `m` later ones are not started, the identities are consecutive from
`Base`, and `ProcessRequest` has been called on the first request only. -/
def CallInv (Before : List Nat) (Base m : Nat) (v : FQueueView) : Prop :=
  v.Queue.map (fun Request => Request.Status) =
    EHttpRequestStatus.Processing :: List.replicate m EHttpRequestStatus.NotStarted ∧
  v.Queue.map (fun Request => Request.Id) = List.range' Base (m + 1) ∧
  v.NextRequestId = Base + m + 1 ∧
  v.Started = Before ++ [Base]

/-- The effect of `ProcessNextCartRequest` on a queue: the queue it leaves and the
identities of the requests it starts. -/
def Drain (Queue : List IHttpRequest) : List IHttpRequest × List Nat :=
  match Queue.filter (fun Request => !IsFinished Request.Status) with
  | Head :: Rest =>
    if (Head :: Rest).any (fun Request => Request.Status == EHttpRequestStatus.Processing)
    then (Head :: Rest, [])
    else ({ Head with Status := EHttpRequestStatus.Processing } :: Rest, [Head.Id])
  | [] => ([], [])

/-- The view after `ProcessNextCartRequest`. -/
def FQueueView.DrainStep (v : FQueueView) : FQueueView :=
  { Queue := (Drain v.Queue).1
    NextRequestId := v.NextRequestId
    Started := v.Started ++ (Drain v.Queue).2 }

/-- The view after a request is appended and `ProcessNextCartRequest` has run. -/
def FQueueView.Enqueue (v : FQueueView) (HttpRequest : IHttpRequest) : FQueueView :=
  FQueueView.DrainStep
    { Queue := v.Queue ++ [HttpRequest]
      NextRequestId := v.NextRequestId + 1
      Started := v.Started }

/-- The dispatch invariant relative to the identities `Before` started earlier and to the
first identity `Base` handed out since: the requests started since are those with the
first `k` identities, in that order, with `k` at least `Min`; the queue is a segment of
started requests followed by the requests not yet started, which carry the remaining
identities in order. -/
def FifoInv (Before : List Nat) (Base Min : Nat) (v : FQueueView) : Prop :=
  ∃ (k : Nat) (A B : List IHttpRequest),
    Min ≤ k ∧
    v.Queue = A ++ B ∧
    (∀ Request ∈ A, Request.Status ≠ EHttpRequestStatus.NotStarted) ∧
    (∀ Request ∈ B, Request.Status = EHttpRequestStatus.NotStarted) ∧
    B.map (fun Request => Request.Id) = List.range' (Base + k) B.length ∧
    v.NextRequestId = Base + k + B.length ∧
    v.Started = Before ++ List.range' Base k

/-! ## Token utility -/

/-- The segments of a text around a delimiter character, empty segments included. -/
def ParseIntoArray.split (Delim : Char) : List Char → List (List Char)
  | [] => [[]]
  | c :: cs =>
    if c == Delim then [] :: ParseIntoArray.split Delim cs
    else
      match ParseIntoArray.split Delim cs with
      | Segment :: Rest => (c :: Segment) :: Rest
      | [] => [[c]]

/-- The engine call `FString::ParseIntoArray(OutArray, Delim)` with its default of culling
empty segments, for a delimiter of one character. -/
def ParseIntoArray (Text : String) (Delim : Char) : List String :=
  ((ParseIntoArray.split Delim Text.toList).filter (fun Segment => !Segment.isEmpty)).map
    String.mk

/-- How a call of `ParseTokenPayload` ends: the index into the segment array is out of
range (the range check of `TArray::operator[]` fails and nothing is returned), or the
member returns false, or it returns true with the payload object. -/
inductive FParseTokenResult where
  | RangeCheckFailed
  | ReturnedFalse
  | ReturnedTrue (PayloadJsonObject : FJsonObject)

/-- The member `ParseTokenPayload`. -/
def ParseTokenPayload (E : FEngine) (Token : String) : FParseTokenResult :=
  let TokenParts := ParseIntoArray Token '.'
  match TokenParts[1]? with
  | none => FParseTokenResult.RangeCheckFailed
  | some Part =>
    match E.Base64Decode Part with
    | none => FParseTokenResult.ReturnedFalse
    | some PayloadStr =>
      match E.Deserialize PayloadStr with
      | none => FParseTokenResult.ReturnedFalse
      | some PayloadJsonObject => FParseTokenResult.ReturnedTrue PayloadJsonObject

/-! ## Requests outside the cart queue -/

/-- The call `Values.Add` behind the setters of `FJsonObject`: the field is set, in place
of a field of that name if there is one. -/
def FJsonObject.SetField (Object : FJsonObject) (FieldName : String) (Value : FJsonValue) :
    FJsonObject :=
  Object.filter (fun Field => Field.1 != FieldName) ++ [(FieldName, Value)]

/-- The setter `FJsonObject::SetStringField`. -/
def FJsonObject.SetStringField (Object : FJsonObject) (FieldName StringValue : String) :
    FJsonObject :=
  Object.SetField FieldName (FJsonValueString StringValue)

/-- The setter `FJsonObject::SetNumberField`. -/
def FJsonObject.SetNumberField (Object : FJsonObject) (FieldName : String) (Number : Int) :
    FJsonObject :=
  Object.SetField FieldName (FJsonValueNumber Number)

/-- The setter `FJsonObject::SetBoolField`. -/
def FJsonObject.SetBoolField (Object : FJsonObject) (FieldName : String) (InValue : Bool) :
    FJsonObject :=
  Object.SetField FieldName (FJsonValueBoolean InValue)

/-- The setter `FJsonObject::SetObjectField`; a null object pointer sets the null value. -/
def FJsonObject.SetObjectField (Object : FJsonObject) (FieldName : String)
    (JsonObject : Option FJsonObject) : FJsonObject :=
  match JsonObject with
  | some Value => Object.SetField FieldName (FJsonValueObject Value)
  | none => Object.SetField FieldName FJsonValueNull

/-- The accessor `FJsonObject::TryGetStringField`. -/
def FJsonObject.TryGetStringField (E : FEngine) (Object : FJsonObject) (FieldName : String) :
    Option String :=
  match Object.Find FieldName with
  | some (FJsonValueString Value) => some Value
  | some Value => E.TryCoerceString Value
  | none => none

/-- The member `IsSandboxEnabled`. -/
def IsSandboxEnabled (E : FEngine) : Bool :=
  let bIsSandboxEnabled := E.Settings.bSandbox
  if E.UE_BUILD_SHIPPING then E.Settings.bSandbox && E.Settings.bEnableSandboxInShipping
  else bIsSandboxEnabled

/-- The end of a member that sends its request at once: bind the completion handler and
call `ProcessRequest()`, after which the request is processing. -/
def SendStoreRequest (s : UXsollaStoreController) (HttpRequest : IHttpRequest)
    (Handler : EStoreRequest) (SuccessCallback ErrorCallback : FDelegate) :
    UXsollaStoreController :=
  { s with
    SentRequests := s.SentRequests ++
      [{ Request := { HttpRequest with Status := EHttpRequestStatus.Processing }
         Handler := Handler
         SuccessCallback := SuccessCallback
         ErrorCallback := ErrorCallback }]
    Trace := s.Trace ++ [FEffect.ProcessRequest HttpRequest.Id] }

/-- The payload block of `FetchPaymentToken` and of `FetchCartPaymentToken` (the same
statements in both). -/
def FetchPaymentToken.RequestDataJson (E : FEngine) (Currency Country Locale : String) :
    FJsonObject :=
  let RequestDataJson : FJsonObject := []
  let RequestDataJson :=
    if Currency ≠ "" then RequestDataJson.SetStringField "currency" Currency
    else RequestDataJson
  let RequestDataJson :=
    if Country ≠ "" then RequestDataJson.SetStringField "country" Country
    else RequestDataJson
  let RequestDataJson :=
    if Locale ≠ "" then RequestDataJson.SetStringField "locale" Locale
    else RequestDataJson
  RequestDataJson.SetBoolField "sandbox" (IsSandboxEnabled E)

/-- The text after the last `/` of a Steam profile URL (`FindLastChar` then `RightChop`);
empty when there is no `/`. -/
def SteamIdOfUrl (SteamIdUrl : String) : String :=
  let Chars := SteamIdUrl.toList
  if Chars.contains '/' then String.mk (Chars.reverse.takeWhile (fun c => c != '/')).reverse
  else ""

/-- The Steam block of `FetchPaymentToken` and of `FetchCartPaymentToken` (the same
statements in both). The result is absent when the range check inside `ParseTokenPayload`
fails; otherwise it is the controller and, unless the member returns early after an error
callback, the request to send. -/
def FetchPaymentToken.Steam (E : FEngine) (s : UXsollaStoreController) (AuthToken : String)
    (HttpRequest : IHttpRequest) (ErrorCallback : FDelegate) :
    Option (UXsollaStoreController × Option IHttpRequest) :=
  if E.Settings.bBuildForSteam then
    match ParseTokenPayload E AuthToken with
    | FParseTokenResult.RangeCheckFailed => none
    | FParseTokenResult.ReturnedFalse =>
      some ({ s with Trace := s.Trace ++
        [FEffect.Error ErrorCallback 0 0 "Can't parse token payload"] }, none)
    | FParseTokenResult.ReturnedTrue PayloadJsonObject =>
      match PayloadJsonObject.TryGetStringField E "id" with
      | none =>
        some ({ s with Trace := s.Trace ++
          [FEffect.Error ErrorCallback 0 0 "Can't find Steam profile ID in token payload"] },
          none)
      | some SteamIdUrl =>
        some (s, some (HttpRequest.SetHeader "x-steam-userid" (SteamIdOfUrl SteamIdUrl)))
  else
    some (s, some HttpRequest)

/-- The member `FetchPaymentToken`; the result is absent when the range check inside
`ParseTokenPayload` fails. -/
def FetchPaymentToken (E : FEngine) (s : UXsollaStoreController)
    (AuthToken ItemSKU Currency Country Locale : String)
    (SuccessCallback ErrorCallback : FDelegate) : Option UXsollaStoreController :=
  let RequestDataJson := FetchPaymentToken.RequestDataJson E Currency Country Locale
  let Url := "https://store.xsolla.com/api/v1/project/" ++ s.ProjectId ++ "/payment/item/" ++
    ItemSKU
  let HttpRequest := CreateHttpRequest E s.NextRequestId Url ERequestVerb.POST AuthToken
    (SerializeJson E RequestDataJson)
  let s := { s with NextRequestId := s.NextRequestId + 1 }
  match FetchPaymentToken.Steam E s AuthToken HttpRequest ErrorCallback with
  | none => none
  | some (s, none) => some s
  | some (s, some HttpRequest) =>
    some (SendStoreRequest s HttpRequest EStoreRequest.FetchPaymentToken SuccessCallback
      ErrorCallback)

/-- The member `FetchCartPaymentToken`; the result is absent when the range check inside
`ParseTokenPayload` fails. -/
def FetchCartPaymentToken (E : FEngine) (s : UXsollaStoreController)
    (AuthToken Currency Country Locale : String)
    (SuccessCallback ErrorCallback : FDelegate) : Option UXsollaStoreController :=
  let s := { s with CachedAuthToken := AuthToken }
  let RequestDataJson := FetchPaymentToken.RequestDataJson E Currency Country Locale
  let Url := "https://store.xsolla.com/api/v1/project/" ++ s.ProjectId ++ "/payment/cart/" ++
    toString s.Cart.cart_id
  let HttpRequest := CreateHttpRequest E s.NextRequestId Url ERequestVerb.POST AuthToken
    (SerializeJson E RequestDataJson)
  let s := { s with NextRequestId := s.NextRequestId + 1 }
  match FetchPaymentToken.Steam E s AuthToken HttpRequest ErrorCallback with
  | none => none
  | some (s, none) => some s
  | some (s, some HttpRequest) =>
    some (SendStoreRequest s HttpRequest EStoreRequest.FetchPaymentToken SuccessCallback
      ErrorCallback)

/-- The payload block of `ConsumeInventoryItem`. -/
def ConsumeInventoryItem.RequestDataJson (ItemSKU : String) (Quantity : Int)
    (InstanceID : String) : FJsonObject :=
  let RequestDataJson : FJsonObject := []
  let RequestDataJson := RequestDataJson.SetStringField "sku" ItemSKU
  let RequestDataJson :=
    if Quantity == 0 then RequestDataJson.SetObjectField "quantity" none
    else RequestDataJson.SetNumberField "quantity" Quantity
  let RequestDataJson :=
    if InstanceID = "" then RequestDataJson.SetObjectField "instance_id" none
    else RequestDataJson.SetStringField "instance_id" InstanceID
  RequestDataJson

/-- The member `ConsumeInventoryItem`. -/
def ConsumeInventoryItem (E : FEngine) (s : UXsollaStoreController) (AuthToken ItemSKU : String)
    (Quantity : Int) (InstanceID : String) (SuccessCallback ErrorCallback : FDelegate) :
    UXsollaStoreController :=
  let s := { s with CachedAuthToken := AuthToken }
  let RequestDataJson := ConsumeInventoryItem.RequestDataJson ItemSKU Quantity InstanceID
  let Url := "https://store.xsolla.com/api/v1/project/" ++ s.ProjectId ++
    "/user/inventory/item/consume"
  let HttpRequest := CreateHttpRequest E s.NextRequestId Url ERequestVerb.POST AuthToken
    (SerializeJson E RequestDataJson)
  let s := { s with NextRequestId := s.NextRequestId + 1 }
  SendStoreRequest s HttpRequest EStoreRequest.ConsumeInventoryItem SuccessCallback
    ErrorCallback

/-- The member `CheckOrder`. -/
def CheckOrder (E : FEngine) (s : UXsollaStoreController) (AuthToken : String) (OrderId : Int)
    (SuccessCallback ErrorCallback : FDelegate) : UXsollaStoreController :=
  let s := { s with CachedAuthToken := AuthToken }
  let Url := "https://store.xsolla.com/api/v1/project/" ++ s.ProjectId ++ "/order/" ++
    toString OrderId
  let HttpRequest := CreateHttpRequest E s.NextRequestId Url ERequestVerb.GET AuthToken ""
  let s := { s with NextRequestId := s.NextRequestId + 1 }
  SendStoreRequest s HttpRequest EStoreRequest.CheckOrder SuccessCallback ErrorCallback

/-- The member `CheckOrder_HttpRequestComplete`. A response is present whenever
`HandleRequestError` returns false, so the branch without one is never taken. -/
def CheckOrder_HttpRequestComplete (E : FEngine) (s : UXsollaStoreController)
    (HttpRequest : Option IHttpRequest) (HttpResponse : Option FHttpResponse) (bSucceeded : Bool)
    (SuccessCallback ErrorCallback : FDelegate) : UXsollaStoreController :=
  match s.HandleRequestError E HttpRequest HttpResponse bSucceeded ErrorCallback with
  | (true, s) => s
  | (false, s) =>
    match HttpResponse with
    | none => s
    | some Response =>
      match E.Deserialize Response.ContentAsString with
      | none =>
        { s with Trace := s.Trace ++
            [FEffect.Error ErrorCallback Response.ResponseCode 0
              "Can't deserialize server response"] }
      | some JsonObject =>
        let OrderId := toInt32 (JsonObject.GetNumberField E "order_id")
        let Status := JsonObject.GetStringField E "status"
        let OrderStatus :=
          if FString.Equals Status "new" then EXsollaOrderStatus.New
          else if FString.Equals Status "paid" then EXsollaOrderStatus.Paid
          else if FString.Equals Status "done" then EXsollaOrderStatus.Done
          else EXsollaOrderStatus.Unknown
        { s with Trace := s.Trace ++ [FEffect.CheckOrderSuccess SuccessCallback OrderId
            OrderStatus] }

/-! ## Completion handlers of the cache requests -/

/-- The container call `TSet::Add` on the set of group ids: the id is added unless the set
holds an id equal to it. -/
def TSet.Add (GroupIds : List String) (ExternalId : String) : List String :=
  if GroupIds.any (fun Held => FString.Equals Held ExternalId) then GroupIds
  else GroupIds ++ [ExternalId]

/-- The two nested loops of `UpdateVirtualItems_HttpRequestComplete`: the `external_id` of
every group of every item is added to the set of group ids. -/
def UpdateVirtualItems.UpdateCategories (ItemsData : FStoreItemsData) : FStoreItemsData :=
  { ItemsData with
    GroupIds := ItemsData.Items.foldl
      (fun GroupIds Item => Item.groups.foldl
        (fun GroupIds ItemGroup => TSet.Add GroupIds ItemGroup.external_id) GroupIds)
      ItemsData.GroupIds }

/-- The member `UpdateVirtualItems_HttpRequestComplete`. The struct conversion writes into
the cached catalog in place. -/
def UpdateVirtualItems_HttpRequestComplete (E : FEngine) (s : UXsollaStoreController)
    (HttpRequest : Option IHttpRequest) (HttpResponse : Option FHttpResponse) (bSucceeded : Bool)
    (SuccessCallback ErrorCallback : FDelegate) : UXsollaStoreController :=
  match s.HandleRequestError E HttpRequest HttpResponse bSucceeded ErrorCallback with
  | (true, s) => s
  | (false, s) =>
    match HttpResponse with
    | none => s
    | some Response =>
      match E.Deserialize Response.ContentAsString with
      | none =>
        { s with Trace := s.Trace ++
            [FEffect.Error ErrorCallback Response.ResponseCode 0
              "Can't deserialize server response"] }
      | some JsonObject =>
        match E.JsonObjectToItemsData JsonObject s.ItemsData with
        | (false, ItemsData) =>
          { s with
            ItemsData := ItemsData
            Trace := s.Trace ++
              [FEffect.Error ErrorCallback Response.ResponseCode 0
                "Can't convert server response to struct"] }
        | (true, ItemsData) =>
          let s := { s with ItemsData := UpdateVirtualItems.UpdateCategories ItemsData }
          { s with Trace := s.Trace ++ [FEffect.Success SuccessCallback] }

/-- The member `UpdateItemGroups_HttpRequestComplete`. The struct conversion writes into
the local `GroupsData`, which is default-constructed. -/
def UpdateItemGroups_HttpRequestComplete (E : FEngine) (s : UXsollaStoreController)
    (HttpRequest : Option IHttpRequest) (HttpResponse : Option FHttpResponse) (bSucceeded : Bool)
    (SuccessCallback ErrorCallback : FDelegate) : UXsollaStoreController :=
  match s.HandleRequestError E HttpRequest HttpResponse bSucceeded ErrorCallback with
  | (true, s) => s
  | (false, s) =>
    match HttpResponse with
    | none => s
    | some Response =>
      match E.Deserialize Response.ContentAsString with
      | none =>
        { s with Trace := s.Trace ++
            [FEffect.Error ErrorCallback Response.ResponseCode 0
              "Can't deserialize server response"] }
      | some JsonObject =>
        let GroupsData : FStoreItemsData := {}
        match E.JsonObjectToItemsData JsonObject GroupsData with
        | (false, GroupsData) =>
          { s with Trace := s.Trace ++
              [FEffect.Error ErrorCallback Response.ResponseCode 0
                "Can't convert server response to struct"] }
        | (true, GroupsData) =>
          let s := { s with ItemsData := { s.ItemsData with Groups := GroupsData.Groups } }
          { s with Trace := s.Trace ++ [FEffect.Success SuccessCallback] }

/-- The member `UpdateInventory_HttpRequestComplete`. -/
def UpdateInventory_HttpRequestComplete (E : FEngine) (s : UXsollaStoreController)
    (HttpRequest : Option IHttpRequest) (HttpResponse : Option FHttpResponse) (bSucceeded : Bool)
    (SuccessCallback ErrorCallback : FDelegate) : UXsollaStoreController :=
  match s.HandleRequestError E HttpRequest HttpResponse bSucceeded ErrorCallback with
  | (true, s) => s
  | (false, s) =>
    match HttpResponse with
    | none => s
    | some Response =>
      match E.Deserialize Response.ContentAsString with
      | none =>
        { s with Trace := s.Trace ++
            [FEffect.Error ErrorCallback Response.ResponseCode 0
              "Can't deserialize server response"] }
      | some JsonObject =>
        match E.JsonObjectToInventory JsonObject s.Inventory with
        | (false, Inventory) =>
          { s with
            Inventory := Inventory
            Trace := s.Trace ++
              [FEffect.Error ErrorCallback Response.ResponseCode 0
                "Can't convert server response to struct"] }
        | (true, Inventory) =>
          let s := { s with Inventory := Inventory }
          { s with Trace := s.Trace ++ [FEffect.Success SuccessCallback] }

/-- The member `UpdateVirtualCurrencies_HttpRequestComplete`. -/
def UpdateVirtualCurrencies_HttpRequestComplete (E : FEngine) (s : UXsollaStoreController)
    (HttpRequest : Option IHttpRequest) (HttpResponse : Option FHttpResponse) (bSucceeded : Bool)
    (SuccessCallback ErrorCallback : FDelegate) : UXsollaStoreController :=
  match s.HandleRequestError E HttpRequest HttpResponse bSucceeded ErrorCallback with
  | (true, s) => s
  | (false, s) =>
    match HttpResponse with
    | none => s
    | some Response =>
      match E.Deserialize Response.ContentAsString with
      | none =>
        { s with Trace := s.Trace ++
            [FEffect.Error ErrorCallback Response.ResponseCode 0
              "Can't deserialize server response"] }
      | some JsonObject =>
        match E.JsonObjectToVirtualCurrencyData JsonObject s.VirtualCurrencyData with
        | (false, VirtualCurrencyData) =>
          { s with
            VirtualCurrencyData := VirtualCurrencyData
            Trace := s.Trace ++
              [FEffect.Error ErrorCallback Response.ResponseCode 0
                "Can't convert server response to struct"] }
        | (true, VirtualCurrencyData) =>
          let s := { s with VirtualCurrencyData := VirtualCurrencyData }
          { s with Trace := s.Trace ++ [FEffect.Success SuccessCallback] }

/-- The member `UpdateVirtualCurrencyPackages_HttpRequestComplete`. -/
def UpdateVirtualCurrencyPackages_HttpRequestComplete (E : FEngine) (s : UXsollaStoreController)
    (HttpRequest : Option IHttpRequest) (HttpResponse : Option FHttpResponse) (bSucceeded : Bool)
    (SuccessCallback ErrorCallback : FDelegate) : UXsollaStoreController :=
  match s.HandleRequestError E HttpRequest HttpResponse bSucceeded ErrorCallback with
  | (true, s) => s
  | (false, s) =>
    match HttpResponse with
    | none => s
    | some Response =>
      match E.Deserialize Response.ContentAsString with
      | none =>
        { s with Trace := s.Trace ++
            [FEffect.Error ErrorCallback Response.ResponseCode 0
              "Can't deserialize server response"] }
      | some JsonObject =>
        match E.JsonObjectToVirtualCurrencyPackagesData JsonObject s.VirtualCurrencyPackages with
        | (false, VirtualCurrencyPackages) =>
          { s with
            VirtualCurrencyPackages := VirtualCurrencyPackages
            Trace := s.Trace ++
              [FEffect.Error ErrorCallback Response.ResponseCode 0
                "Can't convert server response to struct"] }
        | (true, VirtualCurrencyPackages) =>
          let s := { s with VirtualCurrencyPackages := VirtualCurrencyPackages }
          { s with Trace := s.Trace ++ [FEffect.Success SuccessCallback] }

/-- The member `UpdateVirtualCurrencyBalance_HttpRequestComplete`. -/
def UpdateVirtualCurrencyBalance_HttpRequestComplete (E : FEngine) (s : UXsollaStoreController)
    (HttpRequest : Option IHttpRequest) (HttpResponse : Option FHttpResponse) (bSucceeded : Bool)
    (SuccessCallback ErrorCallback : FDelegate) : UXsollaStoreController :=
  match s.HandleRequestError E HttpRequest HttpResponse bSucceeded ErrorCallback with
  | (true, s) => s
  | (false, s) =>
    match HttpResponse with
    | none => s
    | some Response =>
      match E.Deserialize Response.ContentAsString with
      | none =>
        { s with Trace := s.Trace ++
            [FEffect.Error ErrorCallback Response.ResponseCode 0
              "Can't deserialize server response"] }
      | some JsonObject =>
        match E.JsonObjectToVirtualCurrencyBalanceData JsonObject s.VirtualCurrencyBalance with
        | (false, VirtualCurrencyBalance) =>
          { s with
            VirtualCurrencyBalance := VirtualCurrencyBalance
            Trace := s.Trace ++
              [FEffect.Error ErrorCallback Response.ResponseCode 0
                "Can't convert server response to struct"] }
        | (true, VirtualCurrencyBalance) =>
          let s := { s with VirtualCurrencyBalance := VirtualCurrencyBalance }
          { s with Trace := s.Trace ++ [FEffect.Success SuccessCallback] }

/-! ## Completion handlers of the other requests outside the cart queue -/

/-- The member `FetchPaymentToken_HttpRequestComplete`. -/
def FetchPaymentToken_HttpRequestComplete (E : FEngine) (s : UXsollaStoreController)
    (HttpRequest : Option IHttpRequest) (HttpResponse : Option FHttpResponse) (bSucceeded : Bool)
    (SuccessCallback ErrorCallback : FDelegate) : UXsollaStoreController :=
  match s.HandleRequestError E HttpRequest HttpResponse bSucceeded ErrorCallback with
  | (true, s) => s
  | (false, s) =>
    match HttpResponse with
    | none => s
    | some Response =>
      match E.Deserialize Response.ContentAsString with
      | none =>
        { s with Trace := s.Trace ++
            [FEffect.Error ErrorCallback Response.ResponseCode 0
              "Can't deserialize server response"] }
      | some JsonObject =>
        let AccessToken := JsonObject.GetStringField E "token"
        let OrderId := toInt32 (JsonObject.GetNumberField E "order_id")
        { s with Trace := s.Trace ++
            [FEffect.FetchTokenSuccess SuccessCallback AccessToken OrderId] }

/-- The member `ConsumeInventoryItem_HttpRequestComplete`. -/
def ConsumeInventoryItem_HttpRequestComplete (E : FEngine) (s : UXsollaStoreController)
    (HttpRequest : Option IHttpRequest) (HttpResponse : Option FHttpResponse) (bSucceeded : Bool)
    (SuccessCallback ErrorCallback : FDelegate) : UXsollaStoreController :=
  match s.HandleRequestError E HttpRequest HttpResponse bSucceeded ErrorCallback with
  | (true, s) => s
  | (false, s) => { s with Trace := s.Trace ++ [FEffect.Success SuccessCallback] }

/-- The member `GetVirtualCurrency_HttpRequestComplete`. -/
def GetVirtualCurrency_HttpRequestComplete (E : FEngine) (s : UXsollaStoreController)
    (HttpRequest : Option IHttpRequest) (HttpResponse : Option FHttpResponse) (bSucceeded : Bool)
    (SuccessCallback ErrorCallback : FDelegate) : UXsollaStoreController :=
  match s.HandleRequestError E HttpRequest HttpResponse bSucceeded ErrorCallback with
  | (true, s) => ProcessNextCartRequest s
  | (false, s) =>
    match HttpResponse with
    | none => s
    | some Response =>
      match E.Deserialize Response.ContentAsString with
      | none =>
        { s with Trace := s.Trace ++
            [FEffect.Error ErrorCallback Response.ResponseCode 0
              "Can't deserialize server response"] }
      | some JsonObject =>
        let currency : FVirtualCurrency := {}
        match E.JsonObjectToVirtualCurrency JsonObject currency with
        | (false, currency) =>
          { s with Trace := s.Trace ++
              [FEffect.Error ErrorCallback Response.ResponseCode 0
                "Can't convert server response to struct"] }
        | (true, currency) =>
          { s with Trace := s.Trace ++ [FEffect.CurrencyUpdate SuccessCallback currency] }

/-- The member `GetVirtualCurrencyPackage_HttpRequestComplete`. -/
def GetVirtualCurrencyPackage_HttpRequestComplete (E : FEngine) (s : UXsollaStoreController)
    (HttpRequest : Option IHttpRequest) (HttpResponse : Option FHttpResponse) (bSucceeded : Bool)
    (SuccessCallback ErrorCallback : FDelegate) : UXsollaStoreController :=
  match s.HandleRequestError E HttpRequest HttpResponse bSucceeded ErrorCallback with
  | (true, s) => ProcessNextCartRequest s
  | (false, s) =>
    match HttpResponse with
    | none => s
    | some Response =>
      match E.Deserialize Response.ContentAsString with
      | none =>
        { s with Trace := s.Trace ++
            [FEffect.Error ErrorCallback Response.ResponseCode 0
              "Can't deserialize server response"] }
      | some JsonObject =>
        let currencyPackage : FVirtualCurrencyPackage := { sku := "", name := "" }
        match E.JsonObjectToVirtualCurrencyPackage JsonObject currencyPackage with
        | (false, currencyPackage) =>
          { s with Trace := s.Trace ++
              [FEffect.Error ErrorCallback Response.ResponseCode 0
                "Can't convert server response to struct"] }
        | (true, currencyPackage) =>
          { s with Trace := s.Trace ++
              [FEffect.CurrencyPackageUpdate SuccessCallback currencyPackage] }

/-- The member `BuyItemWithVirtualCurrency_HttpRequestComplete`. -/
def BuyItemWithVirtualCurrency_HttpRequestComplete (E : FEngine) (s : UXsollaStoreController)
    (HttpRequest : Option IHttpRequest) (HttpResponse : Option FHttpResponse) (bSucceeded : Bool)
    (SuccessCallback ErrorCallback : FDelegate) : UXsollaStoreController :=
  match s.HandleRequestError E HttpRequest HttpResponse bSucceeded ErrorCallback with
  | (true, s) => s
  | (false, s) =>
    match HttpResponse with
    | none => s
    | some Response =>
      match E.Deserialize Response.ContentAsString with
      | none =>
        { s with Trace := s.Trace ++
            [FEffect.Error ErrorCallback Response.ResponseCode 0
              "Can't deserialize server response"] }
      | some JsonObject =>
        let OrderId := toInt32 (JsonObject.GetNumberField E "order_id")
        { s with Trace := s.Trace ++ [FEffect.PurchaseUpdate SuccessCallback OrderId] }

/-! ## Catalog getters -/

/-- The predicate of `GetVirtualItems`: the loop over the groups of an item, which returns
true at the first group whose `external_id` is the filter and false when none is. -/
def GetVirtualItems.Predicate (GroupFilter : String) : List FStoreItemGroup → Bool
  | [] => false
  | ItemGroup :: Rest =>
    if FString.Equals ItemGroup.external_id GroupFilter then true
    else GetVirtualItems.Predicate GroupFilter Rest

/-- The member `GetVirtualItems`; `FilterByPredicate` keeps the elements that satisfy the
predicate, in their order. -/
def GetVirtualItems (s : UXsollaStoreController) (GroupFilter : String) : List FStoreItem :=
  if GroupFilter = "" then s.ItemsData.Items
  else
    s.ItemsData.Items.filter
      (fun InStoreItem => GetVirtualItems.Predicate GroupFilter InStoreItem.groups)

/-- The member `GetVirtualItemsWithoutGroup`. -/
def GetVirtualItemsWithoutGroup (s : UXsollaStoreController) : List FStoreItem :=
  s.ItemsData.Items.filter (fun InStoreItem => InStoreItem.groups.length == 0)

/-! ## A concrete engine and concrete controllers -/

/-- A concrete engine for runs on explicit inputs: status codes 200 to 206 are the
success codes, and the reader knows the bodies listed here; every other text fails to
parse. -/
def SampleEngine : FEngine where
  IsOk := fun StatusCode => decide (200 ≤ StatusCode ∧ StatusCode ≤ 206)
  Deserialize := fun Text =>
    if Text = "\x7b\"statusCode\":403,\"errorCode\":7,\"errorMessage\":\"Token not found\"\x7d" then
      some [("statusCode", FJsonValueNumber 403), ("errorCode", FJsonValueNumber 7),
        ("errorMessage", FJsonValueString "Token not found")]
    else if Text = "\x7b\"statusCode\":403,\"errorCode\":0,\"errorMessage\":\"\"\x7d" then
      some [("statusCode", FJsonValueNumber 403), ("errorCode", FJsonValueNumber 0),
        ("errorMessage", FJsonValueString "")]
    else if Text = "\x7b\"errorMessage\":\"\"\x7d" then
      some [("errorMessage", FJsonValueString "")]
    else if Text = "\x7b\"error\":\"denied\"\x7d" then
      some [("error", FJsonValueString "denied")]
    else if Text = "\x7b\"id\": 42\x7d" then
      some [("id", FJsonValueNumber 42)]
    else if Text = "\x7b\"order_id\": 7, \"status\": \"pending_review\"\x7d" then
      some [("order_id", FJsonValueNumber 7), ("status", FJsonValueString "pending_review")]
    else if Text = "\x7b\"order_id\": 7, \"status\": \"PAID\"\x7d" then
      some [("order_id", FJsonValueNumber 7), ("status", FJsonValueString "PAID")]
    else if Text = "\x7b\"groups\": [\"weapons\"]\x7d" then
      some [("groups", FJsonValueArray [FJsonValueString "weapons"])]
    else none
  Serialize := fun _ => "\x7b\x7d"
  CoerceNumber := fun _ => 0
  CoerceString := fun _ => ""
  JsonObjectToCart := fun _ Cart => (true, Cart)
  ENGINE_VERSION_STRING := "4.23.0"
  XSOLLA_STORE_VERSION := "0.1.0"
  Base64Decode := fun Text =>
    if Text = "eyJpZCI6IDQyfQ==" then some "\x7b\"id\": 42\x7d" else none
  TryCoerceString := fun _ => none
  Settings := { bSandbox := true }
  UE_BUILD_SHIPPING := false
  JsonObjectToItemsData := fun JsonObject Data =>
    match JsonObject.Find "groups" with
    | some (FJsonValueArray Values) =>
      (true, { Data with Groups := Values.filterMap (fun Value =>
        match Value with
        | FJsonValueString ExternalId => some { external_id := ExternalId }
        | _ => none) })
    | _ => (false, Data)
  JsonObjectToInventory := fun _ Data => (true, Data)
  JsonObjectToVirtualCurrencyData := fun _ Data => (true, Data)
  JsonObjectToVirtualCurrencyPackagesData := fun _ Data => (true, Data)
  JsonObjectToVirtualCurrencyBalanceData := fun _ Data => (true, Data)
  JsonObjectToVirtualCurrency := fun _ Data => (true, Data)
  JsonObjectToVirtualCurrencyPackage := fun _ Data => (true, Data)

/-- A controller with an empty cart and an empty request queue; the sku `sku-1` is both a
catalog item and a currency package, the sku `pack-9` only a currency package. -/
def SampleController : UXsollaStoreController where
  ProjectId := "demo"
  ItemsData := { Items := [{ sku := "sku-1", name := "Sword", groups := [] }] }
  VirtualCurrencyPackages :=
    { Items := [{ sku := "sku-1", name := "Gold pack" }, { sku := "pack-9", name := "Gems" }] }
  Cart := { cart_id := 7, Items := [] }

/-- A controller whose cart holds two line items with the sku `a`, around one with the
sku `b`; the request queue is empty. -/
def SampleCartController : UXsollaStoreController where
  ProjectId := "demo"
  Cart :=
    { cart_id := 7
      Items := [{ sku := "a", name := "first", quantity := 1 },
        { sku := "b", name := "other", quantity := 5 },
        { sku := "a", name := "second", quantity := 2 }] }

/-- A controller whose cart holds the sku `A` with quantity 3 before the sku `a` with
quantity 2; the request queue is empty. -/
def SampleMixedCaseController : UXsollaStoreController where
  ProjectId := "demo"
  Cart :=
    { cart_id := 7
      Items := [{ sku := "A", name := "upper", quantity := 3 },
        { sku := "a", name := "lower", quantity := 2 }] }

/-- A controller whose cart holds the one sku `sku-1`, with quantity 3, which is also in
the catalog; the request queue is empty. -/
def SampleHeldController : UXsollaStoreController where
  ProjectId := "demo"
  ItemsData := { Items := [{ sku := "sku-1", name := "Sword", groups := [] }] }
  Cart := { cart_id := 7, Items := [{ sku := "sku-1", name := "Sword", quantity := 3 }] }

/-- The sample controller after `CreateCart` and then `AddToCart("sku-1", 3)`, both made
before any completion. -/
def SampleAfterCalls : UXsollaStoreController :=
  InvokeAll SampleEngine SampleController
    [FCartCall.CreateCart "token" 1 2, FCartCall.AddToCart "token" "sku-1" 3 3 4]

/-- The controller `SampleAfterCalls` after the request of `CreateCart` has succeeded with
status 200 and the body `{"id": 42}`. -/
def SampleAfterCreateSucceeded : UXsollaStoreController :=
  OnProcessRequestComplete SampleEngine SampleAfterCalls 0 EHttpRequestStatus.Succeeded
    (some { ResponseCode := 200, ContentAsString := "\x7b\"id\": 42\x7d" }) true

/-- The controller `SampleAfterCalls` after the request of `CreateCart` has succeeded with
status 200 and a body that is not JSON. -/
def SampleAfterCreateUnreadable : UXsollaStoreController :=
  OnProcessRequestComplete SampleEngine SampleAfterCalls 0 EHttpRequestStatus.Succeeded
    (some { ResponseCode := 200, ContentAsString := "<html>" }) true

/-- The sample controller after `ClearCart` and then `AddToCart("sku-1", 3)`, both made
before any completion. -/
def SampleAfterClearCalls : UXsollaStoreController :=
  InvokeAll SampleEngine SampleController
    [FCartCall.ClearCart "token" 1 2, FCartCall.AddToCart "token" "sku-1" 3 3 4]

/-- The controller `SampleAfterClearCalls` after the request of `ClearCart` has succeeded
with status 200 and an empty body. -/
def SampleAfterClearSucceeded : UXsollaStoreController :=
  OnProcessRequestComplete SampleEngine SampleAfterClearCalls 0 EHttpRequestStatus.Succeeded
    (some { ResponseCode := 200, ContentAsString := "" }) true

/-- The controller `SampleAfterCreateSucceeded` after the completion of a currency lookup
that failed without a response. -/
def SampleAfterCurrencyFailed : UXsollaStoreController :=
  GetVirtualCurrency_HttpRequestComplete SampleEngine SampleAfterCreateSucceeded none none
    false 5 6

/-- The controller `SampleAfterCreateSucceeded` after the completion of a currency-package
lookup that failed without a response. -/
def SampleAfterCurrencyPackageFailed : UXsollaStoreController :=
  GetVirtualCurrencyPackage_HttpRequestComplete SampleEngine SampleAfterCreateSucceeded none
    none false 5 6

/-- A controller whose cached catalog holds a sword in the group `weapons`, a potion in
no group and a bow in the groups `weapons` and `ranged`. -/
def SampleCatalogController : UXsollaStoreController where
  ProjectId := "demo"
  ItemsData :=
    { Items :=
        [{ sku := "sword", name := "Sword", groups := [{ external_id := "weapons" }] },
          { sku := "potion", name := "Potion", groups := [] },
          { sku := "bow", name := "Bow",
            groups := [{ external_id := "weapons" }, { external_id := "ranged" }] }] }
  Cart := { cart_id := 7, Items := [] }

/-! ## Response classifier: results -/

/-- The classifier on a non-success response whose body is a JSON object with a string
field `errorMessage`: the locals are overwritten from the body. -/
theorem HandleRequestError_locals_structured (E : FEngine) (Response : FHttpResponse)
    (JsonObject : FJsonObject)
    (hCode : E.IsOk Response.ResponseCode = false)
    (hJson : E.Deserialize Response.ContentAsString = some JsonObject)
    (hField : JsonObject.HasTypedField_String "errorMessage" = true) :
    HandleRequestError.locals E (some Response) true =
      { ErrorStr := JsonObject.GetStringField E "errorMessage"
        ErrorCode := toInt32 (JsonObject.GetNumberField E "errorCode")
        StatusCode := toInt32 (JsonObject.GetNumberField E "statusCode")
        ResponseStr := Response.ContentAsString } := by
  simp [HandleRequestError.locals, hCode, hJson, hField]

/-- Inside the `int32` range the conversion keeps the number. -/
theorem toInt32_of_range (n : Int) (hLow : -2147483648 ≤ n) (hHigh : n < 2147483648) :
    toInt32 n = n := by
  unfold toInt32
  omega

/-- For a non-success response whose body is a JSON object with a non-empty string field
`errorMessage` and numeric fields `statusCode` and `errorCode` in the `int32` range, the
classifier returns true and calls the error callback once, with the triple of the body. -/
theorem HandleRequestError_structured_nonempty (E : FEngine) (HttpRequest : Option IHttpRequest)
    (Response : FHttpResponse) (ErrorCallback : FDelegate) (JsonObject : FJsonObject)
    (StatusCode ErrorCode : Int) (ErrorMessage : String)
    (hCode : E.IsOk Response.ResponseCode = false)
    (hJson : E.Deserialize Response.ContentAsString = some JsonObject)
    (hMessage : JsonObject.Find "errorMessage" = some (FJsonValueString ErrorMessage))
    (hStatus : JsonObject.Find "statusCode" = some (FJsonValueNumber StatusCode))
    (hError : JsonObject.Find "errorCode" = some (FJsonValueNumber ErrorCode))
    (hStatusLow : -2147483648 ≤ StatusCode) (hStatusHigh : StatusCode < 2147483648)
    (hErrorLow : -2147483648 ≤ ErrorCode) (hErrorHigh : ErrorCode < 2147483648)
    (hNonEmpty : ErrorMessage ≠ "") :
    HandleRequestError E HttpRequest (some Response) true ErrorCallback =
      (true, [FEffect.Error ErrorCallback StatusCode ErrorCode ErrorMessage]) := by
  have hField : JsonObject.HasTypedField_String "errorMessage" = true := by
    simp [FJsonObject.HasTypedField_String, hMessage]
  simp [HandleRequestError, HandleRequestError_locals_structured E Response JsonObject hCode hJson
    hField, FJsonObject.GetStringField, FJsonObject.GetNumberField, hMessage, hStatus, hError,
    FJsonValue.AsString, FJsonValue.AsNumber, toInt32_of_range, hStatusLow, hStatusHigh,
    hErrorLow, hErrorHigh, hNonEmpty]

/-- C3, evaluated at the failing input: status 403 is not a success code and the body
is the JSON object with `statusCode` 403, `errorCode` 0 and the empty string as
`errorMessage`; the classifier returns false and makes no call on the error callback. -/
theorem HandleRequestError_empty_errorMessage_not_reported :
    SampleEngine.IsOk 403 = false ∧
    SampleEngine.Deserialize "\x7b\"statusCode\":403,\"errorCode\":0,\"errorMessage\":\"\"\x7d" =
      some [("statusCode", FJsonValueNumber 403), ("errorCode", FJsonValueNumber 0),
        ("errorMessage", FJsonValueString "")] ∧
    HandleRequestError SampleEngine none
      (some { ResponseCode := 403
              ContentAsString :=
                "\x7b\"statusCode\":403,\"errorCode\":0,\"errorMessage\":\"\"\x7d" })
      true 1 = (false, []) := by
  refine ⟨by decide, rfl, ?_⟩
  decide

/-- C4 as stated fails: for status 503 with the body `Service Unavailable`, which is not
JSON and so contains no field `errorMessage`, the classifier reports the message
"Can't deserialize error json" and not the message that the field `errorMessage` is
missing. -/
theorem HandleRequestError_missing_errorMessage_not_json :
    SampleEngine.IsOk 503 = false ∧
    SampleEngine.Deserialize "Service Unavailable" = none ∧
    HandleRequestError SampleEngine none
      (some { ResponseCode := 503, ContentAsString := "Service Unavailable" }) true 1 =
      (true, [FEffect.Error 1 503 0 "Can't deserialize error json"]) ∧
    "Can't deserialize error json" ≠
      "Can't deserialize error json: no field 'errorMessage' found" := by
  refine ⟨by decide, rfl, by decide, by decide⟩

/-- C4, amended: for a completed exchange whose status code is not a success code and
whose body parses as a JSON object without a field `errorMessage`, the classifier returns
true and calls the error callback once with the status code of the response, error code 0
and the message that no field `errorMessage` was found. -/
theorem HandleRequestError_missing_errorMessage (E : FEngine) (HttpRequest : Option IHttpRequest)
    (Response : FHttpResponse) (ErrorCallback : FDelegate) (JsonObject : FJsonObject)
    (hCode : E.IsOk Response.ResponseCode = false)
    (hJson : E.Deserialize Response.ContentAsString = some JsonObject)
    (hMissing : JsonObject.Find "errorMessage" = none) :
    HandleRequestError E HttpRequest (some Response) true ErrorCallback =
      (true, [FEffect.Error ErrorCallback Response.ResponseCode 0
        "Can't deserialize error json: no field 'errorMessage' found"]) := by
  simp [HandleRequestError, HandleRequestError.locals, hCode, hJson,
    FJsonObject.HasTypedField_String, hMissing]

/-- C4, amended, at a concrete input: status 404 with the body `{"error":"denied"}`. -/
theorem HandleRequestError_missing_errorMessage_witness :
    HandleRequestError SampleEngine none
      (some { ResponseCode := 404, ContentAsString := "\x7b\"error\":\"denied\"\x7d" })
      true 1 =
      (true, [FEffect.Error 1 404 0
        "Can't deserialize error json: no field 'errorMessage' found"]) :=
  HandleRequestError_missing_errorMessage SampleEngine none
    { ResponseCode := 404, ContentAsString := "\x7b\"error\":\"denied\"\x7d" } 1
    [("error", FJsonValueString "denied")] (by decide) rfl rfl

/-- The classifier calls the error callback once when it returns true and not at all
when it returns false. -/
theorem HandleRequestError_calls_once_iff_true (E : FEngine) (HttpRequest : Option IHttpRequest)
    (HttpResponse : Option FHttpResponse) (bSucceeded : Bool) (ErrorCallback : FDelegate) :
    ((HandleRequestError E HttpRequest HttpResponse bSucceeded ErrorCallback).1 = true ∧
      ∃ StatusCode ErrorCode ErrorMessage,
        (HandleRequestError E HttpRequest HttpResponse bSucceeded ErrorCallback).2 =
          [FEffect.Error ErrorCallback StatusCode ErrorCode ErrorMessage]) ∨
    HandleRequestError E HttpRequest HttpResponse bSucceeded ErrorCallback = (false, []) := by
  unfold HandleRequestError
  by_cases h : (HandleRequestError.locals E HttpResponse bSucceeded).ErrorStr = ""
  · right
    simp [h]
  · left
    simp [h]

/-- A completed exchange with a success status code is never reported as an error. -/
theorem HandleRequestError_ok (E : FEngine) (HttpRequest : Option IHttpRequest)
    (Response : FHttpResponse) (ErrorCallback : FDelegate)
    (hCode : E.IsOk Response.ResponseCode = true) :
    HandleRequestError E HttpRequest (some Response) true ErrorCallback = (false, []) := by
  simp [HandleRequestError, HandleRequestError.locals, hCode]

/-- When the classifier returns true, the transport did not succeed, or there is no
response, or the status code of the response is not a success code. -/
theorem HandleRequestError_true_only_if (E : FEngine) (HttpRequest : Option IHttpRequest)
    (HttpResponse : Option FHttpResponse) (bSucceeded : Bool) (ErrorCallback : FDelegate)
    (hTrue : (HandleRequestError E HttpRequest HttpResponse bSucceeded ErrorCallback).1 = true) :
    bSucceeded = false ∨ HttpResponse = none ∨
      ∃ Response, HttpResponse = some Response ∧ E.IsOk Response.ResponseCode = false := by
  cases bSucceeded with
  | false => exact Or.inl rfl
  | true =>
    cases HttpResponse with
    | none => exact Or.inr (Or.inl rfl)
    | some Response =>
      refine Or.inr (Or.inr ⟨Response, rfl, ?_⟩)
      cases hOk : E.IsOk Response.ResponseCode with
      | false => rfl
      | true =>
        rw [HandleRequestError_ok E HttpRequest Response ErrorCallback hOk] at hTrue
        cases hTrue

/-- C5, evaluated at the failing input: status 500 is not a success code, the transport
succeeded and the response is present with the body `{"errorMessage":""}`; the classifier
returns false and makes no call on the error callback. -/
theorem HandleRequestError_non_success_status_passes :
    SampleEngine.IsOk 500 = false ∧
    (HandleRequestError SampleEngine none
      (some { ResponseCode := 500, ContentAsString := "\x7b\"errorMessage\":\"\"\x7d" })
      true 1).1 = false ∧
    (HandleRequestError SampleEngine none
      (some { ResponseCode := 500, ContentAsString := "\x7b\"errorMessage\":\"\"\x7d" })
      true 1).2 = [] := by
  refine ⟨by decide, by decide, by decide⟩

/-- C6: when the transport success flag is false or the response object is absent, the
classifier returns true and calls the error callback once with status 204, error code 0
and the message "No response", whatever the request and the other inputs are. -/
theorem HandleRequestError_no_response (E : FEngine) (HttpRequest : Option IHttpRequest)
    (HttpResponse : Option FHttpResponse) (bSucceeded : Bool) (ErrorCallback : FDelegate)
    (hNone : bSucceeded = false ∨ HttpResponse = none) :
    HandleRequestError E HttpRequest HttpResponse bSucceeded ErrorCallback =
      (true, [FEffect.Error ErrorCallback 204 0 "No response"]) := by
  rcases hNone with h | h
  · subst h
    cases HttpResponse <;> simp [HandleRequestError, HandleRequestError.locals]
  · subst h
    cases bSucceeded <;> simp [HandleRequestError, HandleRequestError.locals]

/-- C6 at a concrete input: the success flag is false although a response with status
200 is present. -/
theorem HandleRequestError_no_response_witness :
    HandleRequestError SampleEngine none
      (some { ResponseCode := 200, ContentAsString := "\x7b\"id\": 42\x7d" }) false 1 =
      (true, [FEffect.Error 1 204 0 "No response"]) :=
  HandleRequestError_no_response SampleEngine none
    (some { ResponseCode := 200, ContentAsString := "\x7b\"id\": 42\x7d" }) false 1
    (Or.inl rfl)

/-- C7 as stated fails: for status 500 with the body `oops`, which is not JSON, the
classifier reports the message "Can't deserialize error json", which is not the default
message built from the status code and the body. -/
theorem HandleRequestError_unparseable_not_default :
    SampleEngine.IsOk 500 = false ∧
    SampleEngine.Deserialize "oops" = none ∧
    HandleRequestError SampleEngine none
      (some { ResponseCode := 500, ContentAsString := "oops" }) true 1 =
      (true, [FEffect.Error 1 500 0 "Can't deserialize error json"]) ∧
    InvalidResponseMessage 500 "oops" = "Invalid response. code=500 error=oops" ∧
    "Can't deserialize error json" ≠ InvalidResponseMessage 500 "oops" := by
  refine ⟨by decide, rfl, by decide, by decide, by decide⟩

/-- C7, amended: for a completed exchange with a non-success status code whose body is
not parsable JSON, the classifier returns true and calls the error callback once with
the status code of the response, error code 0 and the fixed message
"Can't deserialize error json". -/
theorem HandleRequestError_unparseable (E : FEngine) (HttpRequest : Option IHttpRequest)
    (Response : FHttpResponse) (ErrorCallback : FDelegate)
    (hCode : E.IsOk Response.ResponseCode = false)
    (hJson : E.Deserialize Response.ContentAsString = none) :
    HandleRequestError E HttpRequest (some Response) true ErrorCallback =
      (true, [FEffect.Error ErrorCallback Response.ResponseCode 0
        "Can't deserialize error json"]) := by
  simp [HandleRequestError, HandleRequestError.locals, hCode, hJson]

/-- C7, amended, at a concrete input: status 502 with the body `Bad Gateway`. -/
theorem HandleRequestError_unparseable_witness :
    HandleRequestError SampleEngine none
      (some { ResponseCode := 502, ContentAsString := "Bad Gateway" }) true 1 =
      (true, [FEffect.Error 1 502 0 "Can't deserialize error json"]) :=
  HandleRequestError_unparseable SampleEngine none
    { ResponseCode := 502, ContentAsString := "Bad Gateway" } 1 (by decide) rfl

/-! ## String comparison: auxiliary facts -/

/-- The comparison of the engine holds exactly when the two texts agree after lowering. -/
theorem FString_Equals_iff (Lhs Rhs : String) :
    FString.Equals Lhs Rhs = true ↔
      Lhs.toList.map Char.toLower = Rhs.toList.map Char.toLower := by
  simp [FString.Equals]

/-- The comparison of the engine takes every text as equal to itself. -/
theorem FString_Equals_refl (Text : String) : FString.Equals Text Text = true := by
  simp [FString.Equals]

/-- Two texts that the comparison of the engine takes as equal to a third are taken as
equal to each other. -/
theorem FString_Equals_of_common (Text Lhs Rhs : String)
    (hLhs : FString.Equals Text Lhs = true) (hRhs : FString.Equals Text Rhs = true) :
    FString.Equals Lhs Rhs = true := by
  rw [FString_Equals_iff] at hLhs hRhs ⊢
  rw [← hLhs, ← hRhs]

/-! ## Local cart mutations: auxiliary facts -/

/-- Draining the queue leaves the cart untouched. -/
theorem ProcessNextCartRequest_Cart (s : UXsollaStoreController) :
    (ProcessNextCartRequest s).Cart = s.Cart := by
  unfold ProcessNextCartRequest
  dsimp only
  split
  · split <;> rfl
  · rfl

/-- Draining the queue leaves the cached catalog and packages untouched. -/
theorem ProcessNextCartRequest_caches (s : UXsollaStoreController) :
    (ProcessNextCartRequest s).ItemsData = s.ItemsData ∧
    (ProcessNextCartRequest s).VirtualCurrencyPackages = s.VirtualCurrencyPackages := by
  unfold ProcessNextCartRequest
  dsimp only
  split
  · split <;> exact ⟨rfl, rfl⟩
  · exact ⟨rfl, rfl⟩

/-- The cart after `AddToCart`: the id is kept and the items are those of the local
update. -/
theorem AddToCart_Cart (E : FEngine) (s : UXsollaStoreController) (AuthToken ItemSKU : String)
    (Quantity : Int) (SuccessCallback ErrorCallback : FDelegate) :
    (AddToCart E s AuthToken ItemSKU Quantity SuccessCallback ErrorCallback).Cart =
      { cart_id := s.Cart.cart_id
        Items := AddToCart.updateItems s.Cart.Items s.ItemsData s.VirtualCurrencyPackages
          ItemSKU Quantity } := by
  simp [AddToCart, EnqueueCartRequest, ProcessNextCartRequest_Cart,
    (ProcessNextCartRequest_caches _).1, (ProcessNextCartRequest_caches _).2]

/-- The cart after `RemoveFromCart`: the id is kept and the items are those the loop
leaves. -/
theorem RemoveFromCart_Cart (E : FEngine) (s : UXsollaStoreController)
    (AuthToken ItemSKU : String) (SuccessCallback ErrorCallback : FDelegate) :
    (RemoveFromCart E s AuthToken ItemSKU SuccessCallback ErrorCallback).Cart =
      { cart_id := s.Cart.cart_id
        Items := RemoveFromCart.loop ItemSKU s.Cart.Items.length s.Cart.Items } := by
  simp [RemoveFromCart, EnqueueCartRequest, ProcessNextCartRequest_Cart]

/-- When `FindByPredicate` finds nothing, no element satisfies the predicate, and
conversely. -/
theorem FindByPredicate_eq_none {α : Type} (Pred : α → Bool) (l : List α) :
    FindByPredicate Pred l = none ↔ ∀ x ∈ l, Pred x = false := by
  induction l with
  | nil => simp [FindByPredicate]
  | cons x xs ih =>
    by_cases h : Pred x = true
    · simp [FindByPredicate, h]
    · simp [FindByPredicate, h, ih]

/-- The position `FindByPredicate` returns holds an element that satisfies the predicate,
and no earlier position does. -/
theorem FindByPredicate_eq_some {α : Type} (Pred : α → Bool) (l : List α) (i : Nat)
    (h : FindByPredicate Pred l = some i) :
    (∃ x, l[i]? = some x ∧ Pred x = true) ∧
      ∀ j, j < i → ∀ y, l[j]? = some y → Pred y = false := by
  induction l generalizing i with
  | nil => simp [FindByPredicate] at h
  | cons x xs ih =>
    by_cases hx : Pred x = true
    · simp [FindByPredicate, hx] at h
      subst h
      exact ⟨⟨x, by simp, hx⟩, fun j hj => absurd hj (Nat.not_lt_zero j)⟩
    · simp [FindByPredicate, hx] at h
      obtain ⟨k, hk, rfl⟩ := h
      obtain ⟨⟨y, hy, hp⟩, hFirst⟩ := ih k hk
      refine ⟨⟨y, by simpa using hy, hp⟩, ?_⟩
      intro j hj z hz
      cases j with
      | zero =>
        simp at hz
        subst hz
        simpa using hx
      | succ j =>
        exact hFirst j (by omega) z (by simpa using hz)

/-- The loop of `RemoveFromCart` removes the entry at the highest matching index below
its bound. -/
theorem RemoveFromCart_loop_last (ItemSKU : String) (n : Nat) (Items : List FStoreCartItem)
    (i : Nat) (Item : FStoreCartItem) (hi : i < n)
    (hAt : Items[i]? = some Item) (hSku : FString.Equals Item.sku ItemSKU = true)
    (hLast : ∀ j, i < j → j < n → ∀ Other, Items[j]? = some Other →
      FString.Equals Other.sku ItemSKU = false) :
    RemoveFromCart.loop ItemSKU n Items = Items.eraseIdx i := by
  induction n with
  | zero => omega
  | succ k ih =>
    by_cases hik : i = k
    · subst hik
      simp [RemoveFromCart.loop, hAt, hSku]
    · have hlt : i < k := by omega
      have hrec := ih hlt (fun j h1 h2 => hLast j h1 (by omega))
      cases hk : Items[k]? with
      | none => simp [RemoveFromCart.loop, hk, hrec]
      | some Other =>
        have hne : FString.Equals Other.sku ItemSKU = false := hLast k hlt (by omega) Other hk
        simp [RemoveFromCart.loop, hk, hne, hrec]

/-- The loop of `RemoveFromCart` changes nothing when no entry below its bound matches. -/
theorem RemoveFromCart_loop_absent (ItemSKU : String) (n : Nat) (Items : List FStoreCartItem)
    (hAbsent : ∀ j, j < n → ∀ Other, Items[j]? = some Other →
      FString.Equals Other.sku ItemSKU = false) :
    RemoveFromCart.loop ItemSKU n Items = Items := by
  induction n with
  | zero => rfl
  | succ k ih =>
    have hrec := ih (fun j h => hAbsent j (by omega))
    cases hk : Items[k]? with
    | none => simp [RemoveFromCart.loop, hk, hrec]
    | some Other =>
      have hne : FString.Equals Other.sku ItemSKU = false := hAbsent k (by omega) Other hk
      simp [RemoveFromCart.loop, hk, hne, hrec]

/-! ## Local cart mutations: results -/

/-- C8 as stated fails: on the cart `[A (quantity 3), a (quantity 2)]`,
`AddToCart("a", 5)` leaves `[A (quantity 5), a (quantity 2)]`. The first line item whose
sku is `a` keeps its quantity 2, and the line item with the sku `A`, which the comparison
of the engine takes as equal to `a`, is the one that changes. -/
theorem AddToCart_first_match_ignores_case :
    SampleMixedCaseController.Cart.Items =
      [{ sku := "A", name := "upper", quantity := 3 },
        { sku := "a", name := "lower", quantity := 2 }] ∧
    (AddToCart SampleEngine SampleMixedCaseController "token" "a" 5 1 2).Cart.Items =
      [{ sku := "A", name := "upper", quantity := 5 },
        { sku := "a", name := "lower", quantity := 2 }] := by
  refine ⟨rfl, by decide⟩

/-- C8, amended: `AddToCart` on a sku that some line item of the local cart has, skus
being compared as the engine compares them, ignoring case. At the first position `i` whose
line item has that sku, the line item afterwards is the old one with quantity
`max 0 Quantity`; the number of line items, every line item at another position and the
cart id are unchanged. -/
theorem AddToCart_existing_sku (E : FEngine) (s : UXsollaStoreController)
    (AuthToken ItemSKU : String) (Quantity : Int) (SuccessCallback ErrorCallback : FDelegate)
    (hPresent : ∃ Item ∈ s.Cart.Items, FString.Equals Item.sku ItemSKU = true) :
    ∃ (i : Nat) (CartItem : FStoreCartItem),
      s.Cart.Items[i]? = some CartItem ∧ FString.Equals CartItem.sku ItemSKU = true ∧
      (∀ j, j < i → ∀ Other : FStoreCartItem, s.Cart.Items[j]? = some Other →
        FString.Equals Other.sku ItemSKU = false) ∧
      (AddToCart E s AuthToken ItemSKU Quantity SuccessCallback ErrorCallback).Cart.Items[i]? =
        some { CartItem with quantity := max 0 Quantity } ∧
      (AddToCart E s AuthToken ItemSKU Quantity SuccessCallback ErrorCallback).Cart.Items.length =
        s.Cart.Items.length ∧
      (∀ j, j ≠ i →
        (AddToCart E s AuthToken ItemSKU Quantity SuccessCallback ErrorCallback).Cart.Items[j]? =
          s.Cart.Items[j]?) ∧
      (AddToCart E s AuthToken ItemSKU Quantity SuccessCallback ErrorCallback).Cart.cart_id =
        s.Cart.cart_id := by
  rw [AddToCart_Cart]
  cases hFind : FindByPredicate
      (fun InItem : FStoreCartItem => FString.Equals InItem.sku ItemSKU) s.Cart.Items with
  | none =>
    obtain ⟨Item, hMem, hSku⟩ := hPresent
    have hNone : FString.Equals Item.sku ItemSKU = false :=
      (FindByPredicate_eq_none _ _).1 hFind Item hMem
    rw [hSku] at hNone
    cases hNone
  | some i =>
    obtain ⟨⟨CartItem, hAt, hPred⟩, hFirst⟩ := FindByPredicate_eq_some _ _ i hFind
    refine ⟨i, CartItem, hAt, hPred, ?_, ?_, ?_, ?_, rfl⟩
    · intro j hj Other hOther
      exact hFirst j hj Other hOther
    · simp [AddToCart.updateItems, hFind, List.getElem?_modify, hAt]
    · simp [AddToCart.updateItems, hFind, List.length_modify]
    · intro j hj
      simp only [AddToCart.updateItems, hFind, List.getElem?_modify]
      cases s.Cart.Items[j]? with
      | none => rfl
      | some Other => simp [Ne.symm hj]

/-- C8, amended, at a concrete input: the cart holds the sku `a` twice, the sku asked for
is `A` and the quantity asked for is negative. -/
theorem AddToCart_existing_sku_witness :
    ∃ (i : Nat) (CartItem : FStoreCartItem),
      SampleCartController.Cart.Items[i]? = some CartItem ∧
      FString.Equals CartItem.sku "A" = true ∧
      (∀ j, j < i → ∀ Other : FStoreCartItem,
        SampleCartController.Cart.Items[j]? = some Other →
        FString.Equals Other.sku "A" = false) ∧
      (AddToCart SampleEngine SampleCartController "token" "A" (-4) 1 2).Cart.Items[i]? =
        some { CartItem with quantity := max 0 (-4) } ∧
      (AddToCart SampleEngine SampleCartController "token" "A" (-4) 1 2).Cart.Items.length =
        SampleCartController.Cart.Items.length ∧
      (∀ j, j ≠ i →
        (AddToCart SampleEngine SampleCartController "token" "A" (-4) 1 2).Cart.Items[j]? =
          SampleCartController.Cart.Items[j]?) ∧
      (AddToCart SampleEngine SampleCartController "token" "A" (-4) 1 2).Cart.cart_id =
        SampleCartController.Cart.cart_id :=
  AddToCart_existing_sku SampleEngine SampleCartController "token" "A" (-4) 1 2
    ⟨{ sku := "a", name := "first", quantity := 1 }, by decide, by decide⟩

/-- C9 as stated fails: `AddToCart("sku-1", -2)` on an empty cart, with `sku-1` in the
catalog, appends a line item whose quantity is 0 and not the requested -2. -/
theorem AddToCart_new_item_quantity_clamped :
    SampleController.Cart.Items = [] ∧
    SampleController.ItemsData.Items.find?
        (fun InItem => FString.Equals InItem.sku "sku-1") =
      some { sku := "sku-1", name := "Sword", groups := [] } ∧
    (AddToCart SampleEngine SampleController "token" "sku-1" (-2) 1 2).Cart.Items =
      [{ sku := "sku-1", name := "Sword", quantity := 0 }] ∧
    (AddToCart SampleEngine SampleController "token" "sku-1" (-2) 1 2).Cart.Items ≠
      [{ sku := "sku-1", name := "Sword", quantity := -2 }] := by
  refine ⟨rfl, by decide, by decide, by decide⟩

/-- C9, amended: `AddToCart` on a sku that no line item of the local cart has, skus being
compared as the engine compares them, ignoring case. If the catalog items hold the sku,
one line item built from the first such catalog item is appended at the end, with
quantity `max 0 Quantity`, whatever the currency packages hold; if the catalog items do
not hold it and the currency packages do, one line item built from the first such package
is appended at the end, with quantity `max 0 Quantity`. The cart id is unchanged. -/
theorem AddToCart_absent_sku (E : FEngine) (s : UXsollaStoreController)
    (AuthToken ItemSKU : String) (Quantity : Int) (SuccessCallback ErrorCallback : FDelegate)
    (hAbsent : ∀ Item ∈ s.Cart.Items, FString.Equals Item.sku ItemSKU = false) :
    (∀ StoreItem,
      s.ItemsData.Items.find? (fun InItem => FString.Equals InItem.sku ItemSKU) =
        some StoreItem →
      (AddToCart E s AuthToken ItemSKU Quantity SuccessCallback ErrorCallback).Cart.Items =
        s.Cart.Items ++
          [{ FStoreCartItem.ofStoreItem StoreItem with quantity := max 0 Quantity }]) ∧
    (s.ItemsData.Items.find? (fun InItem => FString.Equals InItem.sku ItemSKU) = none →
      ∀ CurrencyPackageItem,
        s.VirtualCurrencyPackages.Items.find?
            (fun InItem => FString.Equals InItem.sku ItemSKU) =
          some CurrencyPackageItem →
        (AddToCart E s AuthToken ItemSKU Quantity SuccessCallback ErrorCallback).Cart.Items =
          s.Cart.Items ++
            [{ FStoreCartItem.ofCurrencyPackage CurrencyPackageItem with
                quantity := max 0 Quantity }]) ∧
    (AddToCart E s AuthToken ItemSKU Quantity SuccessCallback ErrorCallback).Cart.cart_id =
      s.Cart.cart_id := by
  have hFind : FindByPredicate
      (fun InItem : FStoreCartItem => FString.Equals InItem.sku ItemSKU) s.Cart.Items =
      none := by
    rw [FindByPredicate_eq_none]
    intro Item hMem
    exact hAbsent Item hMem
  rw [AddToCart_Cart]
  refine ⟨?_, ?_, rfl⟩
  · intro StoreItem hStore
    simp [AddToCart.updateItems, hFind, hStore]
  · intro hNoStore CurrencyPackageItem hPackage
    simp [AddToCart.updateItems, hFind, hNoStore, hPackage]

/-- C9, amended, at the input of the spec with the sku in upper case: `AddToCart("SKU-1",
3)` on an empty cart with `sku-1` in the catalog (and also among the packages) leaves the
single line item built from the catalog item, with the sku `sku-1` and quantity 3. -/
theorem AddToCart_absent_sku_witness :
    (AddToCart SampleEngine SampleController "token" "SKU-1" 3 1 2).Cart.Items =
      [{ sku := "sku-1", name := "Sword", quantity := 3 }] :=
  (AddToCart_absent_sku SampleEngine SampleController "token" "SKU-1" 3 1 2
    (by decide)).1 { sku := "sku-1", name := "Sword", groups := [] } (by decide)

/-- C10 as stated fails: on the cart `[a (first), b, a (second)]`, `RemoveFromCart("a")`
leaves `[a (first), b]`; it deletes the line item at position 2, not the one at the lowest
position 0. -/
theorem RemoveFromCart_keeps_first_match :
    (RemoveFromCart SampleEngine SampleCartController "token" "a" 1 2).Cart.Items =
      [{ sku := "a", name := "first", quantity := 1 },
        { sku := "b", name := "other", quantity := 5 }] ∧
    (RemoveFromCart SampleEngine SampleCartController "token" "a" 1 2).Cart.Items ≠
      SampleCartController.Cart.Items.eraseIdx 0 := by
  refine ⟨by decide, by decide⟩

/-- C10, amended: `RemoveFromCart` deletes the last line item (highest position) whose
sku equals the given sku, skus being compared as the engine compares them, ignoring case,
and leaves all other line items, their order and the cart id unchanged, for every cart,
also one with several line items of that sku. -/
theorem RemoveFromCart_removes_last (E : FEngine) (s : UXsollaStoreController)
    (AuthToken ItemSKU : String) (SuccessCallback ErrorCallback : FDelegate)
    (i : Nat) (Item : FStoreCartItem)
    (hAt : s.Cart.Items[i]? = some Item) (hSku : FString.Equals Item.sku ItemSKU = true)
    (hLast : ∀ j, i < j → ∀ Other, s.Cart.Items[j]? = some Other →
      FString.Equals Other.sku ItemSKU = false) :
    (RemoveFromCart E s AuthToken ItemSKU SuccessCallback ErrorCallback).Cart.Items =
      s.Cart.Items.eraseIdx i ∧
    (RemoveFromCart E s AuthToken ItemSKU SuccessCallback ErrorCallback).Cart.cart_id =
      s.Cart.cart_id := by
  rw [RemoveFromCart_Cart]
  refine ⟨?_, rfl⟩
  have hi : i < s.Cart.Items.length := (List.getElem?_eq_some.1 hAt).1
  exact RemoveFromCart_loop_last ItemSKU s.Cart.Items.length s.Cart.Items i Item hi hAt hSku
    (fun j h1 _ => hLast j h1)

/-- C10, amended, at a concrete input: with the sku `A` asked for, the cart
`[a (first), b, a (second)]` loses the line item at position 2. -/
theorem RemoveFromCart_removes_last_witness :
    (RemoveFromCart SampleEngine SampleCartController "token" "A" 1 2).Cart.Items =
      SampleCartController.Cart.Items.eraseIdx 2 ∧
    (RemoveFromCart SampleEngine SampleCartController "token" "A" 1 2).Cart.cart_id =
      SampleCartController.Cart.cart_id :=
  RemoveFromCart_removes_last SampleEngine SampleCartController "token" "A" 1 2 2
    { sku := "a", name := "second", quantity := 2 } rfl (by decide)
    (fun j hj Other hOther => by
      have hNone : SampleCartController.Cart.Items[j]? = none :=
        List.getElem?_eq_none (by simp [SampleCartController]; omega)
      rw [hNone] at hOther
      cases hOther)

/-! ## Request queue: auxiliary facts -/

/-- Removing the entry that follows a segment, at the index given by the length of the
segment. -/
theorem eraseIdx_append_cons {α : Type} (A : List α) (r : α) (B : List α) :
    (A ++ r :: B).eraseIdx A.length = A ++ B := by
  induction A with
  | nil => rfl
  | cons a A ih => simp [ih]

/-- The cleanup loop run over an initial segment keeps the entries of the segment that
have not terminated and all entries behind it. -/
theorem cleanup_append (A B : List IHttpRequest) :
    ProcessNextCartRequest.cleanup A.length (A ++ B) =
      A.filter (fun Request => !IsFinished Request.Status) ++ B := by
  induction A using List.reverseRecOn generalizing B with
  | nil => simp [ProcessNextCartRequest.cleanup]
  | append_singleton A r ih =>
    have hSplit : A ++ [r] ++ B = A ++ (r :: B) := by simp
    have hAt : (A ++ (r :: B))[A.length]? = some r := by
      rw [List.getElem?_append_right (Nat.le_refl _)]
      simp
    rw [List.length_append, List.length_singleton, hSplit, ProcessNextCartRequest.cleanup, hAt]
    by_cases hFin : IsFinished r.Status = true
    · simp only [hFin, if_true, eraseIdx_append_cons, ih B]
      simp [List.filter_append, hFin]
    · simp only [hFin, ih (r :: B)]
      simp [List.filter_append, hFin]

/-- The cleanup loop of `ProcessNextCartRequest` leaves exactly the entries that have not
terminated, in their order. -/
theorem cleanup_eq_filter (Queue : List IHttpRequest) :
    ProcessNextCartRequest.cleanup Queue.length Queue =
      Queue.filter (fun Request => !IsFinished Request.Status) := by
  simpa using cleanup_append Queue []

/-- The queue after `ProcessNextCartRequest`, in terms of the entries that have not
terminated. -/
theorem ProcessNextCartRequest_queue (s : UXsollaStoreController) :
    (ProcessNextCartRequest s).CartRequestsQueue =
      match s.CartRequestsQueue.filter (fun Request => !IsFinished Request.Status) with
      | Head :: Rest =>
        if (Head :: Rest).any (fun Request => Request.Status == EHttpRequestStatus.Processing)
        then Head :: Rest
        else { Head with Status := EHttpRequestStatus.Processing } :: Rest
      | [] => [] := by
  unfold ProcessNextCartRequest
  simp only [cleanup_eq_filter]
  cases hQ : s.CartRequestsQueue.filter (fun Request => !IsFinished Request.Status) with
  | nil => rfl
  | cons Head Rest =>
    dsimp only
    by_cases hAny : (Head :: Rest).any
        (fun Request => Request.Status == EHttpRequestStatus.Processing) = true
    · simp only [hAny, Bool.not_true, if_true]
      simp
    · simp only [Bool.not_eq_true] at hAny
      simp only [hAny, Bool.not_false, if_true]
      simp

/-- Removing the terminated entries does not change the number of entries in flight. -/
theorem InFlight_filter (Queue : List IHttpRequest) :
    InFlight (Queue.filter (fun Request => !IsFinished Request.Status)) = InFlight Queue := by
  unfold InFlight
  rw [List.countP_filter]
  congr 1
  funext Request
  cases h : Request.Status <;> simp [IsFinished, h]

/-- After `ProcessNextCartRequest` at most one entry is in flight, if that held before. -/
theorem ProcessNextCartRequest_InFlight (s : UXsollaStoreController)
    (h : InFlight s.CartRequestsQueue ≤ 1) :
    InFlight (ProcessNextCartRequest s).CartRequestsQueue ≤ 1 := by
  rw [ProcessNextCartRequest_queue]
  have hF := InFlight_filter s.CartRequestsQueue
  cases hQ : s.CartRequestsQueue.filter (fun Request => !IsFinished Request.Status) with
  | nil => simp [InFlight]
  | cons Head Rest =>
    rw [hQ] at hF
    dsimp only
    by_cases hAny : (Head :: Rest).any
        (fun Request => Request.Status == EHttpRequestStatus.Processing) = true
    · rw [if_pos hAny, hF]
      exact h
    · rw [if_neg hAny]
      simp only [Bool.not_eq_true, List.any_eq_false] at hAny
      have hRest : InFlight Rest = 0 := by
        unfold InFlight
        rw [List.countP_eq_zero]
        intro Request hMem
        simpa using hAny Request (List.mem_cons_of_mem _ hMem)
      unfold InFlight at hRest ⊢
      simp [List.countP_cons, hRest]

/-- A request as `CreateHttpRequest` returns it has not been started. -/
theorem CreateHttpRequest_Status (E : FEngine) (Id : Nat) (Url : String) (Verb : ERequestVerb)
    (AuthToken Content : String) :
    (CreateHttpRequest E Id Url Verb AuthToken Content).Status =
      EHttpRequestStatus.NotStarted := by
  unfold CreateHttpRequest
  cases Verb <;> by_cases hA : AuthToken = "" <;> by_cases hC : Content = "" <;>
    simp [IHttpRequest.SetHeader, hA, hC]

/-- Appending a request that has not been started and draining keeps at most one entry in
flight. -/
theorem EnqueueCartRequest_InFlight (s : UXsollaStoreController) (HttpRequest : IHttpRequest)
    (Handler : ECartRequest) (SuccessCallback ErrorCallback : FDelegate)
    (hNew : HttpRequest.Status = EHttpRequestStatus.NotStarted)
    (h : InFlight s.CartRequestsQueue ≤ 1) :
    InFlight (EnqueueCartRequest s HttpRequest Handler SuccessCallback
      ErrorCallback).CartRequestsQueue ≤ 1 := by
  unfold EnqueueCartRequest
  apply ProcessNextCartRequest_InFlight
  simpa [InFlight, List.countP_append, List.countP_cons, hNew] using h

/-- The classifier call of a handler does not touch the request queue. -/
theorem HandleRequestError_queue (E : FEngine) (s : UXsollaStoreController)
    (HttpRequest : Option IHttpRequest) (HttpResponse : Option FHttpResponse)
    (bSucceeded : Bool) (ErrorCallback : FDelegate) :
    (s.HandleRequestError E HttpRequest HttpResponse bSucceeded
      ErrorCallback).2.CartRequestsQueue = s.CartRequestsQueue := rfl

/-- The member `UpdateCart` keeps at most one entry in flight. -/
theorem UpdateCart_InFlight (E : FEngine) (s : UXsollaStoreController) (AuthToken : String)
    (SuccessCallback ErrorCallback : FDelegate) (h : InFlight s.CartRequestsQueue ≤ 1) :
    InFlight (UpdateCart E s AuthToken SuccessCallback ErrorCallback).CartRequestsQueue ≤ 1 := by
  unfold UpdateCart
  exact EnqueueCartRequest_InFlight _ _ _ _ _ (CreateHttpRequest_Status _ _ _ _ _ _) h

/-- Every cart call keeps at most one entry in flight. -/
theorem Invoke_InFlight (E : FEngine) (s : UXsollaStoreController) (c : FCartCall)
    (h : InFlight s.CartRequestsQueue ≤ 1) :
    InFlight (c.Invoke E s).CartRequestsQueue ≤ 1 := by
  cases c with
  | CreateCart AuthToken S F =>
    simp only [FCartCall.Invoke, CreateCart]
    exact EnqueueCartRequest_InFlight _ _ _ _ _ (CreateHttpRequest_Status _ _ _ _ _ _) h
  | ClearCart AuthToken S F =>
    simp only [FCartCall.Invoke, ClearCart]
    exact EnqueueCartRequest_InFlight _ _ _ _ _ (CreateHttpRequest_Status _ _ _ _ _ _) h
  | UpdateCart AuthToken S F =>
    exact UpdateCart_InFlight E s AuthToken S F h
  | AddToCart AuthToken ItemSKU Quantity S F =>
    simp only [FCartCall.Invoke, AddToCart]
    exact EnqueueCartRequest_InFlight _ _ _ _ _ (CreateHttpRequest_Status _ _ _ _ _ _) h
  | RemoveFromCart AuthToken ItemSKU S F =>
    simp only [FCartCall.Invoke, RemoveFromCart]
    exact EnqueueCartRequest_InFlight _ _ _ _ _ (CreateHttpRequest_Status _ _ _ _ _ _) h

/-- The handler `CreateCart_HttpRequestComplete` keeps at most one entry in flight. -/
theorem CreateCart_HttpRequestComplete_InFlight (E : FEngine) (s : UXsollaStoreController)
    (HttpRequest : Option IHttpRequest) (HttpResponse : Option FHttpResponse) (bSucceeded : Bool)
    (SuccessCallback ErrorCallback : FDelegate) (h : InFlight s.CartRequestsQueue ≤ 1) :
    InFlight (CreateCart_HttpRequestComplete E s HttpRequest HttpResponse bSucceeded
      SuccessCallback ErrorCallback).CartRequestsQueue ≤ 1 := by
  unfold CreateCart_HttpRequestComplete
  have hq := HandleRequestError_queue E s HttpRequest HttpResponse bSucceeded ErrorCallback
  rcases hr : s.HandleRequestError E HttpRequest HttpResponse bSucceeded ErrorCallback
    with ⟨b, t⟩
  rw [hr] at hq
  simp only at hq
  cases b with
  | true => exact ProcessNextCartRequest_InFlight t (hq ▸ h)
  | false =>
    dsimp only
    cases HttpResponse with
    | none => exact hq ▸ h
    | some Response =>
      dsimp only
      cases E.Deserialize Response.ContentAsString with
      | none => exact hq ▸ h
      | some JsonObject => exact hq ▸ h

/-- The handler `ClearCart_HttpRequestComplete` keeps at most one entry in flight. -/
theorem ClearCart_HttpRequestComplete_InFlight (E : FEngine) (s : UXsollaStoreController)
    (HttpRequest : Option IHttpRequest) (HttpResponse : Option FHttpResponse) (bSucceeded : Bool)
    (SuccessCallback ErrorCallback : FDelegate) (h : InFlight s.CartRequestsQueue ≤ 1) :
    InFlight (ClearCart_HttpRequestComplete E s HttpRequest HttpResponse bSucceeded
      SuccessCallback ErrorCallback).CartRequestsQueue ≤ 1 := by
  unfold ClearCart_HttpRequestComplete
  have hq := HandleRequestError_queue E s HttpRequest HttpResponse bSucceeded ErrorCallback
  rcases hr : s.HandleRequestError E HttpRequest HttpResponse bSucceeded ErrorCallback
    with ⟨b, t⟩
  rw [hr] at hq
  simp only at hq
  cases b with
  | true => exact ProcessNextCartRequest_InFlight t (hq ▸ h)
  | false => exact ProcessNextCartRequest_InFlight _ (hq ▸ h)

/-- The handler `UpdateCart_HttpRequestComplete` keeps at most one entry in flight. -/
theorem UpdateCart_HttpRequestComplete_InFlight (E : FEngine) (s : UXsollaStoreController)
    (HttpRequest : Option IHttpRequest) (HttpResponse : Option FHttpResponse) (bSucceeded : Bool)
    (SuccessCallback ErrorCallback : FDelegate) (h : InFlight s.CartRequestsQueue ≤ 1) :
    InFlight (UpdateCart_HttpRequestComplete E s HttpRequest HttpResponse bSucceeded
      SuccessCallback ErrorCallback).CartRequestsQueue ≤ 1 := by
  unfold UpdateCart_HttpRequestComplete
  have hq := HandleRequestError_queue E s HttpRequest HttpResponse bSucceeded ErrorCallback
  rcases hr : s.HandleRequestError E HttpRequest HttpResponse bSucceeded ErrorCallback
    with ⟨b, t⟩
  rw [hr] at hq
  simp only at hq
  cases b with
  | true => exact ProcessNextCartRequest_InFlight t (hq ▸ h)
  | false =>
    dsimp only
    cases HttpResponse with
    | none => exact hq ▸ h
    | some Response =>
      dsimp only
      cases E.Deserialize Response.ContentAsString with
      | none => exact hq ▸ h
      | some JsonObject =>
        dsimp only
        rcases E.JsonObjectToCart JsonObject t.Cart with ⟨bOk, Cart⟩
        cases bOk with
        | false => exact hq ▸ h
        | true => exact ProcessNextCartRequest_InFlight _ (hq ▸ h)

/-- The handler `AddToCart_HttpRequestComplete` keeps at most one entry in flight. -/
theorem AddToCart_HttpRequestComplete_InFlight (E : FEngine) (s : UXsollaStoreController)
    (HttpRequest : Option IHttpRequest) (HttpResponse : Option FHttpResponse) (bSucceeded : Bool)
    (SuccessCallback ErrorCallback : FDelegate) (h : InFlight s.CartRequestsQueue ≤ 1) :
    InFlight (AddToCart_HttpRequestComplete E s HttpRequest HttpResponse bSucceeded
      SuccessCallback ErrorCallback).CartRequestsQueue ≤ 1 := by
  unfold AddToCart_HttpRequestComplete
  have hq := HandleRequestError_queue E s HttpRequest HttpResponse bSucceeded ErrorCallback
  rcases hr : s.HandleRequestError E HttpRequest HttpResponse bSucceeded ErrorCallback
    with ⟨b, t⟩
  rw [hr] at hq
  simp only at hq
  cases b with
  | true => exact UpdateCart_InFlight E t _ _ _ (hq ▸ h)
  | false => exact ProcessNextCartRequest_InFlight _ (hq ▸ h)

/-- The handler `RemoveFromCart_HttpRequestComplete` keeps at most one entry in flight. -/
theorem RemoveFromCart_HttpRequestComplete_InFlight (E : FEngine) (s : UXsollaStoreController)
    (HttpRequest : Option IHttpRequest) (HttpResponse : Option FHttpResponse) (bSucceeded : Bool)
    (SuccessCallback ErrorCallback : FDelegate) (h : InFlight s.CartRequestsQueue ≤ 1) :
    InFlight (RemoveFromCart_HttpRequestComplete E s HttpRequest HttpResponse bSucceeded
      SuccessCallback ErrorCallback).CartRequestsQueue ≤ 1 := by
  unfold RemoveFromCart_HttpRequestComplete
  have hq := HandleRequestError_queue E s HttpRequest HttpResponse bSucceeded ErrorCallback
  rcases hr : s.HandleRequestError E HttpRequest HttpResponse bSucceeded ErrorCallback
    with ⟨b, t⟩
  rw [hr] at hq
  simp only at hq
  cases b with
  | true => exact UpdateCart_InFlight E t _ _ _ (hq ▸ h)
  | false => exact ProcessNextCartRequest_InFlight _ (hq ▸ h)

/-- Replacing an entry by a terminated request does not raise the number of entries in
flight. -/
theorem InFlight_set_finished (Queue : List IHttpRequest) (i : Nat) (Request : IHttpRequest)
    (hFinished : IsFinished Request.Status = true) :
    InFlight (Queue.set i Request) ≤ InFlight Queue := by
  by_cases hi : i < Queue.length
  · unfold InFlight
    rw [List.countP_set _ _ _ _ hi]
    have hNot : ((Request.Status == EHttpRequestStatus.Processing) = true) ↔ False := by
      cases hS : Request.Status <;> simp [IsFinished, hS] at hFinished ⊢
    simp only [hNot, if_false]
    omega
  · rw [List.set_eq_of_length_le (by omega)]

/-- The delivery of a completion with a final status keeps at most one entry in flight. -/
theorem OnProcessRequestComplete_InFlight (E : FEngine) (s : UXsollaStoreController) (i : Nat)
    (Status : EHttpRequestStatus) (HttpResponse : Option FHttpResponse) (bSucceeded : Bool)
    (hFinished : IsFinished Status = true) (h : InFlight s.CartRequestsQueue ≤ 1) :
    InFlight (OnProcessRequestComplete E s i Status HttpResponse
      bSucceeded).CartRequestsQueue ≤ 1 := by
  unfold OnProcessRequestComplete
  have hSet : ∀ Request : IHttpRequest, IsFinished Request.Status = true →
      InFlight (s.CartRequestsQueue.set i Request) ≤ 1 :=
    fun Request hR => Nat.le_trans (InFlight_set_finished _ i Request hR) h
  cases hAt : s.CartRequestsQueue[i]? with
  | none => exact h
  | some Request =>
    dsimp only
    cases hBound : Request.OnProcessRequestComplete with
    | none => exact hSet _ hFinished
    | some Bound =>
      dsimp only
      cases Bound.Handler with
      | CreateCart =>
        exact CreateCart_HttpRequestComplete_InFlight _ _ _ _ _ _ _ (hSet _ hFinished)
      | ClearCart =>
        exact ClearCart_HttpRequestComplete_InFlight _ _ _ _ _ _ _ (hSet _ hFinished)
      | UpdateCart =>
        exact UpdateCart_HttpRequestComplete_InFlight _ _ _ _ _ _ _ (hSet _ hFinished)
      | AddToCart =>
        exact AddToCart_HttpRequestComplete_InFlight _ _ _ _ _ _ _ (hSet _ hFinished)
      | RemoveFromCart =>
        exact RemoveFromCart_HttpRequestComplete_InFlight _ _ _ _ _ _ _ (hSet _ hFinished)

/-! ## Request queue: results -/

/-- C1: in every state reachable from an empty request queue by the five cart calls and
by completions of processing requests (any final status, any response, any handler
outcome), at most one entry of `CartRequestsQueue` has the status `Processing`. -/
theorem single_flight_invariant (E : FEngine) (s : UXsollaStoreController)
    (hReach : Reachable E s) : InFlight s.CartRequestsQueue ≤ 1 := by
  induction hReach with
  | Init s hEmpty => simp [hEmpty, InFlight]
  | Next s t _ hStep ih =>
    cases hStep with
    | Call c => exact Invoke_InFlight E s c ih
    | Complete i Request Status HttpResponse bSucceeded hAt hProcessing hFinished =>
      exact OnProcessRequestComplete_InFlight E s i Status HttpResponse bSucceeded hFinished ih

/-- An entry whose status reads `Processing` at a position of the queue. -/
theorem exists_processing_at (Queue : List IHttpRequest) (i : Nat)
    (h : Queue[i]?.map (fun Request => Request.Status) = some EHttpRequestStatus.Processing) :
    ∃ Request, Queue[i]? = some Request ∧ Request.Status = EHttpRequestStatus.Processing := by
  cases hAt : Queue[i]? with
  | none => simp [hAt] at h
  | some Request => exact ⟨Request, rfl, by simpa [hAt] using h⟩

/-- The controller `SampleAfterCreateSucceeded` is reachable: two calls on an empty queue,
then the completion of the request in flight. -/
theorem SampleAfterCreateSucceeded_reachable :
    Reachable SampleEngine SampleAfterCreateSucceeded := by
  have h0 : Reachable SampleEngine SampleController := Reachable.Init _ rfl
  have h1 := Reachable.Next _ _ h0 (Step.Call SampleController (FCartCall.CreateCart "token" 1 2))
  have h2 : Reachable SampleEngine SampleAfterCalls :=
    Reachable.Next _ _ h1 (Step.Call _ (FCartCall.AddToCart "token" "sku-1" 3 3 4))
  obtain ⟨Request, hAt, hProcessing⟩ :=
    exists_processing_at SampleAfterCalls.CartRequestsQueue 0 (by decide)
  exact Reachable.Next _ _ h2
    (Step.Complete SampleAfterCalls 0 Request EHttpRequestStatus.Succeeded
      (some { ResponseCode := 200, ContentAsString := "\x7b\"id\": 42\x7d" }) true
      hAt hProcessing rfl)

/-- C1 at a concrete reachable state: after `CreateCart`, `AddToCart` and the successful
completion of the first request. -/
theorem single_flight_invariant_witness :
    InFlight SampleAfterCreateSucceeded.CartRequestsQueue ≤ 1 :=
  single_flight_invariant SampleEngine SampleAfterCreateSucceeded
    SampleAfterCreateSucceeded_reachable

/-- C2, evaluated at the failing input. After `CreateCart` then `AddToCart("sku-1", 3)` on
an empty queue the requests carry the identities 0 and 1 in call order, the first is
processing and the second is not started. When the first request completes with status
200 and the body `{"id": 42}`, its handler does not drain the queue: the second request
is still not started and nothing is in flight, so no completion can follow, and the
requests started are request 0 alone and not the requests 0 and 1 of the call order. -/
theorem CreateCart_success_leaves_next_request_unstarted :
    SampleAfterCalls.CartRequestsQueue.map (fun Request => (Request.Id, Request.Status)) =
      [(0, EHttpRequestStatus.Processing), (1, EHttpRequestStatus.NotStarted)] ∧
    Started SampleAfterCalls.Trace = [0] ∧
    SampleAfterCreateSucceeded.CartRequestsQueue.map
        (fun Request => (Request.Id, Request.Status)) =
      [(0, EHttpRequestStatus.Succeeded), (1, EHttpRequestStatus.NotStarted)] ∧
    InFlight SampleAfterCreateSucceeded.CartRequestsQueue = 0 ∧
    Started SampleAfterCreateSucceeded.Trace = [0] ∧
    SampleAfterCreateSucceeded.Cart = { cart_id := 42, Items := [] } := by
  refine ⟨by decide, by decide, by decide, by decide, by decide, by decide⟩

/-! ## Dispatch order: auxiliary facts -/

/-- The started identities of a trace in two parts. -/
theorem Started_append (a b : List FEffect) : Started (a ++ b) = Started a ++ Started b := by
  induction a with
  | nil => rfl
  | cons e a ih => cases e <;> simp [Started, ih]

/-- The view after `ProcessNextCartRequest` is the drain step of the view. -/
theorem View_ProcessNextCartRequest (s : UXsollaStoreController) :
    View (ProcessNextCartRequest s) = (View s).DrainStep := by
  unfold ProcessNextCartRequest
  simp only [cleanup_eq_filter, View, FQueueView.DrainStep, Drain]
  cases hQ : s.CartRequestsQueue.filter (fun Request => !IsFinished Request.Status) with
  | nil => simp [Started]
  | cons Head Rest =>
    dsimp only
    by_cases hAny : (Head :: Rest).any
        (fun Request => Request.Status == EHttpRequestStatus.Processing) = true
    · simp only [hAny, Bool.not_true, if_true]
      simp
    · simp only [Bool.not_eq_true] at hAny
      simp only [hAny, Bool.not_false, if_true]
      simp [Started_append, Started]

/-- The view after the shared tail of the cart calls. -/
theorem View_EnqueueCartRequest (s : UXsollaStoreController) (HttpRequest : IHttpRequest)
    (Handler : ECartRequest) (SuccessCallback ErrorCallback : FDelegate) :
    View (EnqueueCartRequest s HttpRequest Handler SuccessCallback ErrorCallback) =
      (View s).Enqueue { HttpRequest with
        OnProcessRequestComplete := some
          { Handler := Handler, SuccessCallback := SuccessCallback
            ErrorCallback := ErrorCallback } } := by
  unfold EnqueueCartRequest
  rw [View_ProcessNextCartRequest]
  rfl

/-- A request as `CreateHttpRequest` returns it carries the identity passed in. -/
theorem CreateHttpRequest_Id (E : FEngine) (Id : Nat) (Url : String) (Verb : ERequestVerb)
    (AuthToken Content : String) :
    (CreateHttpRequest E Id Url Verb AuthToken Content).Id = Id := by
  unfold CreateHttpRequest
  cases Verb <;> by_cases hA : AuthToken = "" <;> by_cases hC : Content = "" <;>
    simp [IHttpRequest.SetHeader, hA, hC]

/-- A controller whose view is that of the shared tail of the cart calls, run on a
request that is not started and carries the next identity. -/
theorem View_of_Enqueue (s t : UXsollaStoreController) (HttpRequest : IHttpRequest)
    (Handler : ECartRequest) (SuccessCallback ErrorCallback : FDelegate)
    (hView : View t =
      View (EnqueueCartRequest s HttpRequest Handler SuccessCallback ErrorCallback))
    (hStatus : HttpRequest.Status = EHttpRequestStatus.NotStarted)
    (hId : HttpRequest.Id = s.NextRequestId) :
    ∃ Request : IHttpRequest,
      Request.Status = EHttpRequestStatus.NotStarted ∧
      Request.Id = s.NextRequestId ∧
      View t = (View s).Enqueue Request :=
  ⟨{ HttpRequest with
      OnProcessRequestComplete := some
        { Handler := Handler, SuccessCallback := SuccessCallback
          ErrorCallback := ErrorCallback } },
    hStatus, hId, hView.trans (View_EnqueueCartRequest _ _ _ _ _)⟩

/-- The member `UpdateCart` acts on the view as the enqueueing of one request that is not
started and carries the next identity. -/
theorem View_UpdateCart (E : FEngine) (s : UXsollaStoreController) (AuthToken : String)
    (SuccessCallback ErrorCallback : FDelegate) :
    ∃ Request : IHttpRequest,
      Request.Status = EHttpRequestStatus.NotStarted ∧
      Request.Id = s.NextRequestId ∧
      View (UpdateCart E s AuthToken SuccessCallback ErrorCallback) =
        (View s).Enqueue Request :=
  View_of_Enqueue { s with CachedAuthToken := AuthToken } _ _ _ _ _ rfl
    (CreateHttpRequest_Status _ _ _ _ _ _) (CreateHttpRequest_Id _ _ _ _ _ _)

/-- Every cart call acts on the view as the enqueueing of one request that is not started
and carries the next identity. -/
theorem View_Invoke (E : FEngine) (s : UXsollaStoreController) (c : FCartCall) :
    ∃ Request : IHttpRequest,
      Request.Status = EHttpRequestStatus.NotStarted ∧
      Request.Id = s.NextRequestId ∧
      View (c.Invoke E s) = (View s).Enqueue Request := by
  cases c with
  | CreateCart AuthToken S F =>
    exact View_of_Enqueue { s with CachedAuthToken := AuthToken } _ _ _ _ _ rfl
      (CreateHttpRequest_Status _ _ _ _ _ _) (CreateHttpRequest_Id _ _ _ _ _ _)
  | ClearCart AuthToken S F =>
    refine View_of_Enqueue { s with CachedAuthToken := AuthToken }
      (FCartCall.Invoke E s (FCartCall.ClearCart AuthToken S F))
      (CreateHttpRequest E s.NextRequestId
        ("https://store.xsolla.com/api/v1/project/" ++ s.ProjectId ++ "/cart/" ++
          toString s.Cart.cart_id ++ "/clear") ERequestVerb.PUT AuthToken "")
      ECartRequest.ClearCart S F ?_
      (CreateHttpRequest_Status _ _ _ _ _ _) (CreateHttpRequest_Id _ _ _ _ _ _)
    simp [FCartCall.Invoke, ClearCart, View, Started_append, Started]
  | UpdateCart AuthToken S F =>
    exact View_UpdateCart E s AuthToken S F
  | AddToCart AuthToken ItemSKU Quantity S F =>
    refine View_of_Enqueue { s with CachedAuthToken := AuthToken }
      (FCartCall.Invoke E s (FCartCall.AddToCart AuthToken ItemSKU Quantity S F))
      (CreateHttpRequest E s.NextRequestId
        ("https://store.xsolla.com/api/v1/project/" ++ s.ProjectId ++ "/cart/" ++
          toString s.Cart.cart_id ++ "/item/" ++ ItemSKU) ERequestVerb.PUT AuthToken
        (SerializeJson E [("quantity", FJsonValueNumber Quantity)]))
      ECartRequest.AddToCart S F ?_
      (CreateHttpRequest_Status _ _ _ _ _ _) (CreateHttpRequest_Id _ _ _ _ _ _)
    simp [FCartCall.Invoke, AddToCart, View, Started_append, Started]
  | RemoveFromCart AuthToken ItemSKU S F =>
    refine View_of_Enqueue { s with CachedAuthToken := AuthToken }
      (FCartCall.Invoke E s (FCartCall.RemoveFromCart AuthToken ItemSKU S F))
      (CreateHttpRequest E s.NextRequestId
        ("https://store.xsolla.com/api/v1/project/" ++ s.ProjectId ++ "/cart/" ++
          toString s.Cart.cart_id ++ "/item/" ++ ItemSKU) ERequestVerb.DELETE AuthToken "")
      ECartRequest.RemoveFromCart S F ?_
      (CreateHttpRequest_Status _ _ _ _ _ _) (CreateHttpRequest_Id _ _ _ _ _ _)
    simp [FCartCall.Invoke, RemoveFromCart, View, Started_append, Started]

/-- The drain step keeps the dispatch invariant. -/
theorem FifoInv_DrainStep (Before : List Nat) (Base Min : Nat) (v : FQueueView)
    (h : FifoInv Before Base Min v) : FifoInv Before Base Min v.DrainStep := by
  obtain ⟨k, A, B, hMin, hQ, hA, hB, hIds, hNext, hStarted⟩ := h
  have hFilterB : B.filter (fun Request => !IsFinished Request.Status) = B := by
    rw [List.filter_eq_self]
    intro Request hMem
    simp [IsFinished, hB Request hMem]
  have hFilter : v.Queue.filter (fun Request => !IsFinished Request.Status) =
      A.filter (fun Request => !IsFinished Request.Status) ++ B := by
    rw [hQ, List.filter_append, hFilterB]
  unfold FQueueView.DrainStep Drain
  rw [hFilter]
  cases hA2 : A.filter (fun Request => !IsFinished Request.Status) with
  | cons a A2 =>
    have haMem : a ∈ A.filter (fun Request => !IsFinished Request.Status) := by
      rw [hA2]
      exact List.mem_cons_self _ _
    have haA := (List.mem_filter.1 haMem).1
    have haFin := (List.mem_filter.1 haMem).2
    have haProc : a.Status = EHttpRequestStatus.Processing := by
      have hNotNew := hA a haA
      cases hS : a.Status <;> simp [IsFinished, hS] at haFin hNotNew ⊢
    refine ⟨k, a :: A2, B, hMin, ?_, ?_, hB, hIds, ?_, ?_⟩
    · simp [haProc]
    · intro Request hMem
      have hMem2 : Request ∈ A.filter (fun Request => !IsFinished Request.Status) := by
        rw [hA2]
        exact hMem
      exact hA Request (List.mem_filter.1 hMem2).1
    · simpa [haProc] using hNext
    · simpa [haProc] using hStarted
  | nil =>
    cases B with
    | nil =>
      refine ⟨k, [], [], hMin, ?_, ?_, ?_, ?_, ?_, ?_⟩
      · simp
      · simp
      · simp
      · simp
      · simpa using hNext
      · simpa using hStarted
    | cons b B2 =>
      have hbNew : b.Status = EHttpRequestStatus.NotStarted := hB b (List.mem_cons_self _ _)
      have hAnyB2 : B2.any (fun Request => Request.Status == EHttpRequestStatus.Processing) =
          false := by
        rw [List.any_eq_false]
        intro Request hMem
        simp [hB Request (List.mem_cons_of_mem _ hMem)]
      have hbId : b.Id = Base + k := by
        simp [List.range'_succ] at hIds
        exact hIds.1
      have hIds2 : B2.map (fun Request => Request.Id) = List.range' (Base + (k + 1)) B2.length := by
        simp [List.range'_succ] at hIds
        rw [hIds.2]
        congr 1
      refine ⟨k + 1, [{ b with Status := EHttpRequestStatus.Processing }], B2,
        Nat.le_succ_of_le hMin, ?_, ?_, ?_,
        hIds2, ?_, ?_⟩
      · simp [hbNew, hAnyB2]
      · intro Request hMem
        simp at hMem
        subst hMem
        simp
      · intro Request hMem
        exact hB Request (List.mem_cons_of_mem _ hMem)
      · simp [hbNew, hAnyB2]
        simp at hNext
        omega
      · simp [hbNew, hAnyB2, hStarted, hbId, List.range'_concat]

/-- Appending a request that is not started and carries the next identity, then draining,
keeps the dispatch invariant. -/
theorem FifoInv_Enqueue (Before : List Nat) (Base Min : Nat) (v : FQueueView)
    (HttpRequest : IHttpRequest)
    (hStatus : HttpRequest.Status = EHttpRequestStatus.NotStarted)
    (hId : HttpRequest.Id = v.NextRequestId)
    (h : FifoInv Before Base Min v) : FifoInv Before Base Min (v.Enqueue HttpRequest) := by
  unfold FQueueView.Enqueue
  apply FifoInv_DrainStep
  obtain ⟨k, A, B, hMin, hQ, hA, hB, hIds, hNext, hStarted⟩ := h
  refine ⟨k, A, B ++ [HttpRequest], hMin, ?_, hA, ?_, ?_, ?_, hStarted⟩
  · simp [hQ]
  · intro Request hMem
    rcases List.mem_append.1 hMem with hIn | hIn
    · exact hB Request hIn
    · simp at hIn
      subst hIn
      exact hStatus
  · simp [hIds, hId, hNext, List.range'_concat]
  · simp [hNext]
    omega

/-- Replacing the processing entry of the queue by a terminated request keeps the dispatch
invariant. -/
theorem FifoInv_set (Before : List Nat) (Base Min : Nat) (v : FQueueView) (i : Nat)
    (Request Final : IHttpRequest)
    (hAt : v.Queue[i]? = some Request)
    (hProcessing : Request.Status = EHttpRequestStatus.Processing)
    (hFinished : IsFinished Final.Status = true)
    (h : FifoInv Before Base Min v) :
    FifoInv Before Base Min { v with Queue := v.Queue.set i Final } := by
  obtain ⟨k, A, B, hMin, hQ, hA, hB, hIds, hNext, hStarted⟩ := h
  have hi : i < A.length := by
    by_contra hge
    rw [hQ, List.getElem?_append_right (by omega)] at hAt
    have hNew := hB Request (List.getElem?_mem hAt)
    rw [hProcessing] at hNew
    cases hNew
  refine ⟨k, A.set i Final, B, hMin, ?_, ?_, hB, hIds, hNext, hStarted⟩
  · simp [hQ, List.set_append_left _ _ hi]
  · intro Other hMem
    rcases List.mem_or_eq_of_mem_set hMem with hIn | hEq
    · exact hA Other hIn
    · subst hEq
      intro hNew
      simp [IsFinished, hNew] at hFinished

/-- The classifier only calls the error callback: it starts no request. -/
theorem Started_HandleRequestError (E : FEngine) (HttpRequest : Option IHttpRequest)
    (HttpResponse : Option FHttpResponse) (bSucceeded : Bool) (ErrorCallback : FDelegate) :
    Started (HandleRequestError E HttpRequest HttpResponse bSucceeded ErrorCallback).2 = [] := by
  unfold HandleRequestError
  dsimp only
  split <;> rfl

/-- The classifier call of a handler does not change the view. -/
theorem View_HandleRequestError (E : FEngine) (s : UXsollaStoreController)
    (HttpRequest : Option IHttpRequest) (HttpResponse : Option FHttpResponse)
    (bSucceeded : Bool) (ErrorCallback : FDelegate) :
    View (s.HandleRequestError E HttpRequest HttpResponse bSucceeded ErrorCallback).2 =
      View s := by
  simp [UXsollaStoreController.HandleRequestError, View, Started_append,
    Started_HandleRequestError]

/-- The dispatch invariant only reads the view. -/
theorem FifoInv_of_eq (Before : List Nat) (Base Min : Nat) (s t : UXsollaStoreController)
    (hQueue : t.CartRequestsQueue = s.CartRequestsQueue)
    (hNext : t.NextRequestId = s.NextRequestId)
    (hStarted : Started t.Trace = Started s.Trace)
    (h : FifoInv Before Base Min (View s)) : FifoInv Before Base Min (View t) := by
  unfold View at h ⊢
  rw [hQueue, hNext, hStarted]
  exact h

/-- The drain step of a controller keeps the dispatch invariant. -/
theorem ProcessNextCartRequest_Fifo (Before : List Nat) (Base Min : Nat)
    (s : UXsollaStoreController) (h : FifoInv Before Base Min (View s)) :
    FifoInv Before Base Min (View (ProcessNextCartRequest s)) := by
  rw [View_ProcessNextCartRequest]
  exact FifoInv_DrainStep _ _ _ _ h

/-- The member `UpdateCart` keeps the dispatch invariant. -/
theorem UpdateCart_Fifo (E : FEngine) (Before : List Nat) (Base Min : Nat)
    (s : UXsollaStoreController) (AuthToken : String) (SuccessCallback ErrorCallback : FDelegate)
    (h : FifoInv Before Base Min (View s)) :
    FifoInv Before Base Min (View (UpdateCart E s AuthToken SuccessCallback ErrorCallback)) := by
  obtain ⟨Request, hStatus, hId, hView⟩ :=
    View_UpdateCart E s AuthToken SuccessCallback ErrorCallback
  rw [hView]
  exact FifoInv_Enqueue _ _ _ _ Request hStatus hId h

/-- Every cart call keeps the dispatch invariant. -/
theorem Invoke_Fifo (E : FEngine) (Before : List Nat) (Base Min : Nat)
    (s : UXsollaStoreController) (c : FCartCall) (h : FifoInv Before Base Min (View s)) :
    FifoInv Before Base Min (View (c.Invoke E s)) := by
  obtain ⟨Request, hStatus, hId, hView⟩ := View_Invoke E s c
  rw [hView]
  exact FifoInv_Enqueue _ _ _ _ Request hStatus hId h

/-- The handler `CreateCart_HttpRequestComplete` keeps the dispatch invariant. -/
theorem CreateCart_HttpRequestComplete_Fifo (E : FEngine) (Before : List Nat) (Base Min : Nat)
    (s : UXsollaStoreController)
    (HttpRequest : Option IHttpRequest) (HttpResponse : Option FHttpResponse) (bSucceeded : Bool)
    (SuccessCallback ErrorCallback : FDelegate) (h : FifoInv Before Base Min (View s)) :
    FifoInv Before Base Min (View (CreateCart_HttpRequestComplete E s HttpRequest HttpResponse
      bSucceeded SuccessCallback ErrorCallback)) := by
  unfold CreateCart_HttpRequestComplete
  have hv := View_HandleRequestError E s HttpRequest HttpResponse bSucceeded ErrorCallback
  rcases hr : s.HandleRequestError E HttpRequest HttpResponse bSucceeded ErrorCallback
    with ⟨b, t⟩
  rw [hr] at hv
  simp only at hv
  have ht : FifoInv Before Base Min (View t) := hv ▸ h
  cases b with
  | true => exact ProcessNextCartRequest_Fifo _ _ _ t ht
  | false =>
    dsimp only
    cases HttpResponse with
    | none => exact ht
    | some Response =>
      dsimp only
      cases E.Deserialize Response.ContentAsString with
      | none =>
        exact FifoInv_of_eq _ _ _ t _ rfl rfl (by simp [Started_append, Started]) ht
      | some JsonObject =>
        exact FifoInv_of_eq _ _ _ t _ rfl rfl
          (by simp [SaveData, Started_append, Started]) ht

/-- The handler `ClearCart_HttpRequestComplete` keeps the dispatch invariant. -/
theorem ClearCart_HttpRequestComplete_Fifo (E : FEngine) (Before : List Nat) (Base Min : Nat)
    (s : UXsollaStoreController)
    (HttpRequest : Option IHttpRequest) (HttpResponse : Option FHttpResponse) (bSucceeded : Bool)
    (SuccessCallback ErrorCallback : FDelegate) (h : FifoInv Before Base Min (View s)) :
    FifoInv Before Base Min (View (ClearCart_HttpRequestComplete E s HttpRequest HttpResponse
      bSucceeded SuccessCallback ErrorCallback)) := by
  unfold ClearCart_HttpRequestComplete
  have hv := View_HandleRequestError E s HttpRequest HttpResponse bSucceeded ErrorCallback
  rcases hr : s.HandleRequestError E HttpRequest HttpResponse bSucceeded ErrorCallback
    with ⟨b, t⟩
  rw [hr] at hv
  simp only at hv
  have ht : FifoInv Before Base Min (View t) := hv ▸ h
  cases b with
  | true => exact ProcessNextCartRequest_Fifo _ _ _ t ht
  | false =>
    exact ProcessNextCartRequest_Fifo _ _ _ _
      (FifoInv_of_eq _ _ _ t _ rfl rfl (by simp [Started_append, Started]) ht)

/-- The handler `UpdateCart_HttpRequestComplete` keeps the dispatch invariant. -/
theorem UpdateCart_HttpRequestComplete_Fifo (E : FEngine) (Before : List Nat) (Base Min : Nat)
    (s : UXsollaStoreController)
    (HttpRequest : Option IHttpRequest) (HttpResponse : Option FHttpResponse) (bSucceeded : Bool)
    (SuccessCallback ErrorCallback : FDelegate) (h : FifoInv Before Base Min (View s)) :
    FifoInv Before Base Min (View (UpdateCart_HttpRequestComplete E s HttpRequest HttpResponse
      bSucceeded SuccessCallback ErrorCallback)) := by
  unfold UpdateCart_HttpRequestComplete
  have hv := View_HandleRequestError E s HttpRequest HttpResponse bSucceeded ErrorCallback
  rcases hr : s.HandleRequestError E HttpRequest HttpResponse bSucceeded ErrorCallback
    with ⟨b, t⟩
  rw [hr] at hv
  simp only at hv
  have ht : FifoInv Before Base Min (View t) := hv ▸ h
  cases b with
  | true => exact ProcessNextCartRequest_Fifo _ _ _ t ht
  | false =>
    dsimp only
    cases HttpResponse with
    | none => exact ht
    | some Response =>
      dsimp only
      cases E.Deserialize Response.ContentAsString with
      | none =>
        exact FifoInv_of_eq _ _ _ t _ rfl rfl (by simp [Started_append, Started]) ht
      | some JsonObject =>
        dsimp only
        rcases E.JsonObjectToCart JsonObject t.Cart with ⟨bOk, Cart⟩
        cases bOk with
        | false =>
          exact FifoInv_of_eq _ _ _ t _ rfl rfl (by simp [Started_append, Started]) ht
        | true =>
          exact ProcessNextCartRequest_Fifo _ _ _ _
            (FifoInv_of_eq _ _ _ t _ rfl rfl (by simp [Started_append, Started]) ht)

/-- The handler `AddToCart_HttpRequestComplete` keeps the dispatch invariant. -/
theorem AddToCart_HttpRequestComplete_Fifo (E : FEngine) (Before : List Nat) (Base Min : Nat)
    (s : UXsollaStoreController)
    (HttpRequest : Option IHttpRequest) (HttpResponse : Option FHttpResponse) (bSucceeded : Bool)
    (SuccessCallback ErrorCallback : FDelegate) (h : FifoInv Before Base Min (View s)) :
    FifoInv Before Base Min (View (AddToCart_HttpRequestComplete E s HttpRequest HttpResponse
      bSucceeded SuccessCallback ErrorCallback)) := by
  unfold AddToCart_HttpRequestComplete
  have hv := View_HandleRequestError E s HttpRequest HttpResponse bSucceeded ErrorCallback
  rcases hr : s.HandleRequestError E HttpRequest HttpResponse bSucceeded ErrorCallback
    with ⟨b, t⟩
  rw [hr] at hv
  simp only at hv
  have ht : FifoInv Before Base Min (View t) := hv ▸ h
  cases b with
  | true => exact UpdateCart_Fifo E _ _ _ t _ _ _ ht
  | false =>
    exact ProcessNextCartRequest_Fifo _ _ _ _
      (FifoInv_of_eq _ _ _ t _ rfl rfl (by simp [Started_append, Started]) ht)

/-- The handler `RemoveFromCart_HttpRequestComplete` keeps the dispatch invariant. -/
theorem RemoveFromCart_HttpRequestComplete_Fifo (E : FEngine) (Before : List Nat)
    (Base Min : Nat) (s : UXsollaStoreController)
    (HttpRequest : Option IHttpRequest) (HttpResponse : Option FHttpResponse) (bSucceeded : Bool)
    (SuccessCallback ErrorCallback : FDelegate) (h : FifoInv Before Base Min (View s)) :
    FifoInv Before Base Min (View (RemoveFromCart_HttpRequestComplete E s HttpRequest
      HttpResponse bSucceeded SuccessCallback ErrorCallback)) := by
  unfold RemoveFromCart_HttpRequestComplete
  have hv := View_HandleRequestError E s HttpRequest HttpResponse bSucceeded ErrorCallback
  rcases hr : s.HandleRequestError E HttpRequest HttpResponse bSucceeded ErrorCallback
    with ⟨b, t⟩
  rw [hr] at hv
  simp only at hv
  have ht : FifoInv Before Base Min (View t) := hv ▸ h
  cases b with
  | true => exact UpdateCart_Fifo E _ _ _ t _ _ _ ht
  | false =>
    exact ProcessNextCartRequest_Fifo _ _ _ _
      (FifoInv_of_eq _ _ _ t _ rfl rfl (by simp [Started_append, Started]) ht)

/-- The delivery of the completion of a processing request keeps the dispatch
invariant. -/
theorem OnProcessRequestComplete_Fifo (E : FEngine) (Before : List Nat) (Base Min : Nat)
    (s : UXsollaStoreController) (i : Nat) (Request : IHttpRequest)
    (Status : EHttpRequestStatus) (HttpResponse : Option FHttpResponse) (bSucceeded : Bool)
    (hAt : s.CartRequestsQueue[i]? = some Request)
    (hProcessing : Request.Status = EHttpRequestStatus.Processing)
    (hFinished : IsFinished Status = true)
    (h : FifoInv Before Base Min (View s)) :
    FifoInv Before Base Min
      (View (OnProcessRequestComplete E s i Status HttpResponse bSucceeded)) := by
  have hSet : FifoInv Before Base Min
      (View { s with CartRequestsQueue :=
        s.CartRequestsQueue.set i { Request with Status := Status } }) :=
    FifoInv_set Before Base Min (View s) i Request { Request with Status := Status } hAt
      hProcessing hFinished h
  unfold OnProcessRequestComplete
  rw [hAt]
  dsimp only
  cases hBound : Request.OnProcessRequestComplete with
  | none =>
    rw [hBound] at hSet
    exact hSet
  | some Bound =>
    rw [hBound] at hSet
    dsimp only
    cases Bound.Handler with
    | CreateCart => exact CreateCart_HttpRequestComplete_Fifo _ _ _ _ _ _ _ _ _ _ hSet
    | ClearCart => exact ClearCart_HttpRequestComplete_Fifo _ _ _ _ _ _ _ _ _ _ hSet
    | UpdateCart => exact UpdateCart_HttpRequestComplete_Fifo _ _ _ _ _ _ _ _ _ _ hSet
    | AddToCart => exact AddToCart_HttpRequestComplete_Fifo _ _ _ _ _ _ _ _ _ _ hSet
    | RemoveFromCart => exact RemoveFromCart_HttpRequestComplete_Fifo _ _ _ _ _ _ _ _ _ _ hSet

/-- A run of completions keeps the dispatch invariant. -/
theorem CompletionRun_Fifo (E : FEngine) (Before : List Nat) (Base Min : Nat)
    (s u : UXsollaStoreController) (hRun : CompletionRun E s u)
    (h : FifoInv Before Base Min (View s)) : FifoInv Before Base Min (View u) := by
  induction hRun with
  | Refl => exact h
  | Next t i Request Status HttpResponse bSucceeded _ hAt hProcessing hFinished ih =>
    exact OnProcessRequestComplete_Fifo E _ _ _ t i Request Status HttpResponse bSucceeded hAt
      hProcessing hFinished ih

/-- The first call on an empty queue starts its request. -/
theorem CallInv_first (v : FQueueView) (HttpRequest : IHttpRequest)
    (hEmpty : v.Queue = [])
    (hStatus : HttpRequest.Status = EHttpRequestStatus.NotStarted)
    (hId : HttpRequest.Id = v.NextRequestId) :
    CallInv v.Started v.NextRequestId 0 (v.Enqueue HttpRequest) := by
  simp [CallInv, FQueueView.Enqueue, FQueueView.DrainStep, Drain, hEmpty, IsFinished, hStatus,
    hId]

/-- A later call, made before any completion, appends its request and starts nothing. -/
theorem CallInv_step (Before : List Nat) (Base m : Nat) (v : FQueueView)
    (HttpRequest : IHttpRequest)
    (hStatus : HttpRequest.Status = EHttpRequestStatus.NotStarted)
    (hId : HttpRequest.Id = v.NextRequestId)
    (h : CallInv Before Base m v) :
    CallInv Before Base (m + 1) (v.Enqueue HttpRequest) := by
  obtain ⟨hStatuses, hIds, hNext, hStarted⟩ := h
  cases hQ : v.Queue with
  | nil => simp [hQ] at hStatuses
  | cons Head Rest =>
    rw [hQ] at hStatuses hIds
    simp only [List.map_cons, List.cons.injEq] at hStatuses
    obtain ⟨hHead, hRest⟩ := hStatuses
    have hRestNew : ∀ Request ∈ Rest, Request.Status = EHttpRequestStatus.NotStarted := by
      intro Request hMem
      have hIn : Request.Status ∈ Rest.map (fun Request => Request.Status) :=
        List.mem_map_of_mem _ hMem
      rw [hRest] at hIn
      exact (List.mem_replicate.1 hIn).2
    have hFilterRest : Rest.filter (fun Request => !IsFinished Request.Status) = Rest := by
      rw [List.filter_eq_self]
      intro Request hMem
      simp [IsFinished, hRestNew Request hMem]
    simp only [CallInv, FQueueView.Enqueue, FQueueView.DrainStep, Drain, hQ,
      List.cons_append, List.filter_cons, List.filter_append, hFilterRest]
    have hIds2 : Head.Id :: Rest.map (fun Request => Request.Id) =
        List.range' Base (m + 1) := by
      simpa using hIds
    simp [IsFinished, hHead, hStatus, hRest, hStarted, hNext, hId, List.replicate_succ']
    refine ⟨?_, by omega⟩
    rw [← List.cons_append, hIds2, List.range'_concat (Base) (m + 1)]
    simp
    omega

/-- The state of the queue while calls are made implies the dispatch invariant with one
request started. -/
theorem FifoInv_of_CallInv (Before : List Nat) (Base m : Nat) (v : FQueueView)
    (h : CallInv Before Base m v) : FifoInv Before Base 1 v := by
  obtain ⟨hStatuses, hIds, hNext, hStarted⟩ := h
  cases hQ : v.Queue with
  | nil => simp [hQ] at hStatuses
  | cons Head Rest =>
    rw [hQ] at hStatuses hIds
    simp only [List.map_cons, List.cons.injEq, List.range'_succ] at hStatuses hIds
    obtain ⟨hHead, hRest⟩ := hStatuses
    have hLen : Rest.length = m := by
      have := congrArg List.length hRest
      simpa using this
    refine ⟨1, [Head], Rest, Nat.le_refl 1, by simp [hQ], ?_, ?_, ?_, ?_, ?_⟩
    · intro Request hMem
      simp at hMem
      subst hMem
      simp [hHead]
    · intro Request hMem
      have hIn : Request.Status ∈ Rest.map (fun Request => Request.Status) :=
        List.mem_map_of_mem _ hMem
      rw [hRest] at hIn
      exact (List.mem_replicate.1 hIn).2
    · rw [hIds.2, hLen]
    · rw [hNext, hLen]
      omega
    · simpa using hStarted

/-- After one or more calls on an empty queue, made before any completion, the queue is in
the call state. -/
theorem InvokeAll_CallInv (E : FEngine) (s : UXsollaStoreController) (c : FCartCall)
    (cs : List FCartCall) (hEmpty : s.CartRequestsQueue = []) :
    CallInv (Started s.Trace) s.NextRequestId cs.length (View (InvokeAll E s (c :: cs))) := by
  have hFirst : CallInv (Started s.Trace) s.NextRequestId 0 (View (c.Invoke E s)) := by
    obtain ⟨Request, hStatus, hId, hView⟩ := View_Invoke E s c
    rw [hView]
    exact CallInv_first (View s) Request hEmpty hStatus hId
  have hRest : ∀ (l : List FCartCall) (t : UXsollaStoreController) (m : Nat),
      CallInv (Started s.Trace) s.NextRequestId m (View t) →
      CallInv (Started s.Trace) s.NextRequestId (m + l.length)
        (View (l.foldl (fun t Call => Call.Invoke E t) t)) := by
    intro l
    induction l with
    | nil => intro t m h; simpa using h
    | cons d l ih =>
      intro t m h
      obtain ⟨Request, hStatus, hId, hView⟩ := View_Invoke E t d
      have hStep := CallInv_step _ _ m (View t) Request hStatus hId h
      rw [← hView] at hStep
      have := ih (d.Invoke E t) (m + 1) hStep
      simpa [Nat.add_assoc, Nat.add_comm 1] using this
  have := hRest cs (c.Invoke E s) 0 hFirst
  simpa [InvokeAll] using this

/-! ## Dispatch order: results -/

/-- The part of the dispatch order that holds on every run: for one or more cart calls
made on an empty queue before any completion, the requests carry consecutive identities in
call order, the first is processing, the others are not started and `ProcessRequest` has
been called on the first only; and after any run of completions from there, the requests
on which `ProcessRequest` has been called are the first `k` of them in identity order,
that is in call order, for some `k` of at least one: no request is started before an
earlier one or twice. How many are started is not fixed by this. -/
theorem fifo_dispatch (E : FEngine) (s : UXsollaStoreController) (c : FCartCall)
    (cs : List FCartCall) (hEmpty : s.CartRequestsQueue = []) :
    (InvokeAll E s (c :: cs)).CartRequestsQueue.map (fun Request => Request.Status) =
      EHttpRequestStatus.Processing ::
        List.replicate cs.length EHttpRequestStatus.NotStarted ∧
    (InvokeAll E s (c :: cs)).CartRequestsQueue.map (fun Request => Request.Id) =
      List.range' s.NextRequestId (cs.length + 1) ∧
    Started (InvokeAll E s (c :: cs)).Trace = Started s.Trace ++ [s.NextRequestId] ∧
    ∀ u, CompletionRun E (InvokeAll E s (c :: cs)) u →
      ∃ k, 1 ≤ k ∧ Started u.Trace = Started s.Trace ++ List.range' s.NextRequestId k := by
  have hCall := InvokeAll_CallInv E s c cs hEmpty
  refine ⟨hCall.1, hCall.2.1, hCall.2.2.2, ?_⟩
  intro u hRun
  obtain ⟨k, A, B, hMin, _, _, _, _, _, hStarted⟩ :=
    CompletionRun_Fifo E _ _ _ _ u hRun (FifoInv_of_CallInv _ _ _ _ hCall)
  exact ⟨k, hMin, hStarted⟩

/-- The controller `SampleAfterCreateSucceeded` is reached from `SampleAfterCalls` by one
completion. -/
theorem SampleAfterCreateSucceeded_run :
    CompletionRun SampleEngine SampleAfterCalls SampleAfterCreateSucceeded := by
  obtain ⟨Request, hAt, hProcessing⟩ :=
    exists_processing_at SampleAfterCalls.CartRequestsQueue 0 (by decide)
  exact CompletionRun.Next SampleAfterCalls 0 Request EHttpRequestStatus.Succeeded
    (some { ResponseCode := 200, ContentAsString := "\x7b\"id\": 42\x7d" }) true
    CompletionRun.Refl hAt hProcessing rfl

/-- The dispatch order at a concrete input: `CreateCart` then `AddToCart("sku-1", 3)` on
the empty queue of the sample controller, and the state after the first request has
completed. -/
theorem fifo_dispatch_witness :
    SampleAfterCalls.CartRequestsQueue.map (fun Request => Request.Status) =
      [EHttpRequestStatus.Processing, EHttpRequestStatus.NotStarted] ∧
    SampleAfterCalls.CartRequestsQueue.map (fun Request => Request.Id) = [0, 1] ∧
    Started SampleAfterCalls.Trace = [0] ∧
    ∃ k, 1 ≤ k ∧ Started SampleAfterCreateSucceeded.Trace = [] ++ List.range' 0 k :=
  have h := fifo_dispatch SampleEngine SampleController (FCartCall.CreateCart "token" 1 2)
    [FCartCall.AddToCart "token" "sku-1" 3 3 4] rfl
  ⟨h.1, h.2.1, h.2.2.1, h.2.2.2 SampleAfterCreateSucceeded SampleAfterCreateSucceeded_run⟩

/-! ## Repeated cart mutations: auxiliary facts -/

/-- The cached catalog and packages after `AddToCart` are those before. -/
theorem AddToCart_caches (E : FEngine) (s : UXsollaStoreController) (AuthToken ItemSKU : String)
    (Quantity : Int) (SuccessCallback ErrorCallback : FDelegate) :
    (AddToCart E s AuthToken ItemSKU Quantity SuccessCallback ErrorCallback).ItemsData =
      s.ItemsData ∧
    (AddToCart E s AuthToken ItemSKU Quantity SuccessCallback
      ErrorCallback).VirtualCurrencyPackages = s.VirtualCurrencyPackages := by
  simp [AddToCart, EnqueueCartRequest, (ProcessNextCartRequest_caches _).1,
    (ProcessNextCartRequest_caches _).2]

/-- A change of the elements that keeps the predicate keeps the position found. -/
theorem FindByPredicate_modify {α : Type} (Pred : α → Bool) (f : α → α)
    (hKeep : ∀ x, Pred (f x) = Pred x) (l : List α) (i : Nat) :
    FindByPredicate Pred (l.modify f i) = FindByPredicate Pred l := by
  induction l generalizing i with
  | nil => cases i <;> rfl
  | cons x xs ih =>
    cases i with
    | zero => simp [FindByPredicate, hKeep]
    | succ j =>
      rw [List.modify_succ_cons]
      simp only [FindByPredicate, ih j]

/-- When no element satisfies the predicate and an element that does is appended, it is
found at the end. -/
theorem FindByPredicate_append_new {α : Type} (Pred : α → Bool) (l : List α) (x : α)
    (hNone : FindByPredicate Pred l = none) (hx : Pred x = true) :
    FindByPredicate Pred (l ++ [x]) = some l.length := by
  induction l with
  | nil => simp [FindByPredicate, hx]
  | cons y ys ih =>
    by_cases hy : Pred y = true
    · simp [FindByPredicate, hy] at hNone
    · simp [FindByPredicate, hy] at hNone
      simp [FindByPredicate, hy, ih hNone]

/-- Changing the element appended last. -/
theorem modify_append_length {α : Type} (f : α → α) (l : List α) (x : α) :
    (l ++ [x]).modify f l.length = l ++ [f x] := by
  induction l with
  | nil => rfl
  | cons y ys ih => simp [ih]

/-- Two changes at one position. -/
theorem modify_modify_same {α : Type} (f g : α → α) (l : List α) (i : Nat) :
    (l.modify g i).modify f i = l.modify (fun x => f (g x)) i := by
  induction l generalizing i with
  | nil => cases i <;> rfl
  | cons y ys ih =>
    cases i with
    | zero => simp
    | succ j => simp [ih j]

/-- The local cart update of `AddToCart` run twice for one sku is the second update
alone. -/
theorem updateItems_overwrite (Items : List FStoreCartItem) (ItemsData : FStoreItemsData)
    (VirtualCurrencyPackages : FVirtualCurrencyPackagesData) (ItemSKU : String)
    (Quantity Quantity2 : Int) :
    AddToCart.updateItems
        (AddToCart.updateItems Items ItemsData VirtualCurrencyPackages ItemSKU Quantity)
        ItemsData VirtualCurrencyPackages ItemSKU Quantity2 =
      AddToCart.updateItems Items ItemsData VirtualCurrencyPackages ItemSKU Quantity2 := by
  cases hFind : FindByPredicate
      (fun InItem : FStoreCartItem => FString.Equals InItem.sku ItemSKU) Items with
  | some i =>
    have hAgain : FindByPredicate
        (fun InItem : FStoreCartItem => FString.Equals InItem.sku ItemSKU)
        (Items.modify (fun CartItem => { CartItem with quantity := max 0 Quantity }) i) =
        some i := by
      rw [FindByPredicate_modify
        (fun InItem : FStoreCartItem => FString.Equals InItem.sku ItemSKU)
        (fun CartItem => { CartItem with quantity := max 0 Quantity }) (fun _ => rfl), hFind]
    simp only [AddToCart.updateItems, hFind, hAgain, modify_modify_same]
  | none =>
    cases hStore : ItemsData.Items.find? (fun InItem => FString.Equals InItem.sku ItemSKU) with
    | some StoreItem =>
      have hSku : (FString.Equals StoreItem.sku ItemSKU) = true :=
        @List.find?_some _ (fun InItem : FStoreItem => FString.Equals InItem.sku ItemSKU) _ _ hStore
      have hAgain := FindByPredicate_append_new
        (fun InItem : FStoreCartItem => FString.Equals InItem.sku ItemSKU) Items
        { FStoreCartItem.ofStoreItem StoreItem with quantity := max 0 Quantity } hFind
        (by simpa [FStoreCartItem.ofStoreItem] using hSku)
      simp only [AddToCart.updateItems, hFind, hStore, hAgain, modify_append_length]
    | none =>
      cases hPack : VirtualCurrencyPackages.Items.find?
          (fun InItem => FString.Equals InItem.sku ItemSKU) with
      | some CurrencyPackageItem =>
        have hSku : (FString.Equals CurrencyPackageItem.sku ItemSKU) = true :=
          @List.find?_some _
            (fun InItem : FVirtualCurrencyPackage => FString.Equals InItem.sku ItemSKU)
            _ _ hPack
        have hAgain := FindByPredicate_append_new
          (fun InItem : FStoreCartItem => FString.Equals InItem.sku ItemSKU) Items
          { FStoreCartItem.ofCurrencyPackage CurrencyPackageItem with
            quantity := max 0 Quantity } hFind
          (by simpa [FStoreCartItem.ofCurrencyPackage] using hSku)
        simp only [AddToCart.updateItems, hFind, hStore, hPack, hAgain, modify_append_length]
      | none =>
        simp only [AddToCart.updateItems, hFind, hStore, hPack]

/-- When at most one element satisfies a predicate that the change keeps, changing the
first such element leaves exactly the changed element under the predicate. -/
theorem filter_modify_single {α : Type} (Pred : α → Bool) (f : α → α)
    (hKeep : ∀ x, Pred (f x) = Pred x) (l : List α) (i : Nat)
    (hFind : FindByPredicate Pred l = some i) (hSingle : (l.filter Pred).length ≤ 1) :
    ∃ x, l[i]? = some x ∧ (l.modify f i).filter Pred = [f x] := by
  induction l generalizing i with
  | nil => simp [FindByPredicate] at hFind
  | cons y ys ih =>
    by_cases hy : Pred y = true
    · simp [FindByPredicate, hy] at hFind
      subst hFind
      have hRest : ys.filter Pred = [] := by
        simp [List.filter_cons, hy] at hSingle
        simpa using hSingle
      exact ⟨y, by simp, by simp [List.filter_cons, hKeep, hy, hRest]⟩
    · simp [FindByPredicate, hy] at hFind
      obtain ⟨k, hk, rfl⟩ := hFind
      have hSingle2 : (ys.filter Pred).length ≤ 1 := by
        simpa [List.filter_cons, hy] using hSingle
      obtain ⟨x, hx, hFilter⟩ := ih k hk hSingle2
      exact ⟨x, by simpa using hx, by simp [List.filter_cons, hy, hFilter]⟩

/-- When the cart holds the sku at most once and the sku is in the cart, the catalog items
or the currency packages, skus being compared ignoring case, the local cart update of `AddToCart` leaves exactly one line item
with the sku, and its quantity is `max 0 Quantity`. -/
theorem updateItems_single (Items : List FStoreCartItem) (ItemsData : FStoreItemsData)
    (VirtualCurrencyPackages : FVirtualCurrencyPackagesData) (ItemSKU : String)
    (Quantity : Int)
    (hSingle : (Items.filter (fun Item => FString.Equals Item.sku ItemSKU)).length ≤ 1)
    (hKnown : (∃ Item ∈ Items, FString.Equals Item.sku ItemSKU = true) ∨
      (∃ Item ∈ ItemsData.Items, FString.Equals Item.sku ItemSKU = true) ∨
      (∃ Item ∈ VirtualCurrencyPackages.Items, FString.Equals Item.sku ItemSKU = true)) :
    ((AddToCart.updateItems Items ItemsData VirtualCurrencyPackages ItemSKU Quantity).filter
      (fun Item => FString.Equals Item.sku ItemSKU)).map (fun Item => Item.quantity) =
      [max 0 Quantity] := by
  cases hFind : FindByPredicate
      (fun InItem : FStoreCartItem => FString.Equals InItem.sku ItemSKU) Items with
  | some i =>
    obtain ⟨x, _, hFilter⟩ := filter_modify_single
      (fun InItem : FStoreCartItem => FString.Equals InItem.sku ItemSKU)
      (fun CartItem => { CartItem with quantity := max 0 Quantity }) (fun _ => rfl) Items i
      hFind hSingle
    simp only [AddToCart.updateItems, hFind, hFilter]
    rfl
  | none =>
    have hNone := (FindByPredicate_eq_none _ _).1 hFind
    have hEmpty : Items.filter (fun Item => FString.Equals Item.sku ItemSKU) = [] := by
      rw [List.filter_eq_nil_iff]
      intro Item hMem
      simpa using hNone Item hMem
    cases hStore : ItemsData.Items.find? (fun InItem => FString.Equals InItem.sku ItemSKU) with
    | some StoreItem =>
      have hSku : (FString.Equals StoreItem.sku ItemSKU) = true :=
        @List.find?_some _ (fun InItem : FStoreItem => FString.Equals InItem.sku ItemSKU) _ _ hStore
      simp only [AddToCart.updateItems, hFind, hStore, List.filter_append, hEmpty]
      simp [FStoreCartItem.ofStoreItem, List.filter_cons, hSku]
    | none =>
      cases hPack : VirtualCurrencyPackages.Items.find?
          (fun InItem => FString.Equals InItem.sku ItemSKU) with
      | some CurrencyPackageItem =>
        have hSku : (FString.Equals CurrencyPackageItem.sku ItemSKU) = true :=
          @List.find?_some _
            (fun InItem : FVirtualCurrencyPackage => FString.Equals InItem.sku ItemSKU)
            _ _ hPack
        simp only [AddToCart.updateItems, hFind, hStore, hPack, List.filter_append, hEmpty]
        simp [FStoreCartItem.ofCurrencyPackage, List.filter_cons, hSku]
      | none =>
        exfalso
        rcases hKnown with ⟨Item, hMem, hEq⟩ | ⟨Item, hMem, hEq⟩ | ⟨Item, hMem, hEq⟩
        · have := hNone Item hMem
          simp [hEq] at this
        · have := List.find?_eq_none.1 hStore Item hMem
          simp [hEq] at this
        · have := List.find?_eq_none.1 hPack Item hMem
          simp [hEq] at this

/-! ## Repeated cart mutations: results -/

/-- C11 as stated fails at three inputs. With `sku-1` in the catalog, `AddToCart("sku-1", 2)`
then `AddToCart("sku-1", -1)` on an empty cart leaves quantity 0, not -1. For the sku
`ghost`, which the cart, the catalog and the packages do not hold, the two calls leave no
line item. On a cart that holds the sku `a` twice, the two calls leave two line items
with that sku. -/
theorem AddToCart_twice_not_single_with_second_quantity :
    (AddToCart SampleEngine (AddToCart SampleEngine SampleController "token" "sku-1" 2 1 2)
      "token" "sku-1" (-1) 1 2).Cart.Items =
      [{ sku := "sku-1", name := "Sword", quantity := 0 }] ∧
    (AddToCart SampleEngine (AddToCart SampleEngine SampleController "token" "ghost" 2 1 2)
      "token" "ghost" 5 1 2).Cart.Items = [] ∧
    (AddToCart SampleEngine (AddToCart SampleEngine SampleCartController "token" "a" 2 1 2)
      "token" "a" 5 1 2).Cart.Items =
      [{ sku := "a", name := "first", quantity := 5 },
        { sku := "b", name := "other", quantity := 5 },
        { sku := "a", name := "second", quantity := 2 }] := by
  refine ⟨by decide, by decide, by decide⟩

/-- C11, amended: for every sku that the local cart holds at most once and that is in the
cart, the cached catalog items or the cached currency packages, skus being compared as the
engine compares them, ignoring case, and for all quantities, `AddToCart(sku, Quantity)`
followed by `AddToCart(sku, Quantity2)` leaves the local cart as `AddToCart(sku, Quantity2)`
alone does, with exactly one line item for that sku, whose quantity is `max 0 Quantity2`
(not the sum). -/
theorem AddToCart_overwrite (E : FEngine) (s : UXsollaStoreController)
    (AuthToken AuthToken2 ItemSKU : String) (Quantity Quantity2 : Int)
    (SuccessCallback ErrorCallback SuccessCallback2 ErrorCallback2 : FDelegate)
    (hSingle : (s.Cart.Items.filter (fun Item => FString.Equals Item.sku ItemSKU)).length ≤ 1)
    (hKnown : (∃ Item ∈ s.Cart.Items, FString.Equals Item.sku ItemSKU = true) ∨
      (∃ Item ∈ s.ItemsData.Items, FString.Equals Item.sku ItemSKU = true) ∨
      (∃ Item ∈ s.VirtualCurrencyPackages.Items, FString.Equals Item.sku ItemSKU = true)) :
    (AddToCart E (AddToCart E s AuthToken ItemSKU Quantity SuccessCallback ErrorCallback)
      AuthToken2 ItemSKU Quantity2 SuccessCallback2 ErrorCallback2).Cart =
      (AddToCart E s AuthToken2 ItemSKU Quantity2 SuccessCallback2 ErrorCallback2).Cart ∧
    ((AddToCart E (AddToCart E s AuthToken ItemSKU Quantity SuccessCallback ErrorCallback)
      AuthToken2 ItemSKU Quantity2 SuccessCallback2 ErrorCallback2).Cart.Items.filter
        (fun Item => FString.Equals Item.sku ItemSKU)).map (fun Item => Item.quantity) =
      [max 0 Quantity2] := by
  have hTwice : (AddToCart E (AddToCart E s AuthToken ItemSKU Quantity SuccessCallback
      ErrorCallback) AuthToken2 ItemSKU Quantity2 SuccessCallback2 ErrorCallback2).Cart =
      (AddToCart E s AuthToken2 ItemSKU Quantity2 SuccessCallback2 ErrorCallback2).Cart := by
    rw [AddToCart_Cart, AddToCart_Cart, (AddToCart_caches _ _ _ _ _ _ _).1,
      (AddToCart_caches _ _ _ _ _ _ _).2, AddToCart_Cart]
    simp only [updateItems_overwrite]
  refine ⟨hTwice, ?_⟩
  rw [hTwice, AddToCart_Cart]
  exact updateItems_single _ _ _ _ _ hSingle hKnown

/-- C11, amended, at a concrete input: `AddToCart("sku-1", 2)` then `AddToCart("sku-1", 5)`
on the empty cart of the sample controller, with `sku-1` in the catalog. -/
theorem AddToCart_overwrite_witness :
    (AddToCart SampleEngine (AddToCart SampleEngine SampleController "token" "sku-1" 2 1 2)
      "token" "sku-1" 5 3 4).Cart =
      (AddToCart SampleEngine SampleController "token" "sku-1" 5 3 4).Cart ∧
    ((AddToCart SampleEngine (AddToCart SampleEngine SampleController "token" "sku-1" 2 1 2)
      "token" "sku-1" 5 3 4).Cart.Items.filter
        (fun Item => FString.Equals Item.sku "sku-1")).map (fun Item => Item.quantity) = [max 0 5] :=
  AddToCart_overwrite SampleEngine SampleController "token" "token" "sku-1" 2 5 1 2 3 4
    (by decide) (Or.inr (Or.inl ⟨{ sku := "sku-1", name := "Sword", groups := [] },
      by decide, by decide⟩))

/-! ## Enqueueing a cart request: auxiliary facts -/

/-- The trace after `ProcessNextCartRequest`: the calls of `ProcessRequest` it makes are
appended. -/
theorem ProcessNextCartRequest_Trace (s : UXsollaStoreController) :
    (ProcessNextCartRequest s).Trace =
      s.Trace ++ (Drain s.CartRequestsQueue).2.map FEffect.ProcessRequest := by
  unfold ProcessNextCartRequest
  simp only [cleanup_eq_filter, Drain]
  cases hQ : s.CartRequestsQueue.filter (fun Request => !IsFinished Request.Status) with
  | nil => simp
  | cons Head Rest =>
    dsimp only
    by_cases hAny : (Head :: Rest).any
        (fun Request => Request.Status == EHttpRequestStatus.Processing) = true
    · simp only [hAny, Bool.not_true, if_true]
      simp
    · simp only [Bool.not_eq_true] at hAny
      simp only [hAny, Bool.not_false, if_true]
      simp

/-- The queue after `ProcessNextCartRequest`. -/
theorem ProcessNextCartRequest_Drain (s : UXsollaStoreController) :
    (ProcessNextCartRequest s).CartRequestsQueue = (Drain s.CartRequestsQueue).1 :=
  congrArg FQueueView.Queue (View_ProcessNextCartRequest s)

/-- Draining a queue whose entries have all terminated, with one request that is not
started appended: the request is started and is the only entry left. -/
theorem Drain_append_idle (Queue : List IHttpRequest) (HttpRequest : IHttpRequest)
    (hNew : HttpRequest.Status = EHttpRequestStatus.NotStarted)
    (hIdle : ∀ Request ∈ Queue, IsFinished Request.Status = true) :
    Drain (Queue ++ [HttpRequest]) =
      ([{ HttpRequest with Status := EHttpRequestStatus.Processing }], [HttpRequest.Id]) := by
  have hFilter : Queue.filter (fun Request => !IsFinished Request.Status) = [] := by
    rw [List.filter_eq_nil_iff]
    intro Request hMem
    simp [hIdle Request hMem]
  unfold Drain
  rw [List.filter_append, hFilter]
  simp [IsFinished, hNew]

/-- Draining a queue with one request that is not started appended: the request is the
last entry, started exactly when all earlier entries have terminated. -/
theorem Drain_append_last (Queue : List IHttpRequest) (HttpRequest : IHttpRequest)
    (hNew : HttpRequest.Status = EHttpRequestStatus.NotStarted) :
    (Drain (Queue ++ [HttpRequest])).1.getLast? =
      some { HttpRequest with
        Status :=
          if Queue.all (fun Request => IsFinished Request.Status)
          then EHttpRequestStatus.Processing else EHttpRequestStatus.NotStarted } := by
  by_cases hIdle : ∀ Request ∈ Queue, IsFinished Request.Status = true
  · have hAll : Queue.all (fun Request => IsFinished Request.Status) = true := by
      rw [List.all_eq_true]
      exact hIdle
    rw [Drain_append_idle Queue HttpRequest hNew hIdle]
    simp [hAll]
  · have hAll : Queue.all (fun Request => IsFinished Request.Status) = false := by
      rw [Bool.eq_false_iff, Ne, List.all_eq_true]
      exact hIdle
    have hSame : ({ HttpRequest with Status := EHttpRequestStatus.NotStarted } : IHttpRequest) =
        HttpRequest := by
      cases HttpRequest
      simp at hNew
      simp [hNew]
    have hKeep : (!IsFinished HttpRequest.Status) = true := by simp [IsFinished, hNew]
    simp only [hAll, hSame, Drain, List.filter_append, List.filter_cons, hKeep, if_true,
      List.filter_nil]
    cases hF : Queue.filter (fun Request => !IsFinished Request.Status) with
    | nil =>
      exfalso
      apply hIdle
      intro Request hMem
      have := List.filter_eq_nil_iff.1 hF Request hMem
      simpa using this
    | cons Head Rest =>
      simp only [List.cons_append]
      by_cases hAny : (Head :: (Rest ++ [HttpRequest])).any
          (fun Request => Request.Status == EHttpRequestStatus.Processing) = true
      · rw [if_pos hAny]
        show (Head :: (Rest ++ [HttpRequest])).getLast? = _
        rw [← List.cons_append, List.getLast?_concat]
        simp only [Bool.false_eq_true, if_false, hSame]
      · rw [if_neg hAny]
        show (({ Head with Status := EHttpRequestStatus.Processing } : IHttpRequest) ::
          (Rest ++ [HttpRequest])).getLast? = _
        rw [← List.cons_append, List.getLast?_concat]
        simp only [Bool.false_eq_true, if_false, hSame]

/-- The queue after the shared tail of the cart calls ends with the request of the call,
bound to its handler and callbacks; the request is started exactly when all earlier
entries have terminated. -/
theorem EnqueueCartRequest_last (s : UXsollaStoreController) (HttpRequest : IHttpRequest)
    (Handler : ECartRequest) (SuccessCallback ErrorCallback : FDelegate)
    (hNew : HttpRequest.Status = EHttpRequestStatus.NotStarted) :
    (EnqueueCartRequest s HttpRequest Handler SuccessCallback
      ErrorCallback).CartRequestsQueue.getLast? =
      some { HttpRequest with
        OnProcessRequestComplete := some
          { Handler := Handler, SuccessCallback := SuccessCallback
            ErrorCallback := ErrorCallback }
        Status :=
          if s.CartRequestsQueue.all (fun Request => IsFinished Request.Status)
          then EHttpRequestStatus.Processing else EHttpRequestStatus.NotStarted } := by
  unfold EnqueueCartRequest
  rw [ProcessNextCartRequest_Drain]
  exact Drain_append_last s.CartRequestsQueue _ hNew

/-- The shared tail of the cart calls when all earlier entries have terminated: the
request of the call is the only entry left and `ProcessRequest` is called on it. -/
theorem EnqueueCartRequest_idle (s : UXsollaStoreController) (HttpRequest : IHttpRequest)
    (Handler : ECartRequest) (SuccessCallback ErrorCallback : FDelegate)
    (hNew : HttpRequest.Status = EHttpRequestStatus.NotStarted)
    (hIdle : ∀ Request ∈ s.CartRequestsQueue, IsFinished Request.Status = true) :
    (EnqueueCartRequest s HttpRequest Handler SuccessCallback
      ErrorCallback).CartRequestsQueue =
      [{ HttpRequest with
        OnProcessRequestComplete := some
          { Handler := Handler, SuccessCallback := SuccessCallback
            ErrorCallback := ErrorCallback }
        Status := EHttpRequestStatus.Processing }] ∧
    (EnqueueCartRequest s HttpRequest Handler SuccessCallback ErrorCallback).Trace =
      s.Trace ++ [FEffect.ProcessRequest HttpRequest.Id] := by
  unfold EnqueueCartRequest
  rw [ProcessNextCartRequest_Drain, ProcessNextCartRequest_Trace]
  dsimp only
  rw [Drain_append_idle s.CartRequestsQueue
    { HttpRequest with
      OnProcessRequestComplete := some
        { Handler := Handler, SuccessCallback := SuccessCallback
          ErrorCallback := ErrorCallback } } hNew hIdle]
  exact ⟨rfl, rfl⟩

/-- The shared tail of the cart calls only adds calls of `ProcessRequest` to the trace. -/
theorem EnqueueCartRequest_Trace (s : UXsollaStoreController) (HttpRequest : IHttpRequest)
    (Handler : ECartRequest) (SuccessCallback ErrorCallback : FDelegate) :
    ∃ Ids : List Nat,
      (EnqueueCartRequest s HttpRequest Handler SuccessCallback ErrorCallback).Trace =
        s.Trace ++ Ids.map FEffect.ProcessRequest := by
  unfold EnqueueCartRequest
  rw [ProcessNextCartRequest_Trace]
  exact ⟨_, rfl⟩

/-! ## Calls without local effect: results -/

/-- C12 as stated fails: the cart of `SampleHeldController` holds the one line item
`sku-1`, so no line item has the sku `SKU-1`; `RemoveFromCart("SKU-1")` removes that line
item all the same, because the comparison of the engine takes the two skus as equal. -/
theorem RemoveFromCart_match_ignores_case :
    (∀ Item ∈ SampleHeldController.Cart.Items, Item.sku ≠ "SKU-1") ∧
    SampleHeldController.Cart.Items = [{ sku := "sku-1", name := "Sword", quantity := 3 }] ∧
    (RemoveFromCart SampleEngine SampleHeldController "token" "SKU-1" 1 2).Cart.Items = [] := by
  refine ⟨by decide, rfl, by decide⟩

/-- C12, amended: `RemoveFromCart` for a sku that no line item of the local cart has, skus
being compared as the engine compares them, ignoring case. The cart (id and items) is
unchanged; the queue then ends with the DELETE request for the item URL of
that sku, bound to `RemoveFromCart_HttpRequestComplete` and the callbacks of the call; the
request is processing when every earlier queue entry has terminated, and in that case
`ProcessRequest` is called on it before the cart broadcast. -/
theorem RemoveFromCart_absent_sku (E : FEngine) (s : UXsollaStoreController)
    (AuthToken ItemSKU : String) (SuccessCallback ErrorCallback : FDelegate)
    (hAbsent : ∀ Item ∈ s.Cart.Items, FString.Equals Item.sku ItemSKU = false) :
    (RemoveFromCart E s AuthToken ItemSKU SuccessCallback ErrorCallback).Cart = s.Cart ∧
    (RemoveFromCart E s AuthToken ItemSKU SuccessCallback
      ErrorCallback).CartRequestsQueue.getLast? =
      some { CreateHttpRequest E s.NextRequestId
          ("https://store.xsolla.com/api/v1/project/" ++ s.ProjectId ++ "/cart/" ++
            toString s.Cart.cart_id ++ "/item/" ++ ItemSKU)
          ERequestVerb.DELETE AuthToken "" with
        OnProcessRequestComplete := some
          { Handler := ECartRequest.RemoveFromCart, SuccessCallback := SuccessCallback
            ErrorCallback := ErrorCallback }
        Status :=
          if s.CartRequestsQueue.all (fun Request => IsFinished Request.Status)
          then EHttpRequestStatus.Processing else EHttpRequestStatus.NotStarted } ∧
    ((∀ Request ∈ s.CartRequestsQueue, IsFinished Request.Status = true) →
      (RemoveFromCart E s AuthToken ItemSKU SuccessCallback ErrorCallback).Trace =
        s.Trace ++ [FEffect.ProcessRequest s.NextRequestId, FEffect.OnCartUpdate s.Cart]) := by
  have hLoop : RemoveFromCart.loop ItemSKU s.Cart.Items.length s.Cart.Items = s.Cart.Items :=
    RemoveFromCart_loop_absent ItemSKU _ _
      (fun j _ Other hOther => hAbsent Other (List.getElem?_mem hOther))
  have hCart : (RemoveFromCart E s AuthToken ItemSKU SuccessCallback ErrorCallback).Cart =
      s.Cart := by
    rw [RemoveFromCart_Cart, hLoop]
  refine ⟨hCart, ?_, ?_⟩
  · exact EnqueueCartRequest_last { s with CachedAuthToken := AuthToken } _ _ _ _
      (CreateHttpRequest_Status _ _ _ _ _ _)
  · intro hIdle
    have hTail := (EnqueueCartRequest_idle { s with CachedAuthToken := AuthToken }
      (CreateHttpRequest E s.NextRequestId
        ("https://store.xsolla.com/api/v1/project/" ++ s.ProjectId ++ "/cart/" ++
          toString s.Cart.cart_id ++ "/item/" ++ ItemSKU) ERequestVerb.DELETE AuthToken "")
      ECartRequest.RemoveFromCart SuccessCallback ErrorCallback
      (CreateHttpRequest_Status _ _ _ _ _ _) hIdle).2
    have hTrace : (RemoveFromCart E s AuthToken ItemSKU SuccessCallback ErrorCallback).Trace =
        (EnqueueCartRequest { s with CachedAuthToken := AuthToken }
          (CreateHttpRequest E s.NextRequestId
            ("https://store.xsolla.com/api/v1/project/" ++ s.ProjectId ++ "/cart/" ++
              toString s.Cart.cart_id ++ "/item/" ++ ItemSKU) ERequestVerb.DELETE AuthToken "")
          ECartRequest.RemoveFromCart SuccessCallback ErrorCallback).Trace ++
        [FEffect.OnCartUpdate
          (RemoveFromCart E s AuthToken ItemSKU SuccessCallback ErrorCallback).Cart] := rfl
    rw [hTrace, hTail, hCart, CreateHttpRequest_Id]
    simp

/-- C12, amended, at a concrete input: the controller whose cart holds the one sku
`sku-1` and whose queue is empty, and the sku `ghost`. -/
theorem RemoveFromCart_absent_sku_witness :
    (RemoveFromCart SampleEngine SampleHeldController "token" "ghost" 1 2).Cart =
      SampleHeldController.Cart ∧
    (RemoveFromCart SampleEngine SampleHeldController "token" "ghost" 1
      2).CartRequestsQueue.map
        (fun Request => (Request.Verb, Request.URL, Request.Status)) =
      [("DELETE",
        "https://store.xsolla.com/api/v1/project/demo/cart/7/item/ghost?engine=ue4&engine_v=4.23.0&sdk=store&sdk_v=0.1.0",
        EHttpRequestStatus.Processing)] ∧
    (RemoveFromCart SampleEngine SampleHeldController "token" "ghost" 1 2).Trace =
      SampleHeldController.Trace ++
        [FEffect.ProcessRequest SampleHeldController.NextRequestId,
          FEffect.OnCartUpdate SampleHeldController.Cart] :=
  have h := RemoveFromCart_absent_sku SampleEngine SampleHeldController "token" "ghost" 1 2
    (by decide)
  ⟨h.1, by decide, h.2.2 (by decide)⟩

/-- C13 as stated fails: the sku `SKU-1` is the sku of no line item of the cart, of no
cached catalog item and of no cached currency package of the sample controller, whose
cart is empty; `AddToCart("SKU-1", 3)` appends a line item built from the catalog item
`sku-1` all the same, because the comparison of the engine takes the two skus as equal. -/
theorem AddToCart_lookup_ignores_case :
    (∀ Item ∈ SampleController.Cart.Items, Item.sku ≠ "SKU-1") ∧
    (∀ Item ∈ SampleController.ItemsData.Items, Item.sku ≠ "SKU-1") ∧
    (∀ Item ∈ SampleController.VirtualCurrencyPackages.Items, Item.sku ≠ "SKU-1") ∧
    SampleController.Cart.Items = [] ∧
    (AddToCart SampleEngine SampleController "token" "SKU-1" 3 1 2).Cart.Items =
      [{ sku := "sku-1", name := "Sword", quantity := 3 }] := by
  refine ⟨by decide, by decide, by decide, rfl, by decide⟩

/-- C13, amended: `AddToCart` for a sku that is neither in the local cart nor in the cached
catalog items nor in the cached currency packages, skus being compared as the engine
compares them, ignoring case. The cart (id and items) is unchanged; the queue
then ends with the PUT request for the item URL of that sku, whose content is the
serialised object `{quantity}`, bound to `AddToCart_HttpRequestComplete` and the callbacks
of the call. -/
theorem AddToCart_unknown_sku (E : FEngine) (s : UXsollaStoreController)
    (AuthToken ItemSKU : String) (Quantity : Int) (SuccessCallback ErrorCallback : FDelegate)
    (hCart : ∀ Item ∈ s.Cart.Items, FString.Equals Item.sku ItemSKU = false)
    (hCatalog : ∀ Item ∈ s.ItemsData.Items, FString.Equals Item.sku ItemSKU = false)
    (hPackages : ∀ Item ∈ s.VirtualCurrencyPackages.Items,
      FString.Equals Item.sku ItemSKU = false) :
    (AddToCart E s AuthToken ItemSKU Quantity SuccessCallback ErrorCallback).Cart = s.Cart ∧
    (AddToCart E s AuthToken ItemSKU Quantity SuccessCallback
      ErrorCallback).CartRequestsQueue.getLast? =
      some { CreateHttpRequest E s.NextRequestId
          ("https://store.xsolla.com/api/v1/project/" ++ s.ProjectId ++ "/cart/" ++
            toString s.Cart.cart_id ++ "/item/" ++ ItemSKU)
          ERequestVerb.PUT AuthToken
          (SerializeJson E [("quantity", FJsonValueNumber Quantity)]) with
        OnProcessRequestComplete := some
          { Handler := ECartRequest.AddToCart, SuccessCallback := SuccessCallback
            ErrorCallback := ErrorCallback }
        Status :=
          if s.CartRequestsQueue.all (fun Request => IsFinished Request.Status)
          then EHttpRequestStatus.Processing else EHttpRequestStatus.NotStarted } := by
  refine ⟨?_, ?_⟩
  · rw [AddToCart_Cart]
    have hFind : FindByPredicate
        (fun InItem : FStoreCartItem => FString.Equals InItem.sku ItemSKU) s.Cart.Items =
        none := by
      rw [FindByPredicate_eq_none]
      intro Item hMem
      exact hCart Item hMem
    have hStore : s.ItemsData.Items.find? (fun InItem => FString.Equals InItem.sku ItemSKU) =
        none := by
      rw [List.find?_eq_none]
      intro Item hMem
      simp [hCatalog Item hMem]
    have hPack : s.VirtualCurrencyPackages.Items.find?
        (fun InItem => FString.Equals InItem.sku ItemSKU) = none := by
      rw [List.find?_eq_none]
      intro Item hMem
      simp [hPackages Item hMem]
    simp only [AddToCart.updateItems, hFind, hStore, hPack]
  · exact EnqueueCartRequest_last { s with CachedAuthToken := AuthToken } _ _ _ _
      (CreateHttpRequest_Status _ _ _ _ _ _)

/-- C13, amended, at a concrete input: the sample controller and the sku `ghost`, with
quantity 2. -/
theorem AddToCart_unknown_sku_witness :
    (AddToCart SampleEngine SampleController "token" "ghost" 2 1 2).Cart =
      SampleController.Cart ∧
    (AddToCart SampleEngine SampleController "token" "ghost" 2 1 2).CartRequestsQueue.map
        (fun Request => (Request.Verb, Request.URL, Request.Status)) =
      [("PUT",
        "https://store.xsolla.com/api/v1/project/demo/cart/7/item/ghost?engine=ue4&engine_v=4.23.0&sdk=store&sdk_v=0.1.0",
        EHttpRequestStatus.Processing)] :=
  ⟨(AddToCart_unknown_sku SampleEngine SampleController "token" "ghost" 2 1 2 (by decide)
    (by decide) (by decide)).1, by decide⟩

/-! ## Completion handlers: results -/

/-- C14: when a `CreateCart` request completes with a success status code and a JSON body
whose field `id` is the number `n` (an `int32`), the handler leaves the controller with the
cart `{cart_id := n, Items := []}`, whatever the local cart held, and appends to the trace
one cart broadcast of that cart, the save of `(n, CachedCartCurrency)` and the call of the
success callback; nothing else changes. -/
theorem CreateCart_HttpRequestComplete_success (E : FEngine) (s : UXsollaStoreController)
    (HttpRequest : Option IHttpRequest) (Response : FHttpResponse)
    (SuccessCallback ErrorCallback : FDelegate) (JsonObject : FJsonObject) (n : Int)
    (hCode : E.IsOk Response.ResponseCode = true)
    (hJson : E.Deserialize Response.ContentAsString = some JsonObject)
    (hId : JsonObject.Find "id" = some (FJsonValueNumber n))
    (hLow : -2147483648 ≤ n) (hHigh : n < 2147483648) :
    CreateCart_HttpRequestComplete E s HttpRequest (some Response) true SuccessCallback
        ErrorCallback =
      { s with
        Cart := { cart_id := n, Items := [] }
        Trace := s.Trace ++
          [FEffect.OnCartUpdate { cart_id := n, Items := [] },
            FEffect.Save n s.CachedCartCurrency,
            FEffect.Success SuccessCallback] } := by
  simp [CreateCart_HttpRequestComplete, UXsollaStoreController.HandleRequestError,
    HandleRequestError_ok E HttpRequest Response ErrorCallback hCode, hJson, SaveData,
    FStoreCart.ofId, FJsonObject.GetNumberField, hId, FJsonValue.AsNumber,
    toInt32_of_range n hLow hHigh]

/-- C14 at the input of the spec: status 200 with the body `{"id": 42}`, on a controller
whose local cart holds three line items. -/
theorem CreateCart_HttpRequestComplete_success_witness :
    CreateCart_HttpRequestComplete SampleEngine SampleCartController none
        (some { ResponseCode := 200, ContentAsString := "\x7b\"id\": 42\x7d" }) true 1 2 =
      { SampleCartController with
        Cart := { cart_id := 42, Items := [] }
        Trace := SampleCartController.Trace ++
          [FEffect.OnCartUpdate { cart_id := 42, Items := [] },
            FEffect.Save 42 SampleCartController.CachedCartCurrency,
            FEffect.Success 1] } :=
  CreateCart_HttpRequestComplete_success SampleEngine SampleCartController none
    { ResponseCode := 200, ContentAsString := "\x7b\"id\": 42\x7d" } 1 2
    [("id", FJsonValueNumber 42)] 42 (by decide) rfl rfl (by decide) (by decide)

/-- On an error the handler of `AddToCart` is the call of `UpdateCart` with the cached
token and the callbacks of the failed request, after the calls on the error callback. -/
theorem AddToCart_HttpRequestComplete_error (E : FEngine) (s : UXsollaStoreController)
    (HttpRequest : Option IHttpRequest) (HttpResponse : Option FHttpResponse) (bSucceeded : Bool)
    (SuccessCallback ErrorCallback : FDelegate)
    (hError : (HandleRequestError E HttpRequest HttpResponse bSucceeded ErrorCallback).1 = true) :
    AddToCart_HttpRequestComplete E s HttpRequest HttpResponse bSucceeded SuccessCallback
        ErrorCallback =
      UpdateCart E
        { s with Trace := s.Trace ++
          (HandleRequestError E HttpRequest HttpResponse bSucceeded ErrorCallback).2 }
        s.CachedAuthToken SuccessCallback ErrorCallback := by
  simp only [AddToCart_HttpRequestComplete, UXsollaStoreController.HandleRequestError, hError]

/-- C15: when the request of `AddToCart` or of `RemoveFromCart` completes with an error as
classified by `HandleRequestError`, the handler calls the error callback once with the
classified error and otherwise only starts requests: the success callback is not called.
The local cart is left as it is, and the queue then ends with a new GET request for the
cart URL, carrying the cached token and bound to `UpdateCart_HttpRequestComplete` with the
success and error callbacks of the failed request. -/
theorem resync_on_failure (E : FEngine)
    (Handler : FEngine → UXsollaStoreController → Option IHttpRequest → Option FHttpResponse →
      Bool → FDelegate → FDelegate → UXsollaStoreController)
    (hHandler : Handler = AddToCart_HttpRequestComplete ∨
      Handler = RemoveFromCart_HttpRequestComplete)
    (s : UXsollaStoreController)
    (HttpRequest : Option IHttpRequest) (HttpResponse : Option FHttpResponse) (bSucceeded : Bool)
    (SuccessCallback ErrorCallback : FDelegate)
    (hError : (HandleRequestError E HttpRequest HttpResponse bSucceeded ErrorCallback).1 = true) :
    (∃ (StatusCode ErrorCode : Int) (ErrorMessage : String) (Ids : List Nat),
      (HandleRequestError E HttpRequest HttpResponse bSucceeded ErrorCallback).2 =
        [FEffect.Error ErrorCallback StatusCode ErrorCode ErrorMessage] ∧
      (Handler E s HttpRequest HttpResponse bSucceeded SuccessCallback ErrorCallback).Trace =
        s.Trace ++ [FEffect.Error ErrorCallback StatusCode ErrorCode ErrorMessage] ++
          Ids.map FEffect.ProcessRequest) ∧
    (Handler E s HttpRequest HttpResponse bSucceeded SuccessCallback ErrorCallback).Trace.count
        (FEffect.Success SuccessCallback) =
      s.Trace.count (FEffect.Success SuccessCallback) ∧
    (Handler E s HttpRequest HttpResponse bSucceeded SuccessCallback ErrorCallback).Cart =
      s.Cart ∧
    (Handler E s HttpRequest HttpResponse bSucceeded SuccessCallback
      ErrorCallback).CartRequestsQueue.getLast? =
      some { CreateHttpRequest E s.NextRequestId
          ("https://store.xsolla.com/api/v1/project/" ++ s.ProjectId ++ "/cart/" ++
            toString s.Cart.cart_id)
          ERequestVerb.GET s.CachedAuthToken "" with
        OnProcessRequestComplete := some
          { Handler := ECartRequest.UpdateCart, SuccessCallback := SuccessCallback
            ErrorCallback := ErrorCallback }
        Status :=
          if s.CartRequestsQueue.all (fun Request => IsFinished Request.Status)
          then EHttpRequestStatus.Processing else EHttpRequestStatus.NotStarted } := by
  have hSame : RemoveFromCart_HttpRequestComplete = AddToCart_HttpRequestComplete := rfl
  have hIs : Handler = AddToCart_HttpRequestComplete := by
    rcases hHandler with h | h
    · exact h
    · rw [h, hSame]
  subst hIs
  rw [AddToCart_HttpRequestComplete_error E s HttpRequest HttpResponse bSucceeded
    SuccessCallback ErrorCallback hError]
  obtain ⟨StatusCode, ErrorCode, ErrorMessage, hCalls⟩ :
      ∃ StatusCode ErrorCode ErrorMessage,
        (HandleRequestError E HttpRequest HttpResponse bSucceeded ErrorCallback).2 =
          [FEffect.Error ErrorCallback StatusCode ErrorCode ErrorMessage] := by
    rcases HandleRequestError_calls_once_iff_true E HttpRequest HttpResponse bSucceeded
      ErrorCallback with ⟨_, h⟩ | h
    · exact h
    · rw [h] at hError
      cases hError
  obtain ⟨Ids, hTrace⟩ := EnqueueCartRequest_Trace
    { s with
      Trace := s.Trace ++
        (HandleRequestError E HttpRequest HttpResponse bSucceeded ErrorCallback).2
      CachedAuthToken := s.CachedAuthToken }
    (CreateHttpRequest E s.NextRequestId
      ("https://store.xsolla.com/api/v1/project/" ++ s.ProjectId ++ "/cart/" ++
        toString s.Cart.cart_id) ERequestVerb.GET s.CachedAuthToken "")
    ECartRequest.UpdateCart SuccessCallback ErrorCallback
  have hTrace2 : (UpdateCart E
      { s with Trace := s.Trace ++
        (HandleRequestError E HttpRequest HttpResponse bSucceeded ErrorCallback).2 }
      s.CachedAuthToken SuccessCallback ErrorCallback).Trace =
      s.Trace ++ [FEffect.Error ErrorCallback StatusCode ErrorCode ErrorMessage] ++
        Ids.map FEffect.ProcessRequest := by
    rw [← hCalls]
    exact hTrace
  refine ⟨⟨StatusCode, ErrorCode, ErrorMessage, Ids, hCalls, hTrace2⟩, ?_, ?_, ?_⟩
  · rw [hTrace2]
    simp [List.count_append, List.count_eq_zero]
  · exact ProcessNextCartRequest_Cart _
  · exact EnqueueCartRequest_last
      { s with
        Trace := s.Trace ++
          (HandleRequestError E HttpRequest HttpResponse bSucceeded ErrorCallback).2
        CachedAuthToken := s.CachedAuthToken } _ _ _ _
      (CreateHttpRequest_Status _ _ _ _ _ _)

/-- C15 at a concrete input: the request of `AddToCart` fails without a response on the
sample controller; the handler of `AddToCart` leaves the cart and the number of calls of
the success callback as they were. -/
theorem resync_on_failure_witness :
    (AddToCart_HttpRequestComplete SampleEngine SampleController none none false 1 2).Cart =
      SampleController.Cart ∧
    (AddToCart_HttpRequestComplete SampleEngine SampleController none none false 1
      2).Trace.count (FEffect.Success 1) = SampleController.Trace.count (FEffect.Success 1) ∧
    (AddToCart_HttpRequestComplete SampleEngine SampleController none none false 1
      2).CartRequestsQueue.map (fun Request => (Request.Verb, Request.URL)) =
      [("GET",
        "https://store.xsolla.com/api/v1/project/demo/cart/7?engine=ue4&engine_v=4.23.0&sdk=store&sdk_v=0.1.0")] :=
  have h := resync_on_failure SampleEngine AddToCart_HttpRequestComplete (Or.inl rfl)
    SampleController none none false 1 2 (by decide)
  ⟨h.2.2.1, h.2.1, by decide⟩

/-! ## Token utility: results -/

/-- A token with fewer than two non-empty segments makes `ParseTokenPayload` index its
segment array out of range, for every engine. -/
theorem ParseTokenPayload_range_check (E : FEngine) (Token : String)
    (hShort : (ParseIntoArray Token '.').length < 2) :
    ParseTokenPayload E Token = FParseTokenResult.RangeCheckFailed := by
  have hNone : (ParseIntoArray Token '.')[1]? = none := List.getElem?_eq_none (by omega)
  simp only [ParseTokenPayload, hNone]

/-- C16, evaluated at the failing inputs. The token `abc` has the one segment `abc` and the
empty token has none: for both, `ParseTokenPayload` reads `TokenParts[1]` out of range
instead of returning false, for every engine. The token `x.eyJpZCI6IDQyfQ==` has two
segments and the member returns true on it. -/
theorem ParseTokenPayload_malformed_token :
    ParseIntoArray "abc" '.' = ["abc"] ∧
    (∀ E : FEngine, ParseTokenPayload E "abc" = FParseTokenResult.RangeCheckFailed) ∧
    ParseIntoArray "" '.' = [] ∧
    (∀ E : FEngine, ParseTokenPayload E "" = FParseTokenResult.RangeCheckFailed) ∧
    ParseIntoArray "x.eyJpZCI6IDQyfQ==" '.' = ["x", "eyJpZCI6IDQyfQ=="] ∧
    ParseTokenPayload SampleEngine "x.eyJpZCI6IDQyfQ==" =
      FParseTokenResult.ReturnedTrue [("id", FJsonValueNumber 42)] := by
  refine ⟨by decide, fun E => rfl, by decide, fun E => rfl, by decide, rfl⟩

/-! ## Requests outside the cart queue: results -/

/-- The handler of the order check on a success response whose body holds the number `n`
as `order_id` and the string `Status` as `status`: one call of the success callback. -/
theorem CheckOrder_HttpRequestComplete_success (E : FEngine) (s : UXsollaStoreController)
    (HttpRequest : Option IHttpRequest) (Response : FHttpResponse)
    (SuccessCallback ErrorCallback : FDelegate) (JsonObject : FJsonObject) (n : Int)
    (Status : String)
    (hCode : E.IsOk Response.ResponseCode = true)
    (hJson : E.Deserialize Response.ContentAsString = some JsonObject)
    (hId : JsonObject.Find "order_id" = some (FJsonValueNumber n))
    (hLow : -2147483648 ≤ n) (hHigh : n < 2147483648)
    (hStatus : JsonObject.Find "status" = some (FJsonValueString Status)) :
    CheckOrder_HttpRequestComplete E s HttpRequest (some Response) true SuccessCallback
        ErrorCallback =
      { s with Trace := s.Trace ++ [FEffect.CheckOrderSuccess SuccessCallback n
        (if FString.Equals Status "new" then EXsollaOrderStatus.New
          else if FString.Equals Status "paid" then EXsollaOrderStatus.Paid
          else if FString.Equals Status "done" then EXsollaOrderStatus.Done
          else EXsollaOrderStatus.Unknown)] } := by
  simp [CheckOrder_HttpRequestComplete, UXsollaStoreController.HandleRequestError,
    HandleRequestError_ok E HttpRequest Response ErrorCallback hCode, hJson,
    FJsonObject.GetNumberField, FJsonObject.GetStringField, hId, hStatus, FJsonValue.AsNumber,
    FJsonValue.AsString, toInt32_of_range n hLow hHigh]

/-- C17 as stated fails: on status 200 with the body `{"order_id": 7, "status": "PAID"}`
the handler calls the success callback with `(7, Paid)`. The string `PAID` is none of
`new`, `paid` and `done`, for which the claim gives `(7, Unknown)`; the comparison of the
engine takes it as equal to `paid`. -/
theorem CheckOrder_status_ignores_case :
    "PAID" ≠ "new" ∧ "PAID" ≠ "paid" ∧ "PAID" ≠ "done" ∧
    CheckOrder_HttpRequestComplete SampleEngine SampleController none
        (some { ResponseCode := 200
                ContentAsString := "\x7b\"order_id\": 7, \"status\": \"PAID\"\x7d" })
        true 1 2 =
      { SampleController with Trace := SampleController.Trace ++
        [FEffect.CheckOrderSuccess 1 7 EXsollaOrderStatus.Paid] } := by
  refine ⟨by decide, by decide, by decide, by decide⟩

/-- C17, amended: on a completed order check with a success status code and a JSON body
whose field `order_id` is the number `n` (an `int32`) and whose field `status` is the
string `Status`, the handler makes exactly one call, on the success callback, with
`(n, New)` if `Status` is `new`, `(n, Paid)` if it is `paid`, `(n, Done)` if it is `done`,
strings being compared as the engine compares them, ignoring case, and with
`(n, Unknown)` for every other string; the error callback is not called. -/
theorem CheckOrder_status_mapping (E : FEngine) (s : UXsollaStoreController)
    (HttpRequest : Option IHttpRequest) (Response : FHttpResponse)
    (SuccessCallback ErrorCallback : FDelegate) (JsonObject : FJsonObject) (n : Int)
    (Status : String)
    (hCode : E.IsOk Response.ResponseCode = true)
    (hJson : E.Deserialize Response.ContentAsString = some JsonObject)
    (hId : JsonObject.Find "order_id" = some (FJsonValueNumber n))
    (hLow : -2147483648 ≤ n) (hHigh : n < 2147483648)
    (hStatus : JsonObject.Find "status" = some (FJsonValueString Status)) :
    (FString.Equals Status "new" = true →
      CheckOrder_HttpRequestComplete E s HttpRequest (some Response) true SuccessCallback
          ErrorCallback =
        { s with Trace := s.Trace ++
          [FEffect.CheckOrderSuccess SuccessCallback n EXsollaOrderStatus.New] }) ∧
    (FString.Equals Status "paid" = true →
      CheckOrder_HttpRequestComplete E s HttpRequest (some Response) true SuccessCallback
          ErrorCallback =
        { s with Trace := s.Trace ++
          [FEffect.CheckOrderSuccess SuccessCallback n EXsollaOrderStatus.Paid] }) ∧
    (FString.Equals Status "done" = true →
      CheckOrder_HttpRequestComplete E s HttpRequest (some Response) true SuccessCallback
          ErrorCallback =
        { s with Trace := s.Trace ++
          [FEffect.CheckOrderSuccess SuccessCallback n EXsollaOrderStatus.Done] }) ∧
    (FString.Equals Status "new" = false → FString.Equals Status "paid" = false →
      FString.Equals Status "done" = false →
      CheckOrder_HttpRequestComplete E s HttpRequest (some Response) true SuccessCallback
          ErrorCallback =
        { s with Trace := s.Trace ++
          [FEffect.CheckOrderSuccess SuccessCallback n EXsollaOrderStatus.Unknown] }) := by
  have h := CheckOrder_HttpRequestComplete_success E s HttpRequest Response SuccessCallback
    ErrorCallback JsonObject n Status hCode hJson hId hLow hHigh hStatus
  have hApart : ∀ Lhs Rhs : String, FString.Equals Lhs Rhs = false →
      FString.Equals Status Lhs = true → FString.Equals Status Rhs = false := by
    intro Lhs Rhs hDiffer hLhs
    cases hRhs : FString.Equals Status Rhs with
    | false => rfl
    | true =>
      rw [FString_Equals_of_common Status Lhs Rhs hLhs hRhs] at hDiffer
      cases hDiffer
  refine ⟨?_, ?_, ?_, ?_⟩
  · intro h1
    rw [h]
    simp [h1]
  · intro h2
    rw [h]
    simp [h2, hApart "paid" "new" (by decide) h2]
  · intro h3
    rw [h]
    simp [h3, hApart "done" "new" (by decide) h3, hApart "done" "paid" (by decide) h3]
  · intro h1 h2 h3
    rw [h]
    simp [h1, h2, h3]

/-- C17, amended, at two inputs: status 200 with the body
`{"order_id": 7, "status": "pending_review"}` of the spec gives one call of the success
callback with `(7, Unknown)`, and with the body `{"order_id": 7, "status": "PAID"}` one
call with `(7, Paid)`. -/
theorem CheckOrder_status_mapping_witness :
    CheckOrder_HttpRequestComplete SampleEngine SampleController none
        (some { ResponseCode := 200
                ContentAsString :=
                  "\x7b\"order_id\": 7, \"status\": \"pending_review\"\x7d" })
        true 1 2 =
      { SampleController with Trace := SampleController.Trace ++
        [FEffect.CheckOrderSuccess 1 7 EXsollaOrderStatus.Unknown] } ∧
    CheckOrder_HttpRequestComplete SampleEngine SampleController none
        (some { ResponseCode := 200
                ContentAsString := "\x7b\"order_id\": 7, \"status\": \"PAID\"\x7d" })
        true 1 2 =
      { SampleController with Trace := SampleController.Trace ++
        [FEffect.CheckOrderSuccess 1 7 EXsollaOrderStatus.Paid] } :=
  ⟨(CheckOrder_status_mapping SampleEngine SampleController none
      { ResponseCode := 200
        ContentAsString := "\x7b\"order_id\": 7, \"status\": \"pending_review\"\x7d" }
      1 2 [("order_id", FJsonValueNumber 7), ("status", FJsonValueString "pending_review")] 7
      "pending_review" (by decide) rfl rfl (by decide) (by decide) rfl).2.2.2
      (by decide) (by decide) (by decide),
    (CheckOrder_status_mapping SampleEngine SampleController none
      { ResponseCode := 200
        ContentAsString := "\x7b\"order_id\": 7, \"status\": \"PAID\"\x7d" }
      1 2 [("order_id", FJsonValueNumber 7), ("status", FJsonValueString "PAID")] 7
      "PAID" (by decide) rfl rfl (by decide) (by decide) rfl).2.1 (by decide)⟩

/-- A request as `CreateHttpRequest` returns it carries the content passed in. -/
theorem CreateHttpRequest_Content (E : FEngine) (Id : Nat) (Url : String) (Verb : ERequestVerb)
    (AuthToken Content : String) :
    (CreateHttpRequest E Id Url Verb AuthToken Content).Content = Content := by
  unfold CreateHttpRequest
  cases Verb <;> by_cases hA : AuthToken = "" <;> by_cases hC : Content = "" <;>
    simp [IHttpRequest.SetHeader, hA, hC]

/-- C18: for every sku, quantity and instance id, the JSON object that
`ConsumeInventoryItem` builds has exactly the fields `sku`, `quantity` and `instance_id`,
in that order; `quantity` is the null value when the quantity is 0 and the number
otherwise, `instance_id` is the null value when the instance id is empty and the string
otherwise; and the content of the request that the member sends is the serialisation of
that object. -/
theorem ConsumeInventoryItem_body (E : FEngine) (s : UXsollaStoreController)
    (AuthToken ItemSKU : String) (Quantity : Int) (InstanceID : String)
    (SuccessCallback ErrorCallback : FDelegate) :
    ConsumeInventoryItem.RequestDataJson ItemSKU Quantity InstanceID =
      [("sku", FJsonValueString ItemSKU),
        ("quantity", if Quantity = 0 then FJsonValueNull else FJsonValueNumber Quantity),
        ("instance_id",
          if InstanceID = "" then FJsonValueNull else FJsonValueString InstanceID)] ∧
    (ConsumeInventoryItem E s AuthToken ItemSKU Quantity InstanceID SuccessCallback
      ErrorCallback).SentRequests.map (fun Sent => Sent.Request.Content) =
      s.SentRequests.map (fun Sent => Sent.Request.Content) ++
        [E.Serialize (ConsumeInventoryItem.RequestDataJson ItemSKU Quantity InstanceID)] := by
  refine ⟨?_, ?_⟩
  · by_cases hQ : Quantity = 0 <;> by_cases hI : InstanceID = "" <;>
      simp [ConsumeInventoryItem.RequestDataJson, FJsonObject.SetStringField,
        FJsonObject.SetNumberField, FJsonObject.SetObjectField, FJsonObject.SetField, hQ, hI]
  · simp [ConsumeInventoryItem, SendStoreRequest, CreateHttpRequest_Content, SerializeJson]

/-- The Steam block sends nothing itself and leaves the content of the request as it
is. -/
theorem FetchPaymentToken_Steam_spec (E : FEngine) (s : UXsollaStoreController)
    (AuthToken : String) (HttpRequest : IHttpRequest) (ErrorCallback : FDelegate)
    (t : UXsollaStoreController) (Next : Option IHttpRequest)
    (h : FetchPaymentToken.Steam E s AuthToken HttpRequest ErrorCallback = some (t, Next)) :
    t.SentRequests = s.SentRequests ∧
      ∀ Request, Next = some Request → Request.Content = HttpRequest.Content := by
  unfold FetchPaymentToken.Steam at h
  by_cases hSteam : E.Settings.bBuildForSteam = true
  · simp only [hSteam, if_true] at h
    cases hParse : ParseTokenPayload E AuthToken with
    | RangeCheckFailed => simp [hParse] at h
    | ReturnedFalse =>
      simp only [hParse, Option.some.injEq, Prod.mk.injEq] at h
      obtain ⟨rfl, rfl⟩ := h
      exact ⟨rfl, fun _ hN => by cases hN⟩
    | ReturnedTrue PayloadJsonObject =>
      simp only [hParse] at h
      cases hField : PayloadJsonObject.TryGetStringField E "id" with
      | none =>
        simp only [hField, Option.some.injEq, Prod.mk.injEq] at h
        obtain ⟨rfl, rfl⟩ := h
        exact ⟨rfl, fun _ hN => by cases hN⟩
      | some SteamIdUrl =>
        simp only [hField, Option.some.injEq, Prod.mk.injEq] at h
        obtain ⟨rfl, rfl⟩ := h
        refine ⟨rfl, ?_⟩
        intro Request hN
        cases hN
        rfl
  · simp only [hSteam] at h
    simp only [Bool.false_eq_true, if_false, Option.some.injEq, Prod.mk.injEq] at h
    obtain ⟨rfl, rfl⟩ := h
    refine ⟨rfl, ?_⟩
    intro Request hN
    cases hN
    rfl

/-- C19: for all currency, country and locale strings the JSON object built for a payment
token holds, in this order, the field `currency` exactly when the currency is not empty,
`country` exactly when the country is not empty, `locale` exactly when the locale is not
empty, each with the argument as its string value, and always the boolean field `sandbox`
with the value of `IsSandboxEnabled()`, and no other field. Whenever `FetchPaymentToken`
or `FetchCartPaymentToken` returns, it has sent either nothing or one request whose content
is the serialisation of that object; in a build that is not for Steam both members return
and have sent that one request. -/
theorem payment_token_body (E : FEngine) (s : UXsollaStoreController)
    (AuthToken ItemSKU Currency Country Locale : String)
    (SuccessCallback ErrorCallback : FDelegate) :
    FetchPaymentToken.RequestDataJson E Currency Country Locale =
      (if Currency ≠ "" then [("currency", FJsonValueString Currency)] else []) ++
      (if Country ≠ "" then [("country", FJsonValueString Country)] else []) ++
      (if Locale ≠ "" then [("locale", FJsonValueString Locale)] else []) ++
      [("sandbox", FJsonValueBoolean (IsSandboxEnabled E))] ∧
    (∀ t, FetchPaymentToken E s AuthToken ItemSKU Currency Country Locale SuccessCallback
        ErrorCallback = some t →
      t.SentRequests = s.SentRequests ∨
      t.SentRequests.map (fun Sent => Sent.Request.Content) =
        s.SentRequests.map (fun Sent => Sent.Request.Content) ++
          [E.Serialize (FetchPaymentToken.RequestDataJson E Currency Country Locale)]) ∧
    (∀ t, FetchCartPaymentToken E s AuthToken Currency Country Locale SuccessCallback
        ErrorCallback = some t →
      t.SentRequests = s.SentRequests ∨
      t.SentRequests.map (fun Sent => Sent.Request.Content) =
        s.SentRequests.map (fun Sent => Sent.Request.Content) ++
          [E.Serialize (FetchPaymentToken.RequestDataJson E Currency Country Locale)]) ∧
    (E.Settings.bBuildForSteam = false →
      (∃ t, FetchPaymentToken E s AuthToken ItemSKU Currency Country Locale SuccessCallback
          ErrorCallback = some t ∧
        t.SentRequests.map (fun Sent => Sent.Request.Content) =
          s.SentRequests.map (fun Sent => Sent.Request.Content) ++
            [E.Serialize (FetchPaymentToken.RequestDataJson E Currency Country Locale)]) ∧
      (∃ t, FetchCartPaymentToken E s AuthToken Currency Country Locale SuccessCallback
          ErrorCallback = some t ∧
        t.SentRequests.map (fun Sent => Sent.Request.Content) =
          s.SentRequests.map (fun Sent => Sent.Request.Content) ++
            [E.Serialize (FetchPaymentToken.RequestDataJson E Currency Country Locale)])) := by
  refine ⟨?_, ?_, ?_, ?_⟩
  rotate_left 3
  · intro hBuild
    have hItem : FetchPaymentToken E s AuthToken ItemSKU Currency Country Locale
        SuccessCallback ErrorCallback =
        some (SendStoreRequest { s with NextRequestId := s.NextRequestId + 1 }
          (CreateHttpRequest E s.NextRequestId
            ("https://store.xsolla.com/api/v1/project/" ++ s.ProjectId ++ "/payment/item/" ++
              ItemSKU) ERequestVerb.POST AuthToken
            (SerializeJson E (FetchPaymentToken.RequestDataJson E Currency Country Locale)))
          EStoreRequest.FetchPaymentToken SuccessCallback ErrorCallback) := by
      simp only [FetchPaymentToken, FetchPaymentToken.Steam, hBuild, Bool.false_eq_true,
        if_false]
    have hCart : FetchCartPaymentToken E s AuthToken Currency Country Locale
        SuccessCallback ErrorCallback =
        some (SendStoreRequest
          { s with CachedAuthToken := AuthToken, NextRequestId := s.NextRequestId + 1 }
          (CreateHttpRequest E s.NextRequestId
            ("https://store.xsolla.com/api/v1/project/" ++ s.ProjectId ++ "/payment/cart/" ++
              toString s.Cart.cart_id) ERequestVerb.POST AuthToken
            (SerializeJson E (FetchPaymentToken.RequestDataJson E Currency Country Locale)))
          EStoreRequest.FetchPaymentToken SuccessCallback ErrorCallback) := by
      simp only [FetchCartPaymentToken, FetchPaymentToken.Steam, hBuild, Bool.false_eq_true,
        if_false]
    refine ⟨⟨_, hItem, ?_⟩, ⟨_, hCart, ?_⟩⟩
    · simp [SendStoreRequest, CreateHttpRequest_Content, SerializeJson]
    · simp [SendStoreRequest, CreateHttpRequest_Content, SerializeJson]
  · by_cases hCu : Currency = "" <;> by_cases hCo : Country = "" <;>
      by_cases hLo : Locale = "" <;>
      simp [FetchPaymentToken.RequestDataJson, FJsonObject.SetStringField,
        FJsonObject.SetBoolField, FJsonObject.SetField, hCu, hCo, hLo]
  · intro t ht
    unfold FetchPaymentToken at ht
    dsimp only at ht
    cases hSteam : FetchPaymentToken.Steam E { s with NextRequestId := s.NextRequestId + 1 }
        AuthToken
        (CreateHttpRequest E s.NextRequestId
          ("https://store.xsolla.com/api/v1/project/" ++ s.ProjectId ++ "/payment/item/" ++
            ItemSKU) ERequestVerb.POST AuthToken
          (SerializeJson E (FetchPaymentToken.RequestDataJson E Currency Country Locale)))
        ErrorCallback with
    | none => simp [hSteam] at ht
    | some Result =>
      obtain ⟨u, Next⟩ := Result
      obtain ⟨hSent, hContent⟩ := FetchPaymentToken_Steam_spec _ _ _ _ _ u Next hSteam
      rw [hSteam] at ht
      cases Next with
      | none =>
        simp only [Option.some.injEq] at ht
        subst ht
        exact Or.inl hSent
      | some Request =>
        simp only [Option.some.injEq] at ht
        subst ht
        right
        simp [SendStoreRequest, hSent, hContent Request rfl, CreateHttpRequest_Content,
          SerializeJson]
  · intro t ht
    unfold FetchCartPaymentToken at ht
    dsimp only at ht
    cases hSteam : FetchPaymentToken.Steam E
        { s with CachedAuthToken := AuthToken, NextRequestId := s.NextRequestId + 1 }
        AuthToken
        (CreateHttpRequest E s.NextRequestId
          ("https://store.xsolla.com/api/v1/project/" ++ s.ProjectId ++ "/payment/cart/" ++
            toString s.Cart.cart_id) ERequestVerb.POST AuthToken
          (SerializeJson E (FetchPaymentToken.RequestDataJson E Currency Country Locale)))
        ErrorCallback with
    | none => simp [hSteam] at ht
    | some Result =>
      obtain ⟨u, Next⟩ := Result
      obtain ⟨hSent, hContent⟩ := FetchPaymentToken_Steam_spec _ _ _ _ _ u Next hSteam
      rw [hSteam] at ht
      cases Next with
      | none =>
        simp only [Option.some.injEq] at ht
        subst ht
        exact Or.inl hSent
      | some Request =>
        simp only [Option.some.injEq] at ht
        subst ht
        right
        simp [SendStoreRequest, hSent, hContent Request rfl, CreateHttpRequest_Content,
          SerializeJson]

/-- C19 at a concrete input: currency `USD`, no country, locale `en`, with the sandbox
enabled in the settings of the sample engine and a build that is not for Steam. -/
theorem payment_token_body_witness :
    FetchPaymentToken.RequestDataJson SampleEngine "USD" "" "en" =
      [("currency", FJsonValueString "USD"), ("locale", FJsonValueString "en"),
        ("sandbox", FJsonValueBoolean true)] ∧
    (∃ t, FetchPaymentToken SampleEngine SampleController "token" "sku-1" "USD" "" "en" 1 2 =
        some t ∧
      t.SentRequests.map (fun Sent => Sent.Request.Content) =
        SampleController.SentRequests.map (fun Sent => Sent.Request.Content) ++
          [SampleEngine.Serialize
            (FetchPaymentToken.RequestDataJson SampleEngine "USD" "" "en")]) ∧
    (FetchPaymentToken SampleEngine SampleController "token" "sku-1" "USD" "" "en" 1 2).map
        (fun t => t.SentRequests.map (fun Sent => (Sent.Request.Verb, Sent.Request.Content))) =
      some [("POST", SampleEngine.Serialize
        (FetchPaymentToken.RequestDataJson SampleEngine "USD" "" "en"))] :=
  have h := payment_token_body SampleEngine SampleController "token" "sku-1" "USD" "" "en" 1 2
  ⟨h.1, (h.2.2.2 (by decide)).1, by decide⟩

/-- C20, evaluated at the failing inputs. `CreateCart` then `AddToCart("sku-1", 3)` are
called on an empty queue, so the second request waits behind the first. When the first
request succeeds with status 200 and the body `{"id": 42}`, and also when it succeeds
with status 200 and a body that is not JSON, its handler returns without draining: the
second request is still not started although nothing is in flight. On the sibling path,
with `ClearCart` as the first call, the handler drains and the second request is
started. -/
theorem completion_without_drain :
    SampleAfterCalls.CartRequestsQueue.map (fun Request => (Request.Id, Request.Status)) =
      [(0, EHttpRequestStatus.Processing), (1, EHttpRequestStatus.NotStarted)] ∧
    SampleAfterCreateSucceeded.CartRequestsQueue.map
        (fun Request => (Request.Id, Request.Status)) =
      [(0, EHttpRequestStatus.Succeeded), (1, EHttpRequestStatus.NotStarted)] ∧
    Started SampleAfterCreateSucceeded.Trace = [0] ∧
    SampleAfterCreateUnreadable.CartRequestsQueue.map
        (fun Request => (Request.Id, Request.Status)) =
      [(0, EHttpRequestStatus.Succeeded), (1, EHttpRequestStatus.NotStarted)] ∧
    SampleAfterCreateUnreadable.Trace =
      [FEffect.ProcessRequest 0,
        FEffect.OnCartUpdate
          { cart_id := 7, Items := [{ sku := "sku-1", name := "Sword", quantity := 3 }] },
        FEffect.Error 2 200 0 "Can't deserialize server response"] ∧
    SampleAfterClearSucceeded.CartRequestsQueue.map
        (fun Request => (Request.Id, Request.Status)) =
      [(1, EHttpRequestStatus.Processing)] ∧
    Started SampleAfterClearSucceeded.Trace = [0, 1] := by
  refine ⟨by decide, by decide, by decide, by decide, by decide, by decide, by decide⟩

/-! ## Drain step: results -/

/-- C21: the drain step on any queue. The entries left by `ProcessNextCartRequest` are the
entries whose status was not `Succeeded`, `Failed` or `Failed_ConnectionError`, in their
order. If at least one entry is left and none of them is processing, the head entry, and
only it, is started (`ProcessRequest` is called on it and it is then processing); if no
entry is left, or one of them is processing, no entry is started and the entries left are
as they were. -/
theorem drain_step (s : UXsollaStoreController) :
    (ProcessNextCartRequest s).CartRequestsQueue.map (fun Request => Request.Id) =
      (s.CartRequestsQueue.filter (fun Request => !IsFinished Request.Status)).map
        (fun Request => Request.Id) ∧
    (∀ (Head : IHttpRequest) (Rest : List IHttpRequest),
      s.CartRequestsQueue.filter (fun Request => !IsFinished Request.Status) = Head :: Rest →
      (∀ Request ∈ Head :: Rest, Request.Status ≠ EHttpRequestStatus.Processing) →
      (ProcessNextCartRequest s).CartRequestsQueue =
        { Head with Status := EHttpRequestStatus.Processing } :: Rest ∧
      (ProcessNextCartRequest s).Trace = s.Trace ++ [FEffect.ProcessRequest Head.Id]) ∧
    ((s.CartRequestsQueue.filter (fun Request => !IsFinished Request.Status) = [] ∨
      ∃ Request ∈ s.CartRequestsQueue.filter (fun Request => !IsFinished Request.Status),
        Request.Status = EHttpRequestStatus.Processing) →
      (ProcessNextCartRequest s).CartRequestsQueue =
        s.CartRequestsQueue.filter (fun Request => !IsFinished Request.Status) ∧
      (ProcessNextCartRequest s).Trace = s.Trace) := by
  have hQ := ProcessNextCartRequest_queue s
  have hT := ProcessNextCartRequest_Trace s
  unfold Drain at hT
  cases hF : s.CartRequestsQueue.filter (fun Request => !IsFinished Request.Status) with
  | nil =>
    rw [hF] at hQ hT
    simp only [List.map_nil, List.append_nil] at hQ hT
    refine ⟨by rw [hQ], ?_, fun _ => ⟨hQ, hT⟩⟩
    intro Head Rest hEq
    cases hEq
  | cons Head Rest =>
    rw [hF] at hQ hT
    by_cases hAny : (Head :: Rest).any
        (fun Request => Request.Status == EHttpRequestStatus.Processing) = true
    · simp only [hAny, if_true, List.map_nil, List.append_nil] at hQ hT
      refine ⟨by rw [hQ], ?_, fun _ => ⟨hQ, hT⟩⟩
      intro Head2 Rest2 hEq hNone
      exfalso
      obtain ⟨Request, hMem, hProc⟩ := List.any_eq_true.1 hAny
      cases hEq
      exact hNone Request hMem (by simpa using hProc)
    · simp only [hAny, Bool.false_eq_true, if_false] at hQ hT
      refine ⟨by rw [hQ]; rfl, ?_, ?_⟩
      · intro Head2 Rest2 hEq _
        cases hEq
        exact ⟨hQ, hT⟩
      · intro hOr
        exfalso
        rcases hOr with hNil | ⟨Request, hMem, hProc⟩
        · cases hNil
        · exact hAny (List.any_eq_true.2 ⟨Request, hMem, by simp [hProc]⟩)

/-- C21 at a concrete input: the queue left by the successful `CreateCart` holds the
finished request 0 and the request 1, not started. The drain step removes request 0 and
starts request 1. -/
theorem drain_step_witness :
    (ProcessNextCartRequest SampleAfterCreateSucceeded).CartRequestsQueue.map
        (fun Request => (Request.Id, Request.Status)) =
      [(1, EHttpRequestStatus.Processing)] ∧
    (ProcessNextCartRequest SampleAfterCreateSucceeded).Trace =
      SampleAfterCreateSucceeded.Trace ++ [FEffect.ProcessRequest 1] :=
  have h := (drain_step SampleAfterCreateSucceeded).2.1 _ _ rfl (by decide)
  ⟨by rw [h.1]; rfl, h.2⟩

/-! ## Cart broadcast at call time: results -/

/-- C22 as stated fails for two of the five calls: on the sample controller, whose queue is
empty, `CreateCart` and `UpdateCart` only start their request and broadcast no cart
update before they return. -/
theorem CreateCart_UpdateCart_no_broadcast :
    (CreateCart SampleEngine SampleController "token" 1 2).Trace =
      [FEffect.ProcessRequest 0] ∧
    (UpdateCart SampleEngine SampleController "token" 1 2).Trace =
      [FEffect.ProcessRequest 0] := by
  refine ⟨by decide, by decide⟩

/-- C22, amended: each of the three calls that change the local cart (`ClearCart`,
`AddToCart`, `RemoveFromCart`) adds to the trace, after the calls of `ProcessRequest` made
by the drain step, exactly one cart broadcast, which carries the local cart as the call
leaves it; `CreateCart` and `UpdateCart` add calls of `ProcessRequest` only and leave the
local cart as it is. This holds for every state of the queue, so independently of any
completion. -/
theorem cart_call_broadcast (E : FEngine) (s : UXsollaStoreController)
    (AuthToken ItemSKU : String) (Quantity : Int) (SuccessCallback ErrorCallback : FDelegate) :
    (∃ Ids : List Nat,
      (ClearCart E s AuthToken SuccessCallback ErrorCallback).Trace =
        s.Trace ++ Ids.map FEffect.ProcessRequest ++
          [FEffect.OnCartUpdate (ClearCart E s AuthToken SuccessCallback ErrorCallback).Cart]) ∧
    (∃ Ids : List Nat,
      (AddToCart E s AuthToken ItemSKU Quantity SuccessCallback ErrorCallback).Trace =
        s.Trace ++ Ids.map FEffect.ProcessRequest ++
          [FEffect.OnCartUpdate
            (AddToCart E s AuthToken ItemSKU Quantity SuccessCallback ErrorCallback).Cart]) ∧
    (∃ Ids : List Nat,
      (RemoveFromCart E s AuthToken ItemSKU SuccessCallback ErrorCallback).Trace =
        s.Trace ++ Ids.map FEffect.ProcessRequest ++
          [FEffect.OnCartUpdate
            (RemoveFromCart E s AuthToken ItemSKU SuccessCallback ErrorCallback).Cart]) ∧
    (∃ Ids : List Nat,
      (CreateCart E s AuthToken SuccessCallback ErrorCallback).Trace =
        s.Trace ++ Ids.map FEffect.ProcessRequest) ∧
    (CreateCart E s AuthToken SuccessCallback ErrorCallback).Cart = s.Cart ∧
    (∃ Ids : List Nat,
      (UpdateCart E s AuthToken SuccessCallback ErrorCallback).Trace =
        s.Trace ++ Ids.map FEffect.ProcessRequest) ∧
    (UpdateCart E s AuthToken SuccessCallback ErrorCallback).Cart = s.Cart := by
  refine ⟨?_, ?_, ?_, ?_, ?_, ?_, ?_⟩
  · obtain ⟨Ids, h⟩ := EnqueueCartRequest_Trace { s with CachedAuthToken := AuthToken }
      (CreateHttpRequest E s.NextRequestId
        ("https://store.xsolla.com/api/v1/project/" ++ s.ProjectId ++ "/cart/" ++
          toString s.Cart.cart_id ++ "/clear") ERequestVerb.PUT AuthToken "")
      ECartRequest.ClearCart SuccessCallback ErrorCallback
    have hTrace : (ClearCart E s AuthToken SuccessCallback ErrorCallback).Trace =
        (EnqueueCartRequest { s with CachedAuthToken := AuthToken }
          (CreateHttpRequest E s.NextRequestId
            ("https://store.xsolla.com/api/v1/project/" ++ s.ProjectId ++ "/cart/" ++
              toString s.Cart.cart_id ++ "/clear") ERequestVerb.PUT AuthToken "")
          ECartRequest.ClearCart SuccessCallback ErrorCallback).Trace ++
        [FEffect.OnCartUpdate (ClearCart E s AuthToken SuccessCallback ErrorCallback).Cart] :=
      rfl
    exact ⟨Ids, by rw [hTrace, h]⟩
  · obtain ⟨Ids, h⟩ := EnqueueCartRequest_Trace { s with CachedAuthToken := AuthToken }
      (CreateHttpRequest E s.NextRequestId
        ("https://store.xsolla.com/api/v1/project/" ++ s.ProjectId ++ "/cart/" ++
          toString s.Cart.cart_id ++ "/item/" ++ ItemSKU) ERequestVerb.PUT AuthToken
        (SerializeJson E [("quantity", FJsonValueNumber Quantity)]))
      ECartRequest.AddToCart SuccessCallback ErrorCallback
    have hTrace : (AddToCart E s AuthToken ItemSKU Quantity SuccessCallback
        ErrorCallback).Trace =
        (EnqueueCartRequest { s with CachedAuthToken := AuthToken }
          (CreateHttpRequest E s.NextRequestId
            ("https://store.xsolla.com/api/v1/project/" ++ s.ProjectId ++ "/cart/" ++
              toString s.Cart.cart_id ++ "/item/" ++ ItemSKU) ERequestVerb.PUT AuthToken
            (SerializeJson E [("quantity", FJsonValueNumber Quantity)]))
          ECartRequest.AddToCart SuccessCallback ErrorCallback).Trace ++
        [FEffect.OnCartUpdate
          (AddToCart E s AuthToken ItemSKU Quantity SuccessCallback ErrorCallback).Cart] :=
      rfl
    exact ⟨Ids, by rw [hTrace, h]⟩
  · obtain ⟨Ids, h⟩ := EnqueueCartRequest_Trace { s with CachedAuthToken := AuthToken }
      (CreateHttpRequest E s.NextRequestId
        ("https://store.xsolla.com/api/v1/project/" ++ s.ProjectId ++ "/cart/" ++
          toString s.Cart.cart_id ++ "/item/" ++ ItemSKU) ERequestVerb.DELETE AuthToken "")
      ECartRequest.RemoveFromCart SuccessCallback ErrorCallback
    have hTrace : (RemoveFromCart E s AuthToken ItemSKU SuccessCallback ErrorCallback).Trace =
        (EnqueueCartRequest { s with CachedAuthToken := AuthToken }
          (CreateHttpRequest E s.NextRequestId
            ("https://store.xsolla.com/api/v1/project/" ++ s.ProjectId ++ "/cart/" ++
              toString s.Cart.cart_id ++ "/item/" ++ ItemSKU) ERequestVerb.DELETE AuthToken "")
          ECartRequest.RemoveFromCart SuccessCallback ErrorCallback).Trace ++
        [FEffect.OnCartUpdate
          (RemoveFromCart E s AuthToken ItemSKU SuccessCallback ErrorCallback).Cart] := rfl
    exact ⟨Ids, by rw [hTrace, h]⟩
  · exact EnqueueCartRequest_Trace { s with CachedAuthToken := AuthToken } _ _ _ _
  · exact ProcessNextCartRequest_Cart _
  · exact EnqueueCartRequest_Trace { s with CachedAuthToken := AuthToken } _ _ _ _
  · exact ProcessNextCartRequest_Cart _

/-- C22, amended, at a concrete input: `AddToCart("sku-1", 3)` on the sample controller
broadcasts once, after its request is started, the cart that holds the new line item. -/
theorem cart_call_broadcast_witness :
    (AddToCart SampleEngine SampleController "token" "sku-1" 3 1 2).Trace =
      [FEffect.ProcessRequest 0,
        FEffect.OnCartUpdate
          { cart_id := 7, Items := [{ sku := "sku-1", name := "Sword", quantity := 3 }] }] ∧
    ∃ Ids : List Nat,
      (AddToCart SampleEngine SampleController "token" "sku-1" 3 1 2).Trace =
        SampleController.Trace ++ Ids.map FEffect.ProcessRequest ++
          [FEffect.OnCartUpdate
            (AddToCart SampleEngine SampleController "token" "sku-1" 3 1 2).Cart] :=
  ⟨by decide, (cart_call_broadcast SampleEngine SampleController "token" "sku-1" 3 1 2).2.1⟩

/-! ## Clearing the cart: results -/

/-- C23: `ClearCart` leaves the local cart with the same `cart_id` and no line items, for
every cart. The handler of the clear request, for every outcome, is the call of the error
callback (on a classified error) or of the success callback (otherwise) followed by the
drain step; it leaves the local cart as it is. -/
theorem ClearCart_local_and_completion (E : FEngine) (s : UXsollaStoreController)
    (AuthToken : String) (SuccessCallback ErrorCallback : FDelegate)
    (HttpRequest : Option IHttpRequest) (HttpResponse : Option FHttpResponse)
    (bSucceeded : Bool) :
    (ClearCart E s AuthToken SuccessCallback ErrorCallback).Cart =
      { cart_id := s.Cart.cart_id, Items := [] } ∧
    (ClearCart_HttpRequestComplete E s HttpRequest HttpResponse bSucceeded SuccessCallback
      ErrorCallback).Cart = s.Cart ∧
    ClearCart_HttpRequestComplete E s HttpRequest HttpResponse bSucceeded SuccessCallback
        ErrorCallback =
      ProcessNextCartRequest
        { s with Trace := s.Trace ++
          (if (HandleRequestError E HttpRequest HttpResponse bSucceeded ErrorCallback).1 = true
            then (HandleRequestError E HttpRequest HttpResponse bSucceeded ErrorCallback).2
            else [FEffect.Success SuccessCallback]) } := by
  have hHandler : ClearCart_HttpRequestComplete E s HttpRequest HttpResponse bSucceeded
      SuccessCallback ErrorCallback =
      ProcessNextCartRequest
        { s with Trace := s.Trace ++
          (if (HandleRequestError E HttpRequest HttpResponse bSucceeded ErrorCallback).1 = true
            then (HandleRequestError E HttpRequest HttpResponse bSucceeded ErrorCallback).2
            else [FEffect.Success SuccessCallback]) } := by
    rcases HandleRequestError_calls_once_iff_true E HttpRequest HttpResponse bSucceeded
      ErrorCallback with ⟨hTrue, _⟩ | hFalse
    · simp only [ClearCart_HttpRequestComplete, UXsollaStoreController.HandleRequestError,
        hTrue, if_true]
    · simp [ClearCart_HttpRequestComplete, UXsollaStoreController.HandleRequestError, hFalse]
  refine ⟨?_, ?_, hHandler⟩
  · simp [ClearCart, EnqueueCartRequest, ProcessNextCartRequest_Cart]
  · rw [hHandler, ProcessNextCartRequest_Cart]

/-! ## Item groups: results -/

/-- The two ways in which the handler of the item-groups request ends: with the success
callback, after the cached groups were replaced by the groups converted from the body, or
with one call of the error callback and nothing else changed. -/
theorem UpdateItemGroups_HttpRequestComplete_cases (E : FEngine) (s : UXsollaStoreController)
    (HttpRequest : Option IHttpRequest) (HttpResponse : Option FHttpResponse) (bSucceeded : Bool)
    (SuccessCallback ErrorCallback : FDelegate) :
    (∃ (Response : FHttpResponse) (JsonObject : FJsonObject) (GroupsData : FStoreItemsData),
      HttpResponse = some Response ∧
      E.Deserialize Response.ContentAsString = some JsonObject ∧
      E.JsonObjectToItemsData JsonObject {} = (true, GroupsData) ∧
      UpdateItemGroups_HttpRequestComplete E s HttpRequest HttpResponse bSucceeded
          SuccessCallback ErrorCallback =
        { s with
          ItemsData := { s.ItemsData with Groups := GroupsData.Groups }
          Trace := s.Trace ++ [FEffect.Success SuccessCallback] }) ∨
    (∃ (StatusCode ErrorCode : Int) (ErrorMessage : String),
      UpdateItemGroups_HttpRequestComplete E s HttpRequest HttpResponse bSucceeded
          SuccessCallback ErrorCallback =
        { s with Trace := s.Trace ++
          [FEffect.Error ErrorCallback StatusCode ErrorCode ErrorMessage] }) := by
  rcases HandleRequestError_calls_once_iff_true E HttpRequest HttpResponse bSucceeded
    ErrorCallback with ⟨hTrue, StatusCode, ErrorCode, ErrorMessage, hCalls⟩ | hFalse
  · right
    refine ⟨StatusCode, ErrorCode, ErrorMessage, ?_⟩
    simp only [UpdateItemGroups_HttpRequestComplete, UXsollaStoreController.HandleRequestError,
      hTrue, hCalls]
  · cases HttpResponse with
    | none =>
      exfalso
      cases bSucceeded <;> simp [HandleRequestError, HandleRequestError.locals] at hFalse
    | some Response =>
      cases hJson : E.Deserialize Response.ContentAsString with
      | none =>
        right
        refine ⟨Response.ResponseCode, 0, "Can't deserialize server response", ?_⟩
        simp [UpdateItemGroups_HttpRequestComplete, UXsollaStoreController.HandleRequestError,
          hFalse, hJson]
      | some JsonObject =>
        cases hConvert : E.JsonObjectToItemsData JsonObject {} with
        | mk Flag GroupsData =>
          cases Flag with
          | false =>
            right
            refine ⟨Response.ResponseCode, 0, "Can't convert server response to struct", ?_⟩
            simp [UpdateItemGroups_HttpRequestComplete,
              UXsollaStoreController.HandleRequestError, hFalse, hJson, hConvert]
          | true =>
            left
            refine ⟨Response, JsonObject, GroupsData, rfl, hJson, hConvert, ?_⟩
            simp [UpdateItemGroups_HttpRequestComplete,
              UXsollaStoreController.HandleRequestError, hFalse, hJson, hConvert]

/-- C24: the handler of the item-groups request. For every outcome the cached items, the
set of group ids, the inventory, the currency caches, the cart and the request queue are
as before. The handler ends in one of two ways: it calls the success callback, and then
the cached groups are the groups converted from the response body; or it calls the error
callback once, and then every cache, the groups included, is as before. On a success
status code with a body that deserialises and converts, it ends in the first way. -/
theorem UpdateItemGroups_replaces_groups_only (E : FEngine) (s : UXsollaStoreController)
    (HttpRequest : Option IHttpRequest) (HttpResponse : Option FHttpResponse) (bSucceeded : Bool)
    (SuccessCallback ErrorCallback : FDelegate) :
    ((UpdateItemGroups_HttpRequestComplete E s HttpRequest HttpResponse bSucceeded
        SuccessCallback ErrorCallback).ItemsData.Items = s.ItemsData.Items ∧
      (UpdateItemGroups_HttpRequestComplete E s HttpRequest HttpResponse bSucceeded
        SuccessCallback ErrorCallback).ItemsData.GroupIds = s.ItemsData.GroupIds ∧
      (UpdateItemGroups_HttpRequestComplete E s HttpRequest HttpResponse bSucceeded
        SuccessCallback ErrorCallback).Inventory = s.Inventory ∧
      (UpdateItemGroups_HttpRequestComplete E s HttpRequest HttpResponse bSucceeded
        SuccessCallback ErrorCallback).VirtualCurrencyData = s.VirtualCurrencyData ∧
      (UpdateItemGroups_HttpRequestComplete E s HttpRequest HttpResponse bSucceeded
        SuccessCallback ErrorCallback).VirtualCurrencyPackages = s.VirtualCurrencyPackages ∧
      (UpdateItemGroups_HttpRequestComplete E s HttpRequest HttpResponse bSucceeded
        SuccessCallback ErrorCallback).VirtualCurrencyBalance = s.VirtualCurrencyBalance ∧
      (UpdateItemGroups_HttpRequestComplete E s HttpRequest HttpResponse bSucceeded
        SuccessCallback ErrorCallback).Cart = s.Cart ∧
      (UpdateItemGroups_HttpRequestComplete E s HttpRequest HttpResponse bSucceeded
        SuccessCallback ErrorCallback).CartRequestsQueue = s.CartRequestsQueue) ∧
    ((∃ (Response : FHttpResponse) (JsonObject : FJsonObject) (GroupsData : FStoreItemsData),
        HttpResponse = some Response ∧
        E.Deserialize Response.ContentAsString = some JsonObject ∧
        E.JsonObjectToItemsData JsonObject {} = (true, GroupsData) ∧
        UpdateItemGroups_HttpRequestComplete E s HttpRequest HttpResponse bSucceeded
            SuccessCallback ErrorCallback =
          { s with
            ItemsData := { s.ItemsData with Groups := GroupsData.Groups }
            Trace := s.Trace ++ [FEffect.Success SuccessCallback] }) ∨
      (∃ (StatusCode ErrorCode : Int) (ErrorMessage : String),
        UpdateItemGroups_HttpRequestComplete E s HttpRequest HttpResponse bSucceeded
            SuccessCallback ErrorCallback =
          { s with Trace := s.Trace ++
            [FEffect.Error ErrorCallback StatusCode ErrorCode ErrorMessage] })) ∧
    (∀ (Response : FHttpResponse) (JsonObject : FJsonObject) (GroupsData : FStoreItemsData),
      E.IsOk Response.ResponseCode = true →
      E.Deserialize Response.ContentAsString = some JsonObject →
      E.JsonObjectToItemsData JsonObject {} = (true, GroupsData) →
      UpdateItemGroups_HttpRequestComplete E s HttpRequest (some Response) true
          SuccessCallback ErrorCallback =
        { s with
          ItemsData := { s.ItemsData with Groups := GroupsData.Groups }
          Trace := s.Trace ++ [FEffect.Success SuccessCallback] }) := by
  have hCases := UpdateItemGroups_HttpRequestComplete_cases E s HttpRequest HttpResponse
    bSucceeded SuccessCallback ErrorCallback
  refine ⟨?_, hCases, ?_⟩
  · rcases hCases with ⟨_, _, _, _, _, _, h⟩ | ⟨_, _, _, h⟩ <;> rw [h] <;>
      exact ⟨rfl, rfl, rfl, rfl, rfl, rfl, rfl, rfl⟩
  · intro Response JsonObject GroupsData hCode hJson hConvert
    simp [UpdateItemGroups_HttpRequestComplete, UXsollaStoreController.HandleRequestError,
      HandleRequestError_ok E HttpRequest Response ErrorCallback hCode, hJson, hConvert]

/-- C24 at a concrete input: status 200 with the body `{"groups": ["weapons"]}` on the
sample controller replaces the cached groups by the one group `weapons` and keeps the
cached item. -/
theorem UpdateItemGroups_replaces_groups_only_witness :
    UpdateItemGroups_HttpRequestComplete SampleEngine SampleController none
        (some { ResponseCode := 200, ContentAsString := "\x7b\"groups\": [\"weapons\"]\x7d" })
        true 1 2 =
      { SampleController with
        ItemsData :=
          { SampleController.ItemsData with Groups := [{ external_id := "weapons" }] }
        Trace := SampleController.Trace ++ [FEffect.Success 1] } :=
  (UpdateItemGroups_replaces_groups_only SampleEngine SampleController none
    (some { ResponseCode := 200, ContentAsString := "\x7b\"groups\": [\"weapons\"]\x7d" })
    true 1 2).2.2
    { ResponseCode := 200, ContentAsString := "\x7b\"groups\": [\"weapons\"]\x7d" }
    [("groups", FJsonValueArray [FJsonValueString "weapons"])]
    { Groups := [{ external_id := "weapons" }] } (by decide) rfl rfl

/-! ## Request builder: results -/

/-- The URL of a request as `CreateHttpRequest` returns it. -/
theorem CreateHttpRequest_URL (E : FEngine) (Id : Nat) (Url : String) (Verb : ERequestVerb)
    (AuthToken Content : String) :
    (CreateHttpRequest E Id Url Verb AuthToken Content).URL =
      Url ++ ((if Url.toList.contains '?' then "&" else "?") ++ "engine=ue4&engine_v=" ++
        E.ENGINE_VERSION_STRING ++ "&sdk=store&sdk_v=" ++ E.XSOLLA_STORE_VERSION) := by
  unfold CreateHttpRequest
  cases Verb <;> by_cases hA : AuthToken = "" <;> by_cases hC : Content = "" <;>
    simp [IHttpRequest.SetHeader, hA, hC]

/-- C25: for every input URL, `CreateHttpRequest` sets the URL of the request to the input
followed by a separator and the text `engine=ue4&engine_v=<engine version>&sdk=store&sdk_v=
<sdk version>`; the separator is `&` if the input contains the character `?` and `?`
otherwise. The resulting URL contains `?` and has the input as a prefix. -/
theorem request_url (E : FEngine) (Id : Nat) (Url : String) (Verb : ERequestVerb)
    (AuthToken Content : String) :
    (CreateHttpRequest E Id Url Verb AuthToken Content).URL =
      Url ++ (if Url.toList.contains '?' then "&" else "?") ++
        ("engine=ue4&engine_v=" ++ E.ENGINE_VERSION_STRING ++ "&sdk=store&sdk_v=" ++
          E.XSOLLA_STORE_VERSION) ∧
    '?' ∈ (CreateHttpRequest E Id Url Verb AuthToken Content).URL.toList ∧
    Url.toList <+: (CreateHttpRequest E Id Url Verb AuthToken Content).URL.toList := by
  rw [CreateHttpRequest_URL]
  refine ⟨?_, ?_, ?_⟩
  · simp only [String.append_assoc]
  · by_cases hContains : Url.toList.contains '?' = true
    · have hMem : '?' ∈ Url.data := by simpa using hContains
      simp [hMem]
    · have hNot : '?' ∉ Url.data := by simpa using hContains
      simp [hNot]
  · exact ⟨_, (String.data_append _ _).symm⟩

/-- The headers of a request as `CreateHttpRequest` returns it: the four meta headers,
then `Authorization` when the token is not empty, then `Content-Type` when the content is
not empty. -/
theorem CreateHttpRequest_Headers (E : FEngine) (Id : Nat) (Url : String) (Verb : ERequestVerb)
    (AuthToken Content : String) :
    (CreateHttpRequest E Id Url Verb AuthToken Content).Headers =
      [("X-ENGINE", "UE4"), ("X-ENGINE-V", E.ENGINE_VERSION_STRING), ("X-SDK", "STORE"),
        ("X-SDK-V", E.XSOLLA_STORE_VERSION)] ++
      (if AuthToken ≠ "" then [("Authorization", "Bearer " ++ AuthToken)] else []) ++
      (if Content ≠ "" then [("Content-Type", "application/json")] else []) := by
  unfold CreateHttpRequest
  cases Verb <;> by_cases hA : AuthToken = "" <;> by_cases hC : Content = "" <;>
    simp [IHttpRequest.SetHeader, hA, hC]

/-- C26: for every verb, token and content, the request built by `CreateHttpRequest` has
the four meta headers followed by the header `Authorization` with the value `Bearer ` and
the token exactly when the token is not empty, and by the header `Content-Type` with the
value `application/json` exactly when the content is not empty; its content is the content
passed in (so the content is attached for every verb, `GET` included, and is empty when
none was passed), and its verb is the one asked for. -/
theorem request_headers_and_body (E : FEngine) (Id : Nat) (Url : String) (Verb : ERequestVerb)
    (AuthToken Content : String) :
    (CreateHttpRequest E Id Url Verb AuthToken Content).Headers =
      [("X-ENGINE", "UE4"), ("X-ENGINE-V", E.ENGINE_VERSION_STRING), ("X-SDK", "STORE"),
        ("X-SDK-V", E.XSOLLA_STORE_VERSION)] ++
      (if AuthToken ≠ "" then [("Authorization", "Bearer " ++ AuthToken)] else []) ++
      (if Content ≠ "" then [("Content-Type", "application/json")] else []) ∧
    ((∃ Value, ("Authorization", Value) ∈
        (CreateHttpRequest E Id Url Verb AuthToken Content).Headers) ↔ AuthToken ≠ "") ∧
    ((∃ Value, ("Content-Type", Value) ∈
        (CreateHttpRequest E Id Url Verb AuthToken Content).Headers) ↔ Content ≠ "") ∧
    (CreateHttpRequest E Id Url Verb AuthToken Content).Content = Content ∧
    (CreateHttpRequest E Id Url ERequestVerb.GET AuthToken Content).Content = Content ∧
    (CreateHttpRequest E Id Url Verb AuthToken Content).Verb =
      (match Verb with
        | ERequestVerb.GET => "GET"
        | ERequestVerb.POST => "POST"
        | ERequestVerb.PUT => "PUT"
        | ERequestVerb.DELETE => "DELETE") := by
  refine ⟨CreateHttpRequest_Headers E Id Url Verb AuthToken Content, ?_, ?_,
    CreateHttpRequest_Content E Id Url Verb AuthToken Content,
    CreateHttpRequest_Content E Id Url ERequestVerb.GET AuthToken Content, ?_⟩
  · rw [CreateHttpRequest_Headers]
    by_cases hA : AuthToken = "" <;> by_cases hC : Content = "" <;> simp [hA, hC]
  · rw [CreateHttpRequest_Headers]
    by_cases hA : AuthToken = "" <;> by_cases hC : Content = "" <;> simp [hA, hC]
  · unfold CreateHttpRequest
    cases Verb <;> by_cases hA : AuthToken = "" <;> by_cases hC : Content = "" <;>
      simp [IHttpRequest.SetHeader, hA, hC]

/-! ## Completions outside the cart queue: auxiliary facts -/

/-- The handler of the inventory request leaves the cart request queue as it is and
starts no request, for every outcome. -/
theorem UpdateInventory_HttpRequestComplete_queue (E : FEngine) (s : UXsollaStoreController)
    (HttpRequest : Option IHttpRequest) (HttpResponse : Option FHttpResponse) (bSucceeded : Bool)
    (SuccessCallback ErrorCallback : FDelegate) :
    (UpdateInventory_HttpRequestComplete E s HttpRequest HttpResponse bSucceeded
      SuccessCallback ErrorCallback).CartRequestsQueue = s.CartRequestsQueue ∧
    Started (UpdateInventory_HttpRequestComplete E s HttpRequest HttpResponse bSucceeded
      SuccessCallback ErrorCallback).Trace = Started s.Trace := by
  rcases HandleRequestError_calls_once_iff_true E HttpRequest HttpResponse bSucceeded
    ErrorCallback with ⟨hTrue, _, _, _, hCalls⟩ | hFalse
  · simp [UpdateInventory_HttpRequestComplete, UXsollaStoreController.HandleRequestError,
      hTrue, hCalls, Started_append, Started]
  · simp only [UpdateInventory_HttpRequestComplete, UXsollaStoreController.HandleRequestError,
      hFalse]
    repeat' split
    all_goals simp [Started_append, Started]

/-- The handler of the virtual-items request leaves the cart request queue as it is and starts no
request, for every outcome. -/
theorem UpdateVirtualItems_HttpRequestComplete_queue (E : FEngine) (s : UXsollaStoreController)
    (HttpRequest : Option IHttpRequest) (HttpResponse : Option FHttpResponse) (bSucceeded : Bool)
    (SuccessCallback ErrorCallback : FDelegate) :
    (UpdateVirtualItems_HttpRequestComplete E s HttpRequest HttpResponse bSucceeded
      SuccessCallback ErrorCallback).CartRequestsQueue = s.CartRequestsQueue ∧
    Started (UpdateVirtualItems_HttpRequestComplete E s HttpRequest HttpResponse bSucceeded
      SuccessCallback ErrorCallback).Trace = Started s.Trace := by
  rcases HandleRequestError_calls_once_iff_true E HttpRequest HttpResponse bSucceeded
    ErrorCallback with ⟨hTrue, _, _, _, hCalls⟩ | hFalse
  · simp [UpdateVirtualItems_HttpRequestComplete, UXsollaStoreController.HandleRequestError,
      hTrue, hCalls, Started_append, Started]
  · simp only [UpdateVirtualItems_HttpRequestComplete, UXsollaStoreController.HandleRequestError,
      hFalse]
    repeat' split
    all_goals simp [Started_append, Started]

/-- The handler of the item-groups request leaves the cart request queue as it is and starts no
request, for every outcome. -/
theorem UpdateItemGroups_HttpRequestComplete_queue (E : FEngine) (s : UXsollaStoreController)
    (HttpRequest : Option IHttpRequest) (HttpResponse : Option FHttpResponse) (bSucceeded : Bool)
    (SuccessCallback ErrorCallback : FDelegate) :
    (UpdateItemGroups_HttpRequestComplete E s HttpRequest HttpResponse bSucceeded
      SuccessCallback ErrorCallback).CartRequestsQueue = s.CartRequestsQueue ∧
    Started (UpdateItemGroups_HttpRequestComplete E s HttpRequest HttpResponse bSucceeded
      SuccessCallback ErrorCallback).Trace = Started s.Trace := by
  rcases HandleRequestError_calls_once_iff_true E HttpRequest HttpResponse bSucceeded
    ErrorCallback with ⟨hTrue, _, _, _, hCalls⟩ | hFalse
  · simp [UpdateItemGroups_HttpRequestComplete, UXsollaStoreController.HandleRequestError,
      hTrue, hCalls, Started_append, Started]
  · simp only [UpdateItemGroups_HttpRequestComplete, UXsollaStoreController.HandleRequestError,
      hFalse]
    repeat' split
    all_goals simp [Started_append, Started]

/-- The handler of the virtual-currencies request leaves the cart request queue as it is and starts no
request, for every outcome. -/
theorem UpdateVirtualCurrencies_HttpRequestComplete_queue (E : FEngine) (s : UXsollaStoreController)
    (HttpRequest : Option IHttpRequest) (HttpResponse : Option FHttpResponse) (bSucceeded : Bool)
    (SuccessCallback ErrorCallback : FDelegate) :
    (UpdateVirtualCurrencies_HttpRequestComplete E s HttpRequest HttpResponse bSucceeded
      SuccessCallback ErrorCallback).CartRequestsQueue = s.CartRequestsQueue ∧
    Started (UpdateVirtualCurrencies_HttpRequestComplete E s HttpRequest HttpResponse bSucceeded
      SuccessCallback ErrorCallback).Trace = Started s.Trace := by
  rcases HandleRequestError_calls_once_iff_true E HttpRequest HttpResponse bSucceeded
    ErrorCallback with ⟨hTrue, _, _, _, hCalls⟩ | hFalse
  · simp [UpdateVirtualCurrencies_HttpRequestComplete, UXsollaStoreController.HandleRequestError,
      hTrue, hCalls, Started_append, Started]
  · simp only [UpdateVirtualCurrencies_HttpRequestComplete, UXsollaStoreController.HandleRequestError,
      hFalse]
    repeat' split
    all_goals simp [Started_append, Started]

/-- The handler of the currency-packages request leaves the cart request queue as it is and starts no
request, for every outcome. -/
theorem UpdateVirtualCurrencyPackages_HttpRequestComplete_queue (E : FEngine) (s : UXsollaStoreController)
    (HttpRequest : Option IHttpRequest) (HttpResponse : Option FHttpResponse) (bSucceeded : Bool)
    (SuccessCallback ErrorCallback : FDelegate) :
    (UpdateVirtualCurrencyPackages_HttpRequestComplete E s HttpRequest HttpResponse bSucceeded
      SuccessCallback ErrorCallback).CartRequestsQueue = s.CartRequestsQueue ∧
    Started (UpdateVirtualCurrencyPackages_HttpRequestComplete E s HttpRequest HttpResponse bSucceeded
      SuccessCallback ErrorCallback).Trace = Started s.Trace := by
  rcases HandleRequestError_calls_once_iff_true E HttpRequest HttpResponse bSucceeded
    ErrorCallback with ⟨hTrue, _, _, _, hCalls⟩ | hFalse
  · simp [UpdateVirtualCurrencyPackages_HttpRequestComplete, UXsollaStoreController.HandleRequestError,
      hTrue, hCalls, Started_append, Started]
  · simp only [UpdateVirtualCurrencyPackages_HttpRequestComplete, UXsollaStoreController.HandleRequestError,
      hFalse]
    repeat' split
    all_goals simp [Started_append, Started]

/-- The handler of the currency-balance request leaves the cart request queue as it is and starts no
request, for every outcome. -/
theorem UpdateVirtualCurrencyBalance_HttpRequestComplete_queue (E : FEngine) (s : UXsollaStoreController)
    (HttpRequest : Option IHttpRequest) (HttpResponse : Option FHttpResponse) (bSucceeded : Bool)
    (SuccessCallback ErrorCallback : FDelegate) :
    (UpdateVirtualCurrencyBalance_HttpRequestComplete E s HttpRequest HttpResponse bSucceeded
      SuccessCallback ErrorCallback).CartRequestsQueue = s.CartRequestsQueue ∧
    Started (UpdateVirtualCurrencyBalance_HttpRequestComplete E s HttpRequest HttpResponse bSucceeded
      SuccessCallback ErrorCallback).Trace = Started s.Trace := by
  rcases HandleRequestError_calls_once_iff_true E HttpRequest HttpResponse bSucceeded
    ErrorCallback with ⟨hTrue, _, _, _, hCalls⟩ | hFalse
  · simp [UpdateVirtualCurrencyBalance_HttpRequestComplete, UXsollaStoreController.HandleRequestError,
      hTrue, hCalls, Started_append, Started]
  · simp only [UpdateVirtualCurrencyBalance_HttpRequestComplete, UXsollaStoreController.HandleRequestError,
      hFalse]
    repeat' split
    all_goals simp [Started_append, Started]

/-- The handler of the payment-token request leaves the cart request queue as it is and starts no
request, for every outcome. -/
theorem FetchPaymentToken_HttpRequestComplete_queue (E : FEngine) (s : UXsollaStoreController)
    (HttpRequest : Option IHttpRequest) (HttpResponse : Option FHttpResponse) (bSucceeded : Bool)
    (SuccessCallback ErrorCallback : FDelegate) :
    (FetchPaymentToken_HttpRequestComplete E s HttpRequest HttpResponse bSucceeded
      SuccessCallback ErrorCallback).CartRequestsQueue = s.CartRequestsQueue ∧
    Started (FetchPaymentToken_HttpRequestComplete E s HttpRequest HttpResponse bSucceeded
      SuccessCallback ErrorCallback).Trace = Started s.Trace := by
  rcases HandleRequestError_calls_once_iff_true E HttpRequest HttpResponse bSucceeded
    ErrorCallback with ⟨hTrue, _, _, _, hCalls⟩ | hFalse
  · simp [FetchPaymentToken_HttpRequestComplete, UXsollaStoreController.HandleRequestError,
      hTrue, hCalls, Started_append, Started]
  · simp only [FetchPaymentToken_HttpRequestComplete, UXsollaStoreController.HandleRequestError,
      hFalse]
    repeat' split
    all_goals simp [Started_append, Started]

/-- The handler of the order check leaves the cart request queue as it is and starts no
request, for every outcome. -/
theorem CheckOrder_HttpRequestComplete_queue (E : FEngine) (s : UXsollaStoreController)
    (HttpRequest : Option IHttpRequest) (HttpResponse : Option FHttpResponse) (bSucceeded : Bool)
    (SuccessCallback ErrorCallback : FDelegate) :
    (CheckOrder_HttpRequestComplete E s HttpRequest HttpResponse bSucceeded
      SuccessCallback ErrorCallback).CartRequestsQueue = s.CartRequestsQueue ∧
    Started (CheckOrder_HttpRequestComplete E s HttpRequest HttpResponse bSucceeded
      SuccessCallback ErrorCallback).Trace = Started s.Trace := by
  rcases HandleRequestError_calls_once_iff_true E HttpRequest HttpResponse bSucceeded
    ErrorCallback with ⟨hTrue, _, _, _, hCalls⟩ | hFalse
  · simp [CheckOrder_HttpRequestComplete, UXsollaStoreController.HandleRequestError,
      hTrue, hCalls, Started_append, Started]
  · simp only [CheckOrder_HttpRequestComplete, UXsollaStoreController.HandleRequestError,
      hFalse]
    repeat' split
    all_goals simp [Started_append, Started]

/-- The handler of the consume request leaves the cart request queue as it is and starts no
request, for every outcome. -/
theorem ConsumeInventoryItem_HttpRequestComplete_queue (E : FEngine) (s : UXsollaStoreController)
    (HttpRequest : Option IHttpRequest) (HttpResponse : Option FHttpResponse) (bSucceeded : Bool)
    (SuccessCallback ErrorCallback : FDelegate) :
    (ConsumeInventoryItem_HttpRequestComplete E s HttpRequest HttpResponse bSucceeded
      SuccessCallback ErrorCallback).CartRequestsQueue = s.CartRequestsQueue ∧
    Started (ConsumeInventoryItem_HttpRequestComplete E s HttpRequest HttpResponse bSucceeded
      SuccessCallback ErrorCallback).Trace = Started s.Trace := by
  rcases HandleRequestError_calls_once_iff_true E HttpRequest HttpResponse bSucceeded
    ErrorCallback with ⟨hTrue, _, _, _, hCalls⟩ | hFalse
  · simp [ConsumeInventoryItem_HttpRequestComplete, UXsollaStoreController.HandleRequestError,
      hTrue, hCalls, Started_append, Started]
  · simp [ConsumeInventoryItem_HttpRequestComplete, UXsollaStoreController.HandleRequestError,
      hFalse, Started_append, Started]

/-- The handler of the purchase request leaves the cart request queue as it is and starts no
request, for every outcome. -/
theorem BuyItemWithVirtualCurrency_HttpRequestComplete_queue (E : FEngine) (s : UXsollaStoreController)
    (HttpRequest : Option IHttpRequest) (HttpResponse : Option FHttpResponse) (bSucceeded : Bool)
    (SuccessCallback ErrorCallback : FDelegate) :
    (BuyItemWithVirtualCurrency_HttpRequestComplete E s HttpRequest HttpResponse bSucceeded
      SuccessCallback ErrorCallback).CartRequestsQueue = s.CartRequestsQueue ∧
    Started (BuyItemWithVirtualCurrency_HttpRequestComplete E s HttpRequest HttpResponse bSucceeded
      SuccessCallback ErrorCallback).Trace = Started s.Trace := by
  rcases HandleRequestError_calls_once_iff_true E HttpRequest HttpResponse bSucceeded
    ErrorCallback with ⟨hTrue, _, _, _, hCalls⟩ | hFalse
  · simp [BuyItemWithVirtualCurrency_HttpRequestComplete, UXsollaStoreController.HandleRequestError,
      hTrue, hCalls, Started_append, Started]
  · simp only [BuyItemWithVirtualCurrency_HttpRequestComplete, UXsollaStoreController.HandleRequestError,
      hFalse]
    repeat' split
    all_goals simp [Started_append, Started]

/-- The handler of the currency lookup: on a classified error it is the call of the error
callback followed by the drain step of the cart queue; otherwise it leaves the cart
request queue as it is and starts no request. -/
theorem GetVirtualCurrency_HttpRequestComplete_queue (E : FEngine) (s : UXsollaStoreController)
    (HttpRequest : Option IHttpRequest) (HttpResponse : Option FHttpResponse) (bSucceeded : Bool)
    (SuccessCallback ErrorCallback : FDelegate) :
    ((HandleRequestError E HttpRequest HttpResponse bSucceeded ErrorCallback).1 = true →
      GetVirtualCurrency_HttpRequestComplete E s HttpRequest HttpResponse bSucceeded SuccessCallback
          ErrorCallback =
        ProcessNextCartRequest
          { s with Trace := s.Trace ++
            (HandleRequestError E HttpRequest HttpResponse bSucceeded ErrorCallback).2 }) ∧
    ((HandleRequestError E HttpRequest HttpResponse bSucceeded ErrorCallback).1 = false →
      (GetVirtualCurrency_HttpRequestComplete E s HttpRequest HttpResponse bSucceeded
        SuccessCallback ErrorCallback).CartRequestsQueue = s.CartRequestsQueue ∧
      Started (GetVirtualCurrency_HttpRequestComplete E s HttpRequest HttpResponse bSucceeded
        SuccessCallback ErrorCallback).Trace = Started s.Trace) := by
  refine ⟨?_, ?_⟩
  · intro hTrue
    simp only [GetVirtualCurrency_HttpRequestComplete, UXsollaStoreController.HandleRequestError, hTrue]
  · intro hFalse
    have hEq : HandleRequestError E HttpRequest HttpResponse bSucceeded ErrorCallback =
        (false, []) := by
      rcases HandleRequestError_calls_once_iff_true E HttpRequest HttpResponse bSucceeded
        ErrorCallback with ⟨hTrue, _⟩ | h
      · rw [hTrue] at hFalse
        cases hFalse
      · exact h
    simp only [GetVirtualCurrency_HttpRequestComplete, UXsollaStoreController.HandleRequestError, hEq]
    repeat' split
    all_goals simp [Started_append, Started]

/-- The handler of the currency-package lookup: on a classified error it is the call of the error
callback followed by the drain step of the cart queue; otherwise it leaves the cart
request queue as it is and starts no request. -/
theorem GetVirtualCurrencyPackage_HttpRequestComplete_queue (E : FEngine) (s : UXsollaStoreController)
    (HttpRequest : Option IHttpRequest) (HttpResponse : Option FHttpResponse) (bSucceeded : Bool)
    (SuccessCallback ErrorCallback : FDelegate) :
    ((HandleRequestError E HttpRequest HttpResponse bSucceeded ErrorCallback).1 = true →
      GetVirtualCurrencyPackage_HttpRequestComplete E s HttpRequest HttpResponse bSucceeded SuccessCallback
          ErrorCallback =
        ProcessNextCartRequest
          { s with Trace := s.Trace ++
            (HandleRequestError E HttpRequest HttpResponse bSucceeded ErrorCallback).2 }) ∧
    ((HandleRequestError E HttpRequest HttpResponse bSucceeded ErrorCallback).1 = false →
      (GetVirtualCurrencyPackage_HttpRequestComplete E s HttpRequest HttpResponse bSucceeded
        SuccessCallback ErrorCallback).CartRequestsQueue = s.CartRequestsQueue ∧
      Started (GetVirtualCurrencyPackage_HttpRequestComplete E s HttpRequest HttpResponse bSucceeded
        SuccessCallback ErrorCallback).Trace = Started s.Trace) := by
  refine ⟨?_, ?_⟩
  · intro hTrue
    simp only [GetVirtualCurrencyPackage_HttpRequestComplete, UXsollaStoreController.HandleRequestError, hTrue]
  · intro hFalse
    have hEq : HandleRequestError E HttpRequest HttpResponse bSucceeded ErrorCallback =
        (false, []) := by
      rcases HandleRequestError_calls_once_iff_true E HttpRequest HttpResponse bSucceeded
        ErrorCallback with ⟨hTrue, _⟩ | h
      · rw [hTrue] at hFalse
        cases hFalse
      · exact h
    simp only [GetVirtualCurrencyPackage_HttpRequestComplete, UXsollaStoreController.HandleRequestError, hEq]
    repeat' split
    all_goals simp [Started_append, Started]

/-! ## Completions outside the cart queue: results -/

/-- C27, evaluated at the failing input. After `CreateCart` then `AddToCart("sku-1", 3)`
and the successful completion of the first request, the cart queue holds request 0,
finished, and request 1, not started. The completion of a currency lookup, and likewise of
a currency-package lookup, that failed without a response then removes request 0 from the
cart queue and starts request 1, after its call of the error callback. The handler of the
order check on the same input leaves the cart queue as it is. -/
theorem non_cart_completion_drains_cart_queue :
    SampleAfterCreateSucceeded.CartRequestsQueue.map
        (fun Request => (Request.Id, Request.Status)) =
      [(0, EHttpRequestStatus.Succeeded), (1, EHttpRequestStatus.NotStarted)] ∧
    SampleAfterCurrencyFailed.CartRequestsQueue.map
        (fun Request => (Request.Id, Request.Status)) =
      [(1, EHttpRequestStatus.Processing)] ∧
    SampleAfterCurrencyFailed.Trace =
      SampleAfterCreateSucceeded.Trace ++
        [FEffect.Error 6 204 0 "No response", FEffect.ProcessRequest 1] ∧
    SampleAfterCurrencyPackageFailed.CartRequestsQueue.map
        (fun Request => (Request.Id, Request.Status)) =
      [(1, EHttpRequestStatus.Processing)] ∧
    SampleAfterCurrencyPackageFailed.Trace =
      SampleAfterCreateSucceeded.Trace ++
        [FEffect.Error 6 204 0 "No response", FEffect.ProcessRequest 1] ∧
    (CheckOrder_HttpRequestComplete SampleEngine SampleAfterCreateSucceeded none none false 5
      6).CartRequestsQueue = SampleAfterCreateSucceeded.CartRequestsQueue := by
  refine ⟨by decide, by decide, by decide, by decide, by decide, by decide⟩

/-! ## Invariants of the local cart: auxiliary facts -/

/-- The local update of `AddToCart` ends in one of three ways: the first line item with
the sku has its quantity set, or no line item has the sku and a line item with the sku
and the clamped quantity is appended, or no line item has the sku and the items are
unchanged; skus are compared as the engine compares them. -/
theorem updateItems_cases (Items : List FStoreCartItem) (ItemsData : FStoreItemsData)
    (VirtualCurrencyPackages : FVirtualCurrencyPackagesData) (ItemSKU : String)
    (Quantity : Int) :
    (∃ i : Nat,
      FindByPredicate (fun InItem : FStoreCartItem => FString.Equals InItem.sku ItemSKU)
        Items = some i ∧
      AddToCart.updateItems Items ItemsData VirtualCurrencyPackages ItemSKU Quantity =
        Items.modify (fun CartItem => { CartItem with quantity := max 0 Quantity }) i) ∨
    ((∀ Item ∈ Items, FString.Equals Item.sku ItemSKU = false) ∧
      ((∃ New : FStoreCartItem, FString.Equals New.sku ItemSKU = true ∧
          New.quantity = max 0 Quantity ∧
          AddToCart.updateItems Items ItemsData VirtualCurrencyPackages ItemSKU Quantity =
            Items ++ [New]) ∨
        AddToCart.updateItems Items ItemsData VirtualCurrencyPackages ItemSKU Quantity =
          Items)) := by
  cases hFind : FindByPredicate
      (fun InItem : FStoreCartItem => FString.Equals InItem.sku ItemSKU) Items with
  | some i =>
    left
    exact ⟨i, rfl, by simp only [AddToCart.updateItems, hFind]⟩
  | none =>
    right
    have hNone := (FindByPredicate_eq_none _ _).1 hFind
    refine ⟨fun Item hMem => hNone Item hMem, ?_⟩
    cases hStore : ItemsData.Items.find? (fun InItem => FString.Equals InItem.sku ItemSKU) with
    | some StoreItem =>
      left
      have hSku : FString.Equals StoreItem.sku ItemSKU = true :=
        @List.find?_some _ (fun InItem : FStoreItem => FString.Equals InItem.sku ItemSKU) _ _
          hStore
      refine ⟨{ FStoreCartItem.ofStoreItem StoreItem with quantity := max 0 Quantity }, ?_, rfl,
        ?_⟩
      · simpa [FStoreCartItem.ofStoreItem] using hSku
      · simp only [AddToCart.updateItems, hFind, hStore]
    | none =>
      cases hPack : VirtualCurrencyPackages.Items.find?
          (fun InItem => FString.Equals InItem.sku ItemSKU) with
      | some CurrencyPackageItem =>
        left
        have hSku : FString.Equals CurrencyPackageItem.sku ItemSKU = true :=
          @List.find?_some _
            (fun InItem : FVirtualCurrencyPackage => FString.Equals InItem.sku ItemSKU) _ _
            hPack
        refine ⟨{ FStoreCartItem.ofCurrencyPackage CurrencyPackageItem with
          quantity := max 0 Quantity }, ?_, rfl, ?_⟩
        · simpa [FStoreCartItem.ofCurrencyPackage] using hSku
        · simp only [AddToCart.updateItems, hFind, hStore, hPack]
      | none =>
        right
        simp only [AddToCart.updateItems, hFind, hStore, hPack]

/-- Setting the quantity of one line item leaves the skus of the line items as they
are. -/
theorem map_sku_modify_quantity (Items : List FStoreCartItem) (Quantity : Int) (i : Nat) :
    (Items.modify (fun CartItem => { CartItem with quantity := Quantity }) i).map
        (fun Item => Item.sku) = Items.map (fun Item => Item.sku) := by
  induction Items generalizing i with
  | nil => cases i <;> rfl
  | cons Head Rest ih =>
    cases i with
    | zero => rfl
    | succ j =>
      rw [List.modify_succ_cons]
      simp only [List.map_cons, ih j]

/-- The loop of `RemoveFromCart` leaves a sublist of the line items. -/
theorem RemoveFromCart_loop_sublist (ItemSKU : String) (n : Nat) (Items : List FStoreCartItem) :
    (RemoveFromCart.loop ItemSKU n Items).Sublist Items := by
  induction n with
  | zero => exact List.Sublist.refl _
  | succ i ih =>
    unfold RemoveFromCart.loop
    cases hAt : Items[i]? with
    | none => exact ih
    | some Item =>
      by_cases hSku : FString.Equals Item.sku ItemSKU = true
      · simp only [hSku, if_true]
        exact List.eraseIdx_sublist _ _
      · simp only [hSku]
        exact ih

/-! ## Invariants of the local cart: results -/

/-- C28: if the line items of the local cart have pairwise distinct skus, they still have
pairwise distinct skus after `AddToCart` (for every sku, quantity, catalog and package
cache), after `RemoveFromCart` (for every sku) and after `ClearCart`. -/
theorem sku_uniqueness_preserved (E : FEngine) (s : UXsollaStoreController)
    (AuthToken ItemSKU : String) (Quantity : Int) (SuccessCallback ErrorCallback : FDelegate)
    (hDistinct : (s.Cart.Items.map (fun Item => Item.sku)).Nodup) :
    ((AddToCart E s AuthToken ItemSKU Quantity SuccessCallback ErrorCallback).Cart.Items.map
      (fun Item => Item.sku)).Nodup ∧
    ((RemoveFromCart E s AuthToken ItemSKU SuccessCallback ErrorCallback).Cart.Items.map
      (fun Item => Item.sku)).Nodup ∧
    ((ClearCart E s AuthToken SuccessCallback ErrorCallback).Cart.Items.map
      (fun Item => Item.sku)).Nodup := by
  refine ⟨?_, ?_, ?_⟩
  · rw [AddToCart_Cart]
    rcases updateItems_cases s.Cart.Items s.ItemsData s.VirtualCurrencyPackages ItemSKU
      Quantity with ⟨i, _, hEq⟩ | ⟨hAbsent, ⟨New, hSku, _, hEq⟩ | hEq⟩
    · simp only [hEq, map_sku_modify_quantity]
      exact hDistinct
    · simp only [hEq, List.map_append, List.map_cons, List.map_nil]
      rw [List.nodup_append]
      refine ⟨hDistinct, List.nodup_singleton _, ?_⟩
      intro Sku hLeft hRight
      rw [List.mem_singleton] at hRight
      obtain ⟨Item, hMem, hItem⟩ := List.mem_map.1 hLeft
      have hFalse := hAbsent Item hMem
      rw [hItem, hRight, hSku] at hFalse
      cases hFalse
    · simp only [hEq]
      exact hDistinct
  · rw [RemoveFromCart_Cart]
    exact hDistinct.sublist ((RemoveFromCart_loop_sublist ItemSKU _ _).map _)
  · simp [ClearCart, EnqueueCartRequest, ProcessNextCartRequest_Cart]

/-- C28 at a concrete input: the cart of the sample controller after `AddToCart("sku-1",
3)`, which holds one line item, and the sku `pack-9` of a currency package. -/
theorem sku_uniqueness_preserved_witness :
    ((AddToCart SampleEngine SampleAfterCalls "token" "pack-9" 2 1 2).Cart.Items.map
      (fun Item => Item.sku)).Nodup ∧
    ((RemoveFromCart SampleEngine SampleAfterCalls "token" "pack-9" 1 2).Cart.Items.map
      (fun Item => Item.sku)).Nodup ∧
    ((ClearCart SampleEngine SampleAfterCalls "token" 1 2).Cart.Items.map
      (fun Item => Item.sku)).Nodup :=
  sku_uniqueness_preserved SampleEngine SampleAfterCalls "token" "pack-9" 2 1 2 (by decide)

/-- C29 as stated fails: on the cart `[A (quantity 3), a (quantity 2)]`, which holds the
sku `a`, `AddToCart("a", -1)` leaves `[A (quantity 0), a (quantity 2)]`. The line item
with the sku `a` keeps its quantity 2 and does not get quantity 0; the line item set to 0
is the one with the sku `A`, which the comparison of the engine takes as equal to `a`. -/
theorem AddToCart_zero_quantity_ignores_case :
    SampleMixedCaseController.Cart.Items =
      [{ sku := "A", name := "upper", quantity := 3 },
        { sku := "a", name := "lower", quantity := 2 }] ∧
    (AddToCart SampleEngine SampleMixedCaseController "token" "a" (-1) 1 2).Cart.Items =
      [{ sku := "A", name := "upper", quantity := 0 },
        { sku := "a", name := "lower", quantity := 2 }] := by
  refine ⟨rfl, by decide⟩

/-- C29, amended: skus being compared as the engine compares them, ignoring case, for
every integer quantity `AddToCart` does not shorten the list of line items; every line
item of the resulting cart is a line item of the cart before or has the sku of the call
and the quantity `max 0 Quantity`, which is not negative; for a quantity that is not
positive and a sku that the cart holds, the cart afterwards has as many line items as
before and holds a line item with that sku and quantity 0; and the content of the request
appended to the queue is the serialised object `{quantity}` with the quantity as passed,
not clamped. -/
theorem AddToCart_quantity_not_negative (E : FEngine) (s : UXsollaStoreController)
    (AuthToken ItemSKU : String) (Quantity : Int) (SuccessCallback ErrorCallback : FDelegate) :
    s.Cart.Items.length ≤
      (AddToCart E s AuthToken ItemSKU Quantity SuccessCallback ErrorCallback).Cart.Items.length ∧
    (∀ Item ∈ (AddToCart E s AuthToken ItemSKU Quantity SuccessCallback ErrorCallback).Cart.Items,
      Item ∈ s.Cart.Items ∨
        (FString.Equals Item.sku ItemSKU = true ∧ Item.quantity = max 0 Quantity ∧
          0 ≤ Item.quantity)) ∧
    ((∃ Item ∈ s.Cart.Items, FString.Equals Item.sku ItemSKU = true) → Quantity ≤ 0 →
      (AddToCart E s AuthToken ItemSKU Quantity SuccessCallback ErrorCallback).Cart.Items.length =
        s.Cart.Items.length ∧
      ∃ Item ∈ (AddToCart E s AuthToken ItemSKU Quantity SuccessCallback
          ErrorCallback).Cart.Items,
        FString.Equals Item.sku ItemSKU = true ∧ Item.quantity = 0) ∧
    (AddToCart E s AuthToken ItemSKU Quantity SuccessCallback
      ErrorCallback).CartRequestsQueue.getLast?.map (fun Request => Request.Content) =
      some (E.Serialize [("quantity", FJsonValueNumber Quantity)]) := by
  have hLast : (AddToCart E s AuthToken ItemSKU Quantity SuccessCallback
      ErrorCallback).CartRequestsQueue.getLast? =
      some { CreateHttpRequest E s.NextRequestId
          ("https://store.xsolla.com/api/v1/project/" ++ s.ProjectId ++ "/cart/" ++
            toString s.Cart.cart_id ++ "/item/" ++ ItemSKU)
          ERequestVerb.PUT AuthToken
          (SerializeJson E [("quantity", FJsonValueNumber Quantity)]) with
        OnProcessRequestComplete := some
          { Handler := ECartRequest.AddToCart, SuccessCallback := SuccessCallback
            ErrorCallback := ErrorCallback }
        Status :=
          if s.CartRequestsQueue.all (fun Request => IsFinished Request.Status)
          then EHttpRequestStatus.Processing else EHttpRequestStatus.NotStarted } :=
    EnqueueCartRequest_last { s with CachedAuthToken := AuthToken } _ _ _ _
      (CreateHttpRequest_Status _ _ _ _ _ _)
  rw [hLast, AddToCart_Cart]
  refine ⟨?_, ?_, ?_, by simp [CreateHttpRequest_Content, SerializeJson]⟩
  · rcases updateItems_cases s.Cart.Items s.ItemsData s.VirtualCurrencyPackages ItemSKU
      Quantity with ⟨i, _, hEq⟩ | ⟨_, ⟨New, _, _, hEq⟩ | hEq⟩ <;> simp [hEq]
  · intro Item hMem
    rcases updateItems_cases s.Cart.Items s.ItemsData s.VirtualCurrencyPackages ItemSKU
      Quantity with ⟨i, hFind, hEq⟩ | ⟨_, ⟨New, hSku, hQuantity, hEq⟩ | hEq⟩
    · simp only [hEq] at hMem
      obtain ⟨⟨Found, hFound, hPred⟩, _⟩ := FindByPredicate_eq_some _ _ i hFind
      obtain ⟨j, hj⟩ := List.mem_iff_getElem?.1 hMem
      rw [List.getElem?_modify] at hj
      cases hAt : s.Cart.Items[j]? with
      | none =>
        rw [hAt] at hj
        simp at hj
      | some Old =>
        rw [hAt] at hj
        by_cases hi : i = j
        · right
          subst hi
          rw [hFound] at hAt
          cases hAt
          simp at hj
          subst hj
          exact ⟨hPred, rfl, le_max_left 0 Quantity⟩
        · left
          simp [hi] at hj
          subst hj
          exact List.getElem?_mem hAt
    · simp only [hEq, List.mem_append, List.mem_singleton] at hMem
      rcases hMem with hOld | hNew
      · exact Or.inl hOld
      · subst hNew
        exact Or.inr ⟨hSku, hQuantity, by rw [hQuantity]; exact le_max_left 0 Quantity⟩
    · simp only [hEq] at hMem
      exact Or.inl hMem
  · intro hPresent hQuantity
    rcases updateItems_cases s.Cart.Items s.ItemsData s.VirtualCurrencyPackages ItemSKU
      Quantity with ⟨i, hFind, hEq⟩ | ⟨hAbsent, _⟩
    · obtain ⟨⟨Found, hFound, hPred⟩, _⟩ := FindByPredicate_eq_some _ _ i hFind
      simp only [hEq, List.length_modify, true_and]
      refine ⟨{ Found with quantity := max 0 Quantity }, ?_, hPred, max_eq_left hQuantity⟩
      apply List.getElem?_mem (_ : _[i]? = _)
      rw [List.getElem?_modify, hFound]
      simp
    · obtain ⟨Item, hMem, hSku⟩ := hPresent
      rw [hAbsent Item hMem] at hSku
      cases hSku

/-- C29, amended, at a concrete input: `AddToCart("SKU-1", -4)` on a cart that holds
`sku-1` with quantity 3 keeps the one line item, now with quantity 0. -/
theorem AddToCart_quantity_not_negative_witness :
    (AddToCart SampleEngine SampleHeldController "token" "SKU-1" (-4) 1 2).Cart.Items.length =
      SampleHeldController.Cart.Items.length ∧
    ∃ Item ∈ (AddToCart SampleEngine SampleHeldController "token" "SKU-1" (-4) 1
        2).Cart.Items,
      FString.Equals Item.sku "SKU-1" = true ∧ Item.quantity = 0 :=
  (AddToCart_quantity_not_negative SampleEngine SampleHeldController "token" "SKU-1" (-4) 1
    2).2.2.1 ⟨{ sku := "sku-1", name := "Sword", quantity := 3 }, by decide, by decide⟩
    (by decide)

/-! ## Catalog getters: results -/

/-- The loop over the groups of an item returns true exactly when the comparison of the
engine takes the `external_id` of one of the groups as equal to the filter. -/
theorem GetVirtualItems_Predicate_iff (GroupFilter : String) (Groups : List FStoreItemGroup) :
    GetVirtualItems.Predicate GroupFilter Groups = true ↔
      ∃ ItemGroup ∈ Groups, FString.Equals ItemGroup.external_id GroupFilter = true := by
  induction Groups with
  | nil => simp [GetVirtualItems.Predicate]
  | cons Head Rest ih =>
    by_cases hHead : FString.Equals Head.external_id GroupFilter = true
    · simp [GetVirtualItems.Predicate, hHead]
    · simp [GetVirtualItems.Predicate, hHead, ih]

/-- C30 as stated fails: no cached item of the sample catalog has a group whose
`external_id` is `WEAPONS`, and `GetVirtualItems("WEAPONS")` returns the sword and the
bow all the same, because the comparison of the engine takes `weapons` as equal to
`WEAPONS`. -/
theorem GetVirtualItems_filter_ignores_case :
    (∀ Item ∈ SampleCatalogController.ItemsData.Items,
      ∀ ItemGroup ∈ Item.groups, ItemGroup.external_id ≠ "WEAPONS") ∧
    (GetVirtualItems SampleCatalogController "WEAPONS").map (fun Item => Item.sku) =
      ["sword", "bow"] := by
  refine ⟨by decide, by decide⟩

/-- C30, amended: `GetVirtualItems` with the empty filter returns the cached items; with a
filter that is not empty it returns the cached items that have a group whose `external_id`
is the filter, strings being compared as the engine compares them, ignoring case, each
kept at its place in the cached order; `GetVirtualItemsWithoutGroup` returns the cached
items that have no group, in the same way. For a filter that is not empty no item is in
both results, and every cached item is in the result without group or in the result for
the `external_id` of one of its groups. -/
theorem catalog_filters (s : UXsollaStoreController) (GroupFilter : String) :
    GetVirtualItems s "" = s.ItemsData.Items ∧
    (GroupFilter ≠ "" →
      GetVirtualItems s GroupFilter =
        s.ItemsData.Items.filter (fun Item =>
          decide (∃ ItemGroup ∈ Item.groups,
            FString.Equals ItemGroup.external_id GroupFilter = true))) ∧
    GetVirtualItemsWithoutGroup s =
      s.ItemsData.Items.filter (fun Item => decide (Item.groups = [])) ∧
    (GroupFilter ≠ "" →
      ∀ Item ∈ GetVirtualItems s GroupFilter, Item ∉ GetVirtualItemsWithoutGroup s) ∧
    (∀ Item ∈ s.ItemsData.Items,
      Item ∈ GetVirtualItemsWithoutGroup s ∨
        ∃ ItemGroup ∈ Item.groups, Item ∈ GetVirtualItems s ItemGroup.external_id) := by
  have hFilter : ∀ Filter : String, Filter ≠ "" →
      GetVirtualItems s Filter =
        s.ItemsData.Items.filter (fun Item =>
          decide (∃ ItemGroup ∈ Item.groups,
            FString.Equals ItemGroup.external_id Filter = true)) := by
    intro Filter hFilter
    simp only [GetVirtualItems, hFilter, if_false]
    apply List.filter_congr
    intro Item _
    rw [Bool.eq_iff_iff, GetVirtualItems_Predicate_iff]
    simp
  have hWithout : GetVirtualItemsWithoutGroup s =
      s.ItemsData.Items.filter (fun Item => decide (Item.groups = [])) := by
    simp only [GetVirtualItemsWithoutGroup]
    apply List.filter_congr
    intro Item _
    rw [Bool.eq_iff_iff]
    simp [List.length_eq_zero]
  refine ⟨by simp [GetVirtualItems], hFilter GroupFilter, hWithout, ?_, ?_⟩
  · intro hNotEmpty Item hMem hMemWithout
    rw [hFilter GroupFilter hNotEmpty, List.mem_filter] at hMem
    rw [hWithout, List.mem_filter] at hMemWithout
    obtain ⟨ItemGroup, hGroup, _⟩ := of_decide_eq_true hMem.2
    rw [of_decide_eq_true hMemWithout.2] at hGroup
    cases hGroup
  · intro Item hMem
    cases hGroups : Item.groups with
    | nil =>
      left
      rw [hWithout, List.mem_filter]
      exact ⟨hMem, decide_eq_true hGroups⟩
    | cons Head Rest =>
      right
      refine ⟨Head, List.mem_cons_self _ _, ?_⟩
      by_cases hEmpty : Head.external_id = ""
      · rw [hEmpty]
        simpa [GetVirtualItems] using hMem
      · rw [hFilter _ hEmpty, List.mem_filter]
        exact ⟨hMem, decide_eq_true ⟨Head, by rw [hGroups]; exact List.mem_cons_self _ _,
          FString_Equals_refl _⟩⟩

/-- C30, amended, at a concrete input: on the sample catalog the filter `Weapons` gives
the sword and the bow, in that order, and none of them is among the items without group,
which are the potion alone. -/
theorem catalog_filters_witness :
    (GetVirtualItems SampleCatalogController "Weapons").map (fun Item => Item.sku) =
      ["sword", "bow"] ∧
    (GetVirtualItemsWithoutGroup SampleCatalogController).map (fun Item => Item.sku) =
      ["potion"] ∧
    ∀ Item ∈ GetVirtualItems SampleCatalogController "Weapons",
      Item ∉ GetVirtualItemsWithoutGroup SampleCatalogController :=
  ⟨by decide, by decide,
    (catalog_filters SampleCatalogController "Weapons").2.2.2.1 (by decide)⟩

end XsollaStore
